import Mathlib

/-!
# BMW IBus daemon: protocol engine

A shallow embedding of the protocol engine of `bmw-ibus.c`: the receive buffer,
the XOR checksum, the frame extraction loop of `process_ibus_message`, the button
decoder and the head-unit state machine, followed by theorems about them.

Bytes are natural numbers below 256; C arithmetic on `unsigned char` is written
with an explicit `% 256`, arithmetic on `unsigned int` with `% 2 ^ 32`.
The two collaborators of the engine, the key sink (`send_key_event`) and the
video line (`enable_video_input`), are recorded as events of a trace.
Diagnostic output (`printf`, the `TRACE` macros, `print_ibus_message`) is left out: it
changes no variable of the engine.
-/

namespace BmwIbus

/-! ## IBUS constants -/

def EPosSender : Nat := 0
def EPosLength : Nat := 1
def EPosReceiver : Nat := 2
def EPosMessage : Nat := 3
def EPosDataStart : Nat := 4

def ESenderAndLengthLength : Nat := 2
/-- The minimum message has no data at all: sender, length, receiver, message, checksum. -/
def EMinimumMessageLength : Nat := 5
/-- The source comment: the length byte can be 0xFF, so a message has at most 257 bytes. -/
def EMaximumMessageLength : Nat := 257

/-! Devices -/
def GT : Nat := 0x3B
def MFL : Nat := 0x50
def RAD : Nat := 0x68
def BMBT : Nat := 0xF0

/-! Messages -/
def UMID : Nat := 0x23
def MFLB : Nat := 0x32
def MFLB2 : Nat := 0x3B
def LCDC : Nat := 0x46
def BMBTB0 : Nat := 0x47
def BMBTB1 : Nat := 0x48
def KNOB : Nat := 0x49
def ST : Nat := 0xa5

/-! Data -/
def ButtonPress : Nat := 0x00
def ButtonLongPress : Nat := 0x40
def ButtonRelease : Nat := 0x80

def ButtonArrowRight : Nat := 0x00
def ButtonRadioPower : Nat := 0x06

def ButtonMenuKnobClockwiseMask : Nat := 0x80
def ButtonMenuKnobCounterClockwiseMask : Nat := 0x00

def ButtonSelectInTapeMode : Nat := 0x0f

def MFL2ButtonPress : Nat := 0x00
def MFL2ButtonRelease : Nat := 0x20
def MFL2ButtonChannelUp : Nat := 0x01
def MFL2ButtonChannelDown : Nat := 0x08
def MFL2AnswerButton : Nat := 0x80

/-! Not real data codes: indices into `headunit_buttons`. -/
def MenuKnobClockwiseMask : Nat := 0x35
def MenuKnobCounterClockwiseMask : Nat := 0x36
def SelectInTapeMode : Nat := 0x37
def MFL2ChannelUp : Nat := 0x38
def MFL2ChannelDown : Nat := 0x39

/-! Linux key codes used by the table (values of `linux/input.h`). -/
def KEY_ESC : Nat := 1
def KEY_4 : Nat := 5
def KEY_5 : Nat := 6
def KEY_6 : Nat := 7
def KEY_BACKSPACE : Nat := 14
def KEY_ENTER : Nat := 28
def KEY_SPACE : Nat := 57
def KEY_UP : Nat := 103
def KEY_LEFT : Nat := 105
def KEY_RIGHT : Nat := 106
def KEY_DOWN : Nat := 108
def KEY_MENU : Nat := 139
def KEY_SETUP : Nat := 141
def KEY_UNKNOWN : Nat := 240

/-- Sentinel of the buttons that change the head-unit state. -/
def RESERVED_BUTTON : Nat := 0xFFFF

structure ibus_buttons where
  name : String
  key_code : Nat
deriving DecidableEq, Repr

/-- The key mapping from IBUS button codes to Linux key codes (58 entries, 0x00 .. 0x39). -/
def headunit_buttons : List ibus_buttons := [
  ⟨"ButtonArrowRight", KEY_UP⟩,            -- 0x00
  ⟨"Button2", KEY_BACKSPACE⟩,              -- 0x01
  ⟨"Button4", KEY_4⟩,                      -- 0x02
  ⟨"Button6", KEY_6⟩,                      -- 0x03
  ⟨"ButtonTone", RESERVED_BUTTON⟩,         -- 0x04
  ⟨"ButtonMenuKnob", KEY_ENTER⟩,           -- 0x05
  ⟨"ButtonRadioPower", RESERVED_BUTTON⟩,   -- 0x06
  ⟨"ButtonClock", KEY_SETUP⟩,              -- 0x07
  ⟨"ButtonTelephone", KEY_SETUP⟩,          -- 0x08
  ⟨"0x08", KEY_UNKNOWN⟩,                   -- 0x09
  ⟨"0x09", KEY_UNKNOWN⟩,                   -- 0x0A
  ⟨"0x0A", KEY_UNKNOWN⟩,                   -- 0x0B
  ⟨"0x0B", KEY_UNKNOWN⟩,                   -- 0x0C
  ⟨"0x0C", KEY_UNKNOWN⟩,                   -- 0x0D
  ⟨"0x0D", KEY_UNKNOWN⟩,                   -- 0x0E
  ⟨"0x0F", KEY_UNKNOWN⟩,                   -- 0x0F
  ⟨"ButtonArrowLeft", KEY_DOWN⟩,           -- 0x10
  ⟨"Button1", KEY_MENU⟩,                   -- 0x11
  ⟨"Button3", KEY_SPACE⟩,                  -- 0x12
  ⟨"Button5", KEY_5⟩,                      -- 0x13
  ⟨"ButtonReversePlay", KEY_SETUP⟩,        -- 0x14
  ⟨"0x15", KEY_UNKNOWN⟩,                   -- 0x15
  ⟨"0x16", KEY_UNKNOWN⟩,                   -- 0x16
  ⟨"0x17", KEY_UNKNOWN⟩,                   -- 0x17
  ⟨"0x18", KEY_UNKNOWN⟩,                   -- 0x18
  ⟨"0x19", KEY_UNKNOWN⟩,                   -- 0x19
  ⟨"0x1A", KEY_UNKNOWN⟩,                   -- 0x1A
  ⟨"0x1B", KEY_UNKNOWN⟩,                   -- 0x1B
  ⟨"0x1C", KEY_UNKNOWN⟩,                   -- 0x1C
  ⟨"0x1D", KEY_UNKNOWN⟩,                   -- 0x1D
  ⟨"0x1E", KEY_UNKNOWN⟩,                   -- 0x1E
  ⟨"0x1F", KEY_UNKNOWN⟩,                   -- 0x1F
  ⟨"0x20", KEY_UNKNOWN⟩,                   -- 0x20
  ⟨"ButtonAM", RESERVED_BUTTON⟩,           -- 0x21
  ⟨"ButtonRDS", RESERVED_BUTTON⟩,          -- 0x22
  ⟨"ButtonMode", RESERVED_BUTTON⟩,         -- 0x23
  ⟨"ButtonEject", RESERVED_BUTTON⟩,        -- 0x24
  ⟨"0x25", KEY_UNKNOWN⟩,                   -- 0x25
  ⟨"0x26", KEY_UNKNOWN⟩,                   -- 0x26
  ⟨"0x27", KEY_UNKNOWN⟩,                   -- 0x27
  ⟨"0x28", KEY_UNKNOWN⟩,                   -- 0x28
  ⟨"0x29", KEY_UNKNOWN⟩,                   -- 0x29
  ⟨"0x2A", KEY_UNKNOWN⟩,                   -- 0x2A
  ⟨"0x2B", KEY_UNKNOWN⟩,                   -- 0x2B
  ⟨"0x2C", KEY_UNKNOWN⟩,                   -- 0x2C
  ⟨"0x2D", KEY_UNKNOWN⟩,                   -- 0x2D
  ⟨"0x2E", KEY_UNKNOWN⟩,                   -- 0x2E
  ⟨"0x2F", KEY_UNKNOWN⟩,                   -- 0x2F
  ⟨"ButtonSwitch", RESERVED_BUTTON⟩,       -- 0x30
  ⟨"ButtonFM", RESERVED_BUTTON⟩,           -- 0x31
  ⟨"ButtonTP", RESERVED_BUTTON⟩,           -- 0x32
  ⟨"ButtonDolby", KEY_UNKNOWN⟩,            -- 0x33
  ⟨"ButtonMenu", RESERVED_BUTTON⟩,         -- 0x34
  ⟨"ButtonMenuKnobClockwiseMask", KEY_RIGHT⟩,         -- 0x35
  ⟨"ButtonMenuKnobCounterClockwiseMask", KEY_LEFT⟩,   -- 0x36
  ⟨"ButtonSelectInTapeMode", KEY_ESC⟩,                -- 0x37
  ⟨"MFL2ButtonChannelUp", KEY_UP⟩,                    -- 0x38
  ⟨"MFL2ButtonChannelDown", KEY_DOWN⟩                 -- 0x39
]

inductive EIbusState where
  | EStateUnknown
  | EStatePowerOff
  | EStateMenu
  | EStateFM
  | EStateTAPE
  | EStateAUX
  | EStateCDChanger
deriving DecidableEq, Repr

open EIbusState

/-! ## Engine state -/

/-- The size of `ibus_data`, `257*8` bytes. -/
def ibus_data_max_length : Nat := 257 * 8

/-- A call made to a collaborator, or the mark of a validated message. -/
inductive Event where
  /-- The candidate passed steps 1 and 2 of `process_ibus_message` and reached step 3,
  where the source prints it when message tracing is on. Carries the candidate's bytes. -/
  | valid_message (frame : List Nat)
  /-- A call `send_key_event(key, value)` to the key sink. -/
  | send_key_event (key value : Nat)
  /-- A call `enable_video_input(enable)` to the video line. -/
  | enable_video_input (enable : Nat)
deriving DecidableEq, Repr

/-- The file-scope variables of the engine and the trace of the calls made so far. -/
structure Engine where
  ibus_data : List Nat
  ibus_data_index : Nat
  ibus_state : EIbusState
  IbusHijackState : EIbusState
  send_key_events : Nat
  trace : List Event
deriving DecidableEq, Repr

/-- How a run can fail to return. -/
inductive Fault where
  /-- The loop was still running when the fuel ran out. -/
  | out_of_fuel
  /-- A read of `headunit_buttons[button]` with `button` beyond the 58 entries. -/
  | table_out_of_bounds (button : Nat)
  /-- The `strstr` scan of `data_contains` found no NUL inside `ibus_data`. -/
  | scan_out_of_bounds
deriving DecidableEq, Repr

instance instDecidableEqRun {α : Type} [DecidableEq α] : DecidableEq (Except Fault α)
  | .ok a, .ok b => if h : a = b then isTrue (by rw [h]) else isFalse (by simp [h])
  | .error a, .error b => if h : a = b then isTrue (by rw [h]) else isFalse (by simp [h])
  | .ok _, .error _ => isFalse (by simp)
  | .error _, .ok _ => isFalse (by simp)

/-- The key events of a trace, in order. -/
def key_events : List Event → List (Nat × Nat)
  | [] => []
  | Event.send_key_event k v :: t => (k, v) :: key_events t
  | _ :: t => key_events t

/-- The arguments of the video-line calls of a trace, in order. -/
def video_calls : List Event → List Nat
  | [] => []
  | Event.enable_video_input e :: t => e :: video_calls t
  | _ :: t => video_calls t

/-- The validated candidates of a trace, in order. -/
def valid_messages : List Event → List (List Nat)
  | [] => []
  | Event.valid_message f :: t => f :: valid_messages t
  | _ :: t => valid_messages t

/-! ## Buffer primitives -/

/-- `memset(&buf[start], c, n)`. -/
def memset (buf : List Nat) (start c n : Nat) : List Nat :=
  buf.take start ++ List.replicate n c ++ buf.drop (start + n)

/-- `memmove(&buf[dst], &buf[src], n)`. -/
def memmove (buf : List Nat) (dst src n : Nat) : List Nat :=
  buf.take dst ++ (buf.drop src).take n ++ buf.drop (dst + n)

/-- `memset(ibus_data, 0, sizeof(ibus_data)); ibus_data_index = 0;`. -/
def clear_buffer (s : Engine) : Engine :=
  { s with ibus_data := List.replicate ibus_data_max_length 0, ibus_data_index := 0 }

/-- The read of one received byte in the main loop: store, advance, flush when full. -/
def append_byte (s : Engine) (b : Nat) : Engine :=
  let s1 := { s with ibus_data := s.ibus_data.set s.ibus_data_index b,
                     ibus_data_index := s.ibus_data_index + 1 }
  if s1.ibus_data_index = ibus_data_max_length then clear_buffer s1 else s1

/-! ## Collaborators -/

def send_key_event (s : Engine) (key value : Nat) : Engine :=
  { s with trace := s.trace ++ [Event.send_key_event key value] }

def enable_video_input (s : Engine) (enable : Nat) : Engine :=
  { s with trace := s.trace ++ [Event.enable_video_input enable] }

/-! ## IBUS functions -/

def handle_ibus_button (s : Engine) (button released _longPress : Nat) : Except Fault Engine :=
  if s.send_key_events ≠ 0 then
    match headunit_buttons[button]? with
    | none => .error (Fault.table_out_of_bounds button)
    | some b =>
      if b.key_code ≠ KEY_UNKNOWN ∨ b.key_code ≠ RESERVED_BUTTON then
        .ok (send_key_event s b.key_code (if released ≠ 0 then 0 else 1))
      else .ok s
  else .ok s

def ibus_change_state (s : Engine) (aNewState : EIbusState) : Engine :=
  if s.ibus_state = aNewState then s
  else
    let s1 := { s with ibus_state := aNewState }
    if s1.ibus_state = s1.IbusHijackState ∧ s1.IbusHijackState ≠ EStateUnknown then
      enable_video_input { s1 with send_key_events := 1 } 1
    else
      enable_video_input { s1 with send_key_events := 0 } 0

/-- The loop of `calc_ibus_checksum`: `i` and `checksum` are `unsigned char`,
`checksum_index` is `unsigned int`. -/
def calc_ibus_checksum_loop (ibus_data : List Nat) (checksum_index : Nat) :
    Nat → Nat → Nat → Except Fault Nat
  | 0, _, _ => .error Fault.out_of_fuel
  | fuel + 1, i, checksum =>
    if i < checksum_index then
      calc_ibus_checksum_loop ibus_data checksum_index fuel ((i + 1) % 256)
        ((checksum ^^^ ibus_data.getD i 0) % 256)
    else .ok checksum

def calc_ibus_checksum (fuel : Nat) (ibus_data : List Nat) (checksum_index : Nat) :
    Except Fault Nat :=
  calc_ibus_checksum_loop ibus_data checksum_index fuel 0 0

/-- Returns `unsigned char`: the sum is truncated to eight bits. -/
def get_message_length (ibus_data : List Nat) : Nat :=
  (ibus_data.getD EPosLength 0 + ESenderAndLengthLength) % 256

def get_data_length (ibus_data : List Nat) : Nat :=
  let len := get_message_length ibus_data
  if len ≤ EMinimumMessageLength then 0 else len - EMinimumMessageLength

def get_sender (ibus_data : List Nat) : Nat := ibus_data.getD EPosSender 0
def get_receiver (ibus_data : List Nat) : Nat := ibus_data.getD EPosReceiver 0
def get_message (ibus_data : List Nat) : Nat := ibus_data.getD EPosMessage 0

/-- Returns the nth data byte. -/
def get_data_byte (ibus_data : List Nat) (idx : Nat) : Nat :=
  ibus_data.getD (EPosDataStart + idx) 0

/-- The C string that starts at the head of `l`: the bytes before the first NUL,
or nothing when `l` holds no NUL. -/
def c_string : List Nat → Option (List Nat)
  | [] => none
  | b :: t => if b = 0 then some [] else (c_string t).map (fun r => b :: r)

/-- Whether `tag` starts `l`. -/
def starts_with : List Nat → List Nat → Bool
  | _, [] => true
  | [], _ :: _ => false
  | a :: l, b :: tag => a == b && starts_with l tag

/-- `strstr(hay, tag) != NULL` on NUL-free byte strings. -/
def strstr : List Nat → List Nat → Bool
  | [], tag => starts_with [] tag
  | a :: hay, tag => starts_with (a :: hay) tag || strstr hay tag

def data_contains (ibus_data : List Nat) (tag : List Nat) : Except Fault Bool :=
  match c_string (ibus_data.drop EPosDataStart) with
  | none => .error Fault.scan_out_of_bounds
  | some hay => .ok (strstr hay tag)

/-! The tags searched for, as ASCII bytes. -/
def tag_AUX : List Nat := [0x41, 0x55, 0x58]
def tag_TAPE : List Nat := [0x54, 0x41, 0x50, 0x45]
def tag_RDS : List Nat := [0x52, 0x44, 0x53]
def tag_FM : List Nat := [0x46, 0x4D]
def tag_REG : List Nat := [0x52, 0x45, 0x47]
def tag_MWA : List Nat := [0x4D, 0x57, 0x41]

def handle_headunit_state (s : Engine) : Except Fault Engine :=
  let d := s.ibus_data
  if get_sender d = RAD ∧ get_receiver d = GT then
    if get_message d = UMID then
      if get_data_byte d 0 = 0x62 then do
        if (← data_contains d tag_AUX) then
          pure (ibus_change_state s EStateAUX)
        else if (← data_contains d tag_TAPE) then
          pure (ibus_change_state s EStateTAPE)
        else pure s
      else pure s
    else if get_message d = ST then
      if get_data_byte d 0 = 0x62 then do
        if (← data_contains d tag_RDS) || (← data_contains d tag_FM)
            || (← data_contains d tag_REG) || (← data_contains d tag_MWA) then
          pure (ibus_change_state s EStateFM)
        else pure s
      else pure s
    else if get_message d = LCDC then
      if get_data_length d = 1 then
        if get_data_byte d 0 = 0x01 ∨ get_data_byte d 0 = 0x02 then
          pure (ibus_change_state s EStateMenu)
        else pure s
      else pure s
    else pure s
  else pure s

/-- The phase decoding written inline in the two button banks of `process_ibus_message`:
clears the long-press bit, or else the release bit, of `databyte`.
Returns `(databyte, released, longPress)`. -/
def clear_phase_bits (databyte : Nat) : Nat × Nat × Nat :=
  if databyte &&& ButtonLongPress ≠ 0 then (databyte &&& (0xFF ^^^ ButtonLongPress), 0, 1)
  else if databyte &&& ButtonRelease ≠ 0 then (databyte &&& (0xFF ^^^ ButtonRelease), 1, 0)
  else (databyte, 0, 0)

/-- The key code `headunit_buttons[button].key_code` at an index inside the table. -/
def key_code_at (button : Nat) : Nat :=
  match headunit_buttons[button]? with
  | some b => b.key_code
  | none => 0

/-- The loop `while(databyte) { press; release; databyte--; }` of the knob message. -/
def knob_loop (s : Engine) (key : Nat) : Nat → Engine
  | 0 => s
  | databyte + 1 => knob_loop (send_key_event (send_key_event s key 1) key 0) key databyte

/-- Step 4 of `process_ibus_message`: handle the button messages. -/
def handle_buttons (s : Engine) : Except Fault Engine :=
  let d := s.ibus_data
  if get_sender d = BMBT then
    if get_message d = BMBTB1 then
      let p := clear_phase_bits (get_data_byte d 0)
      let s1 := if p.1 = ButtonRadioPower then ibus_change_state s EStatePowerOff else s
      handle_ibus_button s1 p.1 p.2.1 p.2.2
    else if get_message d = BMBTB0 then
      let p := clear_phase_bits (get_data_byte d 1)
      if p.1 = ButtonSelectInTapeMode then handle_ibus_button s SelectInTapeMode p.2.1 p.2.2
      else .ok s
    else if get_message d = KNOB then
      let databyte := get_data_byte d 0
      if databyte &&& ButtonMenuKnobClockwiseMask ≠ 0 then
        .ok (knob_loop s (key_code_at MenuKnobClockwiseMask)
          (databyte &&& (0xFF ^^^ ButtonMenuKnobClockwiseMask)))
      else
        .ok (knob_loop s (key_code_at MenuKnobCounterClockwiseMask) databyte)
    else .ok s
  else if get_sender d = MFL ∧ get_receiver d = RAD then
    let databyte := get_data_byte d 0
    if get_message d = MFLB then .ok s
    else if get_message d = MFLB2 then
      let released := if databyte &&& MFL2ButtonRelease ≠ 0 then 1 else 0
      let databyte := if databyte &&& MFL2ButtonRelease ≠ 0
        then databyte &&& (0xFF ^^^ MFL2ButtonRelease) else databyte
      if databyte &&& MFL2ButtonChannelUp ≠ 0 then handle_ibus_button s MFL2ChannelUp released 0
      else if databyte &&& MFL2ButtonChannelDown ≠ 0 then
        handle_ibus_button s MFL2ChannelDown released 0
      else .ok s
    else .ok s
  else .ok s

/-- Step 5: the state messages are handled only if a hijack state is given. -/
def handle_state (s : Engine) : Except Fault Engine :=
  if s.IbusHijackState ≠ EStateUnknown then handle_headunit_state s else .ok s

/-- The outcome of steps 1 and 2 of `process_ibus_message` on the first candidate. -/
inductive Verdict where
  | invalid_length
  | invalid_checksum
  | valid
deriving DecidableEq, Repr

/-- `checksum_index = cur_mes_len - 1` in `unsigned int`. -/
def checksum_index_of (cur_mes_len : Nat) : Nat := (cur_mes_len + 2 ^ 32 - 1) % 2 ^ 32

/-- Steps 1 and 2 of `process_ibus_message`: validate the length, then the checksum. -/
def validate_ibus_message (fuel : Nat) (s : Engine) : Except Fault Verdict :=
  let cur_mes_len := get_message_length s.ibus_data
  if s.ibus_data_index < EMinimumMessageLength ∨ s.ibus_data_index < cur_mes_len then
    .ok Verdict.invalid_length
  else
    let checksum_index := checksum_index_of cur_mes_len
    match calc_ibus_checksum fuel s.ibus_data checksum_index with
    | .error e => .error e
    | .ok c =>
      if c ≠ s.ibus_data.getD checksum_index 0 then .ok Verdict.invalid_checksum
      else .ok Verdict.valid

/-- The end of the loop body: move the data so that the first message is cleared. -/
def discard_message (s : Engine) (cur_mes_len : Nat) : Engine :=
  if s.ibus_data_index ≥ cur_mes_len then
    let moved := memmove s.ibus_data 0 cur_mes_len (s.ibus_data_index - cur_mes_len)
    let idx := s.ibus_data_index - cur_mes_len
    { s with ibus_data := memset moved idx 0 cur_mes_len, ibus_data_index := idx }
  else s

/-- Step 3: the candidate of `cur_mes_len` bytes is valid; it is recorded in the trace. -/
def mark_valid (s : Engine) (cur_mes_len : Nat) : Engine :=
  { s with trace := s.trace ++ [Event.valid_message (s.ibus_data.take cur_mes_len)] }

/-- Steps 3 to 5 of the loop body on a validated candidate, the removal of the candidate
and the loop test: `again` is the next iteration of the loop. -/
def accept_message (s : Engine) (again : Engine → Except Fault Engine) : Except Fault Engine :=
  let cur_mes_len := get_message_length s.ibus_data
  let s0 := mark_valid s cur_mes_len
  match handle_buttons s0 with
  | .error e => .error e
  | .ok s1 =>
    match handle_state s1 with
    | .error e => .error e
    | .ok s2 =>
      let s3 := discard_message s2 cur_mes_len
      if s3.ibus_data_index ≠ 0 then again s3 else .ok (clear_buffer s3)

/-- Processes the IBus messages of the buffer: the `do ... while(ibus_data_index)` loop,
its exit and its `err` label. One unit of fuel per iteration; the checksum loop of an
iteration runs on the fuel that is left. -/
def process_ibus_message : Nat → Engine → Except Fault Engine
  | 0, _ => .error Fault.out_of_fuel
  | fuel + 1, s =>
    match validate_ibus_message fuel s with
    | .error e => .error e
    | .ok Verdict.valid => accept_message s (process_ibus_message fuel)
    | .ok _ => .ok (clear_buffer s)

/-- The buffer set up by `testibusmessage`: cleared, then filled with `bytes`. -/
def load_buffer (s : Engine) (bytes : List Nat) : Engine :=
  { s with ibus_data := bytes ++ List.replicate (ibus_data_max_length - bytes.length) 0,
           ibus_data_index := bytes.length }

/-- The engine at start-up with hijack state `hijack`: state unknown, key events off,
buffer cleared, nothing called yet. -/
def initial_engine (hijack : EIbusState) : Engine :=
  { ibus_data := List.replicate ibus_data_max_length 0, ibus_data_index := 0,
    ibus_state := EStateUnknown, IbusHijackState := hijack, send_key_events := 0, trace := [] }

/-! ## Specification-side notions -/

/-- The bytewise XOR of the bytes `0 .. k-1` of a buffer. -/
def xor_first (data : List Nat) : Nat → Nat
  | 0 => 0
  | k + 1 => xor_first data k ^^^ data.getD k 0

/-- The bytes `0 .. k-1` of a buffer are bytes. -/
def bytes_below (data : List Nat) (k : Nat) : Prop := ∀ i, i < k → data.getD i 0 < 256

instance instDecidableBytesBelow (data : List Nat) (k : Nat) : Decidable (bytes_below data k) :=
  inferInstanceAs (Decidable (∀ i, i < k → data.getD i 0 < 256))

/-- A well-formed frame as the wire format describes it: at least five bytes, the second
byte is the number of bytes that follow it, and the last byte is the XOR of all the
bytes before it. -/
def well_formed_frame (f : List Nat) : Prop :=
  5 ≤ f.length ∧ f.length = f.getD EPosLength 0 + 2 ∧ bytes_below f f.length ∧
    f.getD (f.length - 1) 0 = xor_first f (f.length - 1)

instance instDecidableWellFormedFrame (f : List Nat) : Decidable (well_formed_frame f) :=
  inferInstanceAs (Decidable (_ ∧ _ ∧ _ ∧ _))

/-- A frame of the maximum length of 257 bytes: length byte `0xFF`, 252 data bytes. -/
def frame_257 : List Nat := [0xF0, 0xFF, 0x68, 0x48] ++ List.replicate 252 0 ++ [0x2F]

/-- A frame of 256 bytes: length byte `0xFE`, 251 data bytes. -/
def frame_256 : List Nat := [0xF0, 0xFE, 0x68, 0x48] ++ List.replicate 251 0 ++ [0x2E]

/-- The button-bank-1 frame "arrow right pressed". -/
def frame_arrow_right : List Nat := [0xF0, 0x04, 0x68, 0x48, 0x00, 0xD4]

/-- Five buffered bytes whose length byte 2 declares a four-byte message. -/
def bytes_short_length : List Nat := [0xF0, 0x02, 0xBA, 0x48, 0x06]

/-- The engine with hijack state `hijack` once the head unit has entered that state. -/
def hijacking_engine (hijack : EIbusState) : Engine :=
  ibus_change_state (initial_engine hijack) hijack

/-- The value the key-forwarding flag has when it agrees with the state and the hijack
state: 1 when the state is the hijack state and a hijack state is given, else 0. -/
def gate_of (s : Engine) : Nat :=
  if s.ibus_state = s.IbusHijackState ∧ s.IbusHijackState ≠ EStateUnknown then 1 else 0

/-- The six bytes `F0 04 68 47 00 DB`. -/
def frame_bank0 : List Nat := [0xF0, 0x04, 0x68, 0x47, 0x00, 0xDB]

/-- The six bytes `F0 04 68 48 00 DC`: "arrow right pressed" with a wrong last byte. -/
def frame_bad_checksum : List Nat := [0xF0, 0x04, 0x68, 0x48, 0x00, 0xDC]

/-- The handlers leave the receive buffer and the configuration alone. -/
def same_buffer (s t : Engine) : Prop :=
  t.ibus_data = s.ibus_data ∧ t.ibus_data_index = s.ibus_data_index ∧
    t.IbusHijackState = s.IbusHijackState

/-- The frame `f` with bit `j` of byte `i` flipped. -/
def flip_bit (f : List Nat) (i j : Nat) : List Nat :=
  f.set i (f.getD i 0 ^^^ 2 ^ j)

/-- A well-formed bank-1 frame of nine bytes, length byte 7. -/
def frame_nine : List Nat := [0xF0, 0x07, 0xBD, 0x48, 0x06, 0x00, 0x00, 0x00, 0x04]

/-- The bytes read one after the other by the main loop. -/
def feed (s : Engine) (bytes : List Nat) : Engine :=
  bytes.foldl append_byte s

/-- The states of the engine in a run of the daemon: the start-up state with one of the
hijack states the command line can give, then any sequence of byte reads and of calls of
`process_ibus_message` that return. -/
inductive Reachable : Engine → Prop where
  | start (hijack : EIbusState)
      (h : hijack = EStateUnknown ∨ hijack = EStateTAPE ∨ hijack = EStateAUX) :
      Reachable (initial_engine hijack)
  | read (s : Engine) (b : Nat) (hb : b < 256) (hs : Reachable s) :
      Reachable (append_byte s b)
  | process (s t : Engine) (fuel : Nat) (hs : Reachable s)
      (h : process_ibus_message fuel s = .ok t) : Reachable t

/-- The argument of the last video-line call of a trace, if there is one. -/
def last_video_call (trace : List Event) : Option Nat :=
  (video_calls trace).getLast?

/-- The key-forwarding flag agrees with the state and the hijack state, and with the last
video-line call. -/
def gate_consistent (s : Engine) : Prop :=
  s.send_key_events = gate_of s ∧
    ∀ v, last_video_call s.trace = some v → v = s.send_key_events

/-- A display-text frame from the radio to the graphics unit showing `0TAPE`. -/
def frame_text_tape : List Nat :=
  [0x68, 0x09, 0x3B, 0x23, 0x62, 0x30, 0x54, 0x41, 0x50, 0x45, 0x2B]

/-- The engine after the frame `frame_text_tape` was processed with hijack state tape. -/
def engine_after_tape_text : Engine :=
  { initial_engine EStateTAPE with
    ibus_state := EStateTAPE, send_key_events := 1,
    trace := [Event.valid_message frame_text_tape, Event.enable_video_input 1] }

/-- The knob message "turned clockwise once", sent with no hijack state given. -/
def frame_knob_once : List Nat := [0xF0, 0x04, 0x3B, 0x49, 0x81, 0x07]

/-- The button-bank-1 frame "tone pressed"; the table entry of tone is reserved. -/
def frame_tone : List Nat := [0xF0, 0x04, 0x68, 0x48, 0x04, 0xD0]

/-- The events of `k` turns of the knob: press then release of `key`, `k` times. -/
def knob_pairs (key : Nat) : Nat → List Event
  | 0 => []
  | k + 1 => Event.send_key_event key 1 :: Event.send_key_event key 0 :: knob_pairs key k

/-- The data bytes of a frame: the bytes after the message byte, without the last byte. -/
def payload (f : List Nat) : List Nat := (f.drop EPosDataStart).dropLast

/-- The text of a byte string: its bytes before the first zero byte. -/
def text_of : List Nat → List Nat
  | [] => []
  | b :: t => if b = 0 then [] else b :: text_of t

/-- The byte string `tag` occurs in `text` as a run of consecutive bytes. -/
def contains_bytes (text tag : List Nat) : Prop := ∃ pre post, text = pre ++ tag ++ post

/-- The bytes the scan of `data_contains` reads when the frame is alone in a cleared
buffer: the data bytes up to the first zero byte and, when no data byte is zero, the
checksum byte after them. -/
def scanned_text (f : List Nat) : List Nat := text_of (f.drop EPosDataStart)

/-- The checksum byte completes an occurrence of `tag` that the data bytes alone do not
hold. -/
def checksum_completes (f tag : List Nat) : Prop :=
  contains_bytes (scanned_text f) tag ∧ ¬ contains_bytes (text_of (payload f)) tag

/-- A display-text frame from the radio to the graphics unit showing `0AUX`. -/
def frame_text_aux : List Nat := [0x68, 0x08, 0x3B, 0x23, 0x62, 0x30, 0x41, 0x55, 0x58, 0x66]

/-- A display-text frame whose data bytes hold a zero byte before `AUX`. -/
def frame_text_nul_aux : List Nat :=
  [0x68, 0x08, 0x3B, 0x23, 0x62, 0x00, 0x41, 0x55, 0x58, 0x56]

/-- A display-text frame showing `TAPE AUX`. -/
def frame_text_tape_aux : List Nat :=
  [0x68, 0x0C, 0x3B, 0x23, 0x62, 0x54, 0x41, 0x50, 0x45, 0x20, 0x41, 0x55, 0x58, 0x72]

/-- A screen-text frame from the radio to the graphics unit showing `FM` after byte 1. -/
def frame_screen_fm : List Nat := [0x68, 0x07, 0x3B, 0xA5, 0x62, 0x01, 0x46, 0x4D, 0x99]

/-- A screen-text frame whose data bytes hold a zero byte before `FM`. -/
def frame_screen_nul_fm : List Nat := [0x68, 0x07, 0x3B, 0xA5, 0x62, 0x00, 0x46, 0x4D, 0x98]

/-- The LCD-clear frame "no display required" from the radio to the graphics unit. -/
def frame_lcd_clear : List Nat := [0x68, 0x04, 0x3B, 0x46, 0x01, 0x10]

/-- Five buffered bytes with length byte `0xFE`. -/
def bytes_length_fe : List Nat := [0x00, 0xFE, 0x00, 0x00, 0x00]

/-- A well-formed button-bank-1 frame with the two data bytes `06 00`. -/
def frame_bank1_two_bytes : List Nat := [0xF0, 0x05, 0x68, 0x48, 0x06, 0x00, 0xD3]

/-- A well-formed button-bank-1 frame with the two data bytes `00 00`. -/
def frame_bank1_two_zero : List Nat := [0xF0, 0x05, 0x68, 0x48, 0x00, 0x00, 0xD5]

/-- A well-formed button-bank-1 frame with no data byte; its checksum byte is `06`. -/
def frame_bank1_no_data : List Nat := [0xF0, 0x03, 0xBD, 0x48, 0x06]

/-- A well-formed button-bank-0 frame with the one data byte `D4`; its checksum byte
is `0F`. -/
def frame_bank0_one_byte : List Nat := [0xF0, 0x04, 0x68, 0x47, 0xD4, 0x0F]

/-- A well-formed button-bank-1 frame with the data byte `3A`. -/
def frame_code_3a : List Nat := [0xF0, 0x04, 0x68, 0x48, 0x3A, 0xEE]

/-- The engine is off the video line for good: no hijack state is given, the state is
unknown or power off, key events are off and every video-line call so far carried 0. -/
def hijack_off (s : Engine) : Prop :=
  s.IbusHijackState = EStateUnknown ∧
    (s.ibus_state = EStateUnknown ∨ s.ibus_state = EStatePowerOff) ∧
    s.send_key_events = 0 ∧ ∀ v, v ∈ video_calls s.trace → v = 0

/-- The six bytes `F0 04 68 48 06 D2`: radio power pressed. -/
def frame_power : List Nat := [0xF0, 0x04, 0x68, 0x48, 0x06, 0xD2]

/-- The engine with no hijack state after the frame `frame_power` was read and processed. -/
def engine_powered_off : Engine :=
  { initial_engine EStateUnknown with
    ibus_state := EStatePowerOff,
    trace := [Event.valid_message frame_power, Event.enable_video_input 0] }

/-- The six bytes `80 04 BF 11 01 2B`: a frame of the instrument cluster to all. -/
def frame_cluster : List Nat := [0x80, 0x04, 0xBF, 0x11, 0x01, 0x2B]

/-- The engine at start-up, with an empty buffer and nothing called yet, put in the state,
the hijack state and the key-forwarding flag of `s`. -/
def fresh_engine (s : Engine) : Engine :=
  { initial_engine s.IbusHijackState with
    ibus_state := s.ibus_state, send_key_events := s.send_key_events }

/-- The engine `s` with the calls `pre` made before those of its trace. -/
def prepend_trace (pre : List Event) (s : Engine) : Engine :=
  { s with trace := pre ++ s.trace }

/-- The states the engine can get to from `s` by byte reads and by calls of
`process_ibus_message` that return. -/
inductive ReachableFrom (s : Engine) : Engine → Prop where
  | here : ReachableFrom s s
  | read (t : Engine) (b : Nat) (hb : b < 256) (ht : ReachableFrom s t) :
      ReachableFrom s (append_byte t b)
  | process (t u : Engine) (fuel : Nat) (ht : ReachableFrom s t)
      (h : process_ibus_message fuel t = .ok u) : ReachableFrom s u

/-- The receive buffer is kept as the code expects it: it has its 2056 bytes, fewer than
2056 of them are counted, and every byte from the count on is zero. -/
def buffer_invariant (s : Engine) : Prop :=
  s.ibus_data.length = ibus_data_max_length ∧ s.ibus_data_index < ibus_data_max_length ∧
    ∀ i, s.ibus_data_index ≤ i → s.ibus_data.getD i 0 = 0

/-- The engine at the start of the iterations of the loop of `process_ibus_message`:
`LoopState s u` says that a call made with the engine `s` starts an iteration with the
engine `u`. The first iteration starts with `s`; an iteration that finds a valid candidate,
runs the two handlers on it and removes it is followed by another one when bytes are left. -/
inductive LoopState : Engine → Engine → Prop where
  | first (s : Engine) : LoopState s s
  | next (s s1 s2 u : Engine) (fuel : Nat)
      (hv : validate_ibus_message fuel s = .ok Verdict.valid)
      (h1 : handle_buttons (mark_valid s (get_message_length s.ibus_data)) = .ok s1)
      (h2 : handle_state s1 = .ok s2)
      (hi : (discard_message s2 (get_message_length s.ibus_data)).ibus_data_index ≠ 0)
      (hn : LoopState (discard_message s2 (get_message_length s.ibus_data)) u) :
      LoopState s u

/-- The two frames `frame_text_tape` and `frame_power` one after the other. -/
def bytes_tape_then_power : List Nat := frame_text_tape ++ frame_power

/-- Processing the frames of a list one by one: each frame is put alone in the cleared
buffer and `process_ibus_message` is called on it, in the engine the frame before left. -/
def process_one_by_one (fuel : Nat) (e : Engine) : List (List Nat) → Except Fault Engine
  | [] => .ok e
  | f :: rest =>
    match process_ibus_message fuel (load_buffer e f) with
    | .error x => .error x
    | .ok t => process_one_by_one fuel t rest

/-- A display-text frame from the radio to the graphics unit showing `0`:
`68 05 3B 23 62 30 27`. -/
def frame_text_plain : List Nat := [0x68, 0x05, 0x3B, 0x23, 0x62, 0x30, 0x27]

/-- A frame of the instrument cluster to all with the data bytes `41 55 58`, the letters
`AUX`: `80 06 BF 11 41 55 58 64`. -/
def frame_cluster_aux : List Nat := [0x80, 0x06, 0xBF, 0x11, 0x41, 0x55, 0x58, 0x64]

/-- A bank-0 frame of the on-board monitor with no data byte: `F0 03 68 47 DC`. -/
def frame_bank0_no_data : List Nat := [0xF0, 0x03, 0x68, 0x47, 0xDC]

/-- A frame whose first byte, the sender, is `0F`: `0F 03 68 01 65`. -/
def frame_sender_0f : List Nat := [0x0F, 0x03, 0x68, 0x01, 0x65]

/-- The 193 bytes `FF BF 11`, 189 zero bytes, `51`: the bytes 1 to 193 of the two long
frames below, which the code takes for a candidate of their own. -/
def bytes_inner_candidate : List Nat := [0xFF, 0xBF, 0x11] ++ List.replicate 189 0 ++ [0x51]

/-- The last 57 bytes of the two long frames below: `00 40`, 54 zero bytes, `40`. -/
def bytes_long_tail : List Nat := [0x00, 0x40] ++ List.replicate 54 0 ++ [0x40]

/-- A well-formed frame of 257 bytes from the body module (sender `00`, length byte `FF`,
receiver `BF`, message `11`) whose data bytes hold the bytes of `frame_power`. -/
def frame_long_power : List Nat :=
  [0x00] ++ bytes_inner_candidate ++ frame_power ++ bytes_long_tail

/-- A well-formed frame of 257 bytes from the body module (sender `00`, length byte `FF`,
receiver `BF`, message `11`) whose data bytes hold the bytes of `frame_knob_once`. -/
def frame_long_knob : List Nat :=
  [0x00] ++ bytes_inner_candidate ++ frame_knob_once ++ bytes_long_tail

end BmwIbus

namespace BmwIbus

open EIbusState

/-! ## The checksum loop -/

theorem xor_byte_lt {a b : Nat} (ha : a < 256) (hb : b < 256) : a ^^^ b < 256 :=
  Nat.xor_lt_two_pow (n := 8) ha hb

theorem xor_first_lt (data : List Nat) (k : Nat) (h : bytes_below data k) :
    xor_first data k < 256 := by
  induction k with
  | zero => simp [xor_first]
  | succ k ih =>
    simp only [xor_first]
    exact xor_byte_lt (ih (fun i hi => h i (Nat.lt_succ_of_lt hi))) (h k (Nat.lt_succ_self k))

/-- The loop invariant of `calc_ibus_checksum`: started at `i` with the XOR of the bytes
below `i`, it returns the XOR of the bytes below `checksum_index`. -/
theorem calc_ibus_checksum_loop_eq (data : List Nat) (k : Nat) (hk : k ≤ 255)
    (hb : bytes_below data k) :
    ∀ (n i fuel : Nat), i + n = k → n < fuel →
      calc_ibus_checksum_loop data k fuel i (xor_first data i) = .ok (xor_first data k) := by
  intro n
  induction n with
  | zero =>
    intro i fuel hi hf
    obtain ⟨f, rfl⟩ : ∃ f, fuel = f + 1 := ⟨fuel - 1, by omega⟩
    have : i = k := by omega
    subst this
    simp [calc_ibus_checksum_loop]
  | succ n ih =>
    intro i fuel hi hf
    obtain ⟨f, rfl⟩ : ∃ f, fuel = f + 1 := ⟨fuel - 1, by omega⟩
    have hlt : i < k := by omega
    have hbi : bytes_below data (i + 1) := fun j hj => hb j (by omega)
    have hx : xor_first data (i + 1) < 256 := xor_first_lt data (i + 1) hbi
    have hmod : (i + 1) % 256 = i + 1 := Nat.mod_eq_of_lt (by omega)
    simp only [calc_ibus_checksum_loop, hlt, if_true, hmod]
    have hstep : (xor_first data i ^^^ data.getD i 0) % 256 = xor_first data (i + 1) := by
      simp only [xor_first] at hx ⊢
      exact Nat.mod_eq_of_lt hx
    rw [hstep]
    exact ih (i + 1) f (by omega) (by omega)

theorem calc_ibus_checksum_eq (fuel : Nat) (data : List Nat) (k : Nat) (hk : k ≤ 255)
    (hb : bytes_below data k) (hf : k < fuel) :
    calc_ibus_checksum fuel data k = .ok (xor_first data k) := by
  have h := calc_ibus_checksum_loop_eq data k hk hb k 0 fuel (by omega) hf
  simpa [calc_ibus_checksum, xor_first] using h

/-- With a bound of 256 or more the eight-bit counter never reaches it: the loop runs
until the fuel is gone, whatever the fuel. -/
theorem calc_ibus_checksum_loop_hangs (data : List Nat) (k : Nat) (hk : 256 ≤ k) :
    ∀ (fuel i c : Nat), i < 256 →
      calc_ibus_checksum_loop data k fuel i c = .error Fault.out_of_fuel := by
  intro fuel
  induction fuel with
  | zero => intro i c _; simp [calc_ibus_checksum_loop]
  | succ f ih =>
    intro i c hi
    have hlt : i < k := by omega
    simp only [calc_ibus_checksum_loop, hlt, if_true]
    exact ih _ _ (Nat.mod_lt _ (by decide))

theorem calc_ibus_checksum_hangs (fuel : Nat) (data : List Nat) (k : Nat) (hk : 256 ≤ k) :
    calc_ibus_checksum fuel data k = .error Fault.out_of_fuel :=
  calc_ibus_checksum_loop_hangs data k hk fuel 0 0 (by decide)

/-! ## Validation of the first candidate -/

theorem get_message_length_le (data : List Nat) : get_message_length data ≤ 255 := by
  unfold get_message_length
  omega

theorem checksum_index_of_pos (m : Nat) (h1 : 1 ≤ m) (h2 : m ≤ 255) :
    checksum_index_of m = m - 1 := by
  unfold checksum_index_of
  omega

theorem checksum_index_of_zero : checksum_index_of 0 = 4294967295 := by
  decide

/-- Steps 1 and 2 on a candidate that is wholly buffered: the verdict is the comparison
of the trailing byte with the XOR of the bytes before it. -/
theorem validate_buffered (fuel : Nat) (s : Engine)
    (h5 : 5 ≤ s.ibus_data_index) (h1 : 1 ≤ get_message_length s.ibus_data)
    (hidx : get_message_length s.ibus_data ≤ s.ibus_data_index)
    (hb : bytes_below s.ibus_data (get_message_length s.ibus_data - 1))
    (hf : 256 ≤ fuel) :
    validate_ibus_message fuel s =
      .ok (if xor_first s.ibus_data (get_message_length s.ibus_data - 1)
              ≠ s.ibus_data.getD (get_message_length s.ibus_data - 1) 0
            then Verdict.invalid_checksum else Verdict.valid) := by
  have hle := get_message_length_le s.ibus_data
  have hci := checksum_index_of_pos _ h1 hle
  have hno : ¬ (s.ibus_data_index < EMinimumMessageLength ∨
      s.ibus_data_index < get_message_length s.ibus_data) := by
    simp only [EMinimumMessageLength]
    omega
  have hc := calc_ibus_checksum_eq fuel s.ibus_data (get_message_length s.ibus_data - 1)
    (by omega) hb (by omega)
  simp only [validate_ibus_message, hno, if_false, hci, hc]
  split <;> rfl

theorem validate_short (fuel : Nat) (s : Engine)
    (h : s.ibus_data_index < 5 ∨ s.ibus_data_index < get_message_length s.ibus_data) :
    validate_ibus_message fuel s = .ok Verdict.invalid_length := by
  have h2 : s.ibus_data_index < EMinimumMessageLength ∨
      s.ibus_data_index < get_message_length s.ibus_data := h
  simp only [validate_ibus_message, h2, if_true]

/-- A candidate length of zero makes `checksum_index` wrap to `UINT_MAX`: the checksum
loop does not end. -/
theorem validate_hangs (fuel : Nat) (s : Engine)
    (h5 : 5 ≤ s.ibus_data_index) (h0 : get_message_length s.ibus_data = 0) :
    validate_ibus_message fuel s = .error Fault.out_of_fuel := by
  have hno : ¬ (s.ibus_data_index < EMinimumMessageLength ∨
      s.ibus_data_index < get_message_length s.ibus_data) := by
    simp only [EMinimumMessageLength]
    omega
  have hc := calc_ibus_checksum_hangs fuel s.ibus_data (checksum_index_of 0)
    (by rw [checksum_index_of_zero]; decide)
  rw [← h0] at hc
  simp only [validate_ibus_message, hno, if_false, hc]

theorem process_of_invalid_length (fuel : Nat) (s : Engine)
    (h : validate_ibus_message fuel s = .ok Verdict.invalid_length) :
    process_ibus_message (fuel + 1) s = .ok (clear_buffer s) := by
  simp only [process_ibus_message, h]

theorem process_of_invalid_checksum (fuel : Nat) (s : Engine)
    (h : validate_ibus_message fuel s = .ok Verdict.invalid_checksum) :
    process_ibus_message (fuel + 1) s = .ok (clear_buffer s) := by
  simp only [process_ibus_message, h]

theorem process_of_valid (fuel : Nat) (s : Engine)
    (h : validate_ibus_message fuel s = .ok Verdict.valid) :
    process_ibus_message (fuel + 1) s = accept_message s (process_ibus_message fuel) := by
  simp only [process_ibus_message, h]

theorem process_of_fault (fuel : Nat) (s : Engine) (e : Fault)
    (h : validate_ibus_message fuel s = .error e) :
    process_ibus_message (fuel + 1) s = .error e := by
  simp only [process_ibus_message, h]

/-- A wrong trailing byte sends the whole call to the `err` label. -/
theorem process_checksum_mismatch (fuel : Nat) (s : Engine)
    (h5 : 5 ≤ s.ibus_data_index) (h1 : 1 ≤ get_message_length s.ibus_data)
    (hidx : get_message_length s.ibus_data ≤ s.ibus_data_index)
    (hb : bytes_below s.ibus_data (get_message_length s.ibus_data - 1))
    (hne : s.ibus_data.getD (get_message_length s.ibus_data - 1) 0
      ≠ xor_first s.ibus_data (get_message_length s.ibus_data - 1))
    (hf : 257 ≤ fuel) :
    process_ibus_message fuel s = .ok (clear_buffer s) := by
  obtain ⟨f, rfl⟩ : ∃ f, fuel = f + 1 := ⟨fuel - 1, by omega⟩
  apply process_of_invalid_checksum
  rw [validate_buffered f s h5 h1 hidx hb (by omega)]
  rw [if_pos (fun h => hne h.symm)]

/-! ## More fuel does not change a result -/

theorem calc_ibus_checksum_loop_stable (data : List Nat) (k n : Nat) :
    ∀ (fuel i c : Nat) (r : Except Fault Nat),
      calc_ibus_checksum_loop data k fuel i c = r → r ≠ .error Fault.out_of_fuel →
      calc_ibus_checksum_loop data k (fuel + n) i c = r := by
  intro fuel
  induction fuel with
  | zero =>
    intro i c r h hr
    simp only [calc_ibus_checksum_loop] at h
    exact absurd h.symm hr
  | succ f ih =>
    intro i c r h hr
    have hfn : f + 1 + n = (f + n) + 1 := by omega
    rw [hfn]
    simp only [calc_ibus_checksum_loop] at h ⊢
    by_cases hlt : i < k
    · simp only [hlt, if_true] at h ⊢
      exact ih _ _ r h hr
    · simp only [hlt, if_false] at h ⊢
      exact h

/-- The checksum loop makes no table or buffer-scan access: it never ends in a fault other
than exhausted fuel. -/
theorem calc_ibus_checksum_loop_fault (data : List Nat) (k : Nat) :
    ∀ (fuel i c : Nat) (e : Fault),
      calc_ibus_checksum_loop data k fuel i c = .error e → e = Fault.out_of_fuel := by
  intro fuel
  induction fuel with
  | zero =>
    intro i c e h
    simp only [calc_ibus_checksum_loop] at h
    cases h
    rfl
  | succ f ih =>
    intro i c e h
    simp only [calc_ibus_checksum_loop] at h
    by_cases hlt : i < k
    · simp only [hlt, if_true] at h
      exact ih _ _ e h
    · simp only [hlt, if_false] at h
      cases h

theorem validate_stable (fuel n : Nat) (s : Engine) (r : Except Fault Verdict)
    (h : validate_ibus_message fuel s = r) (hr : r ≠ .error Fault.out_of_fuel) :
    validate_ibus_message (fuel + n) s = r := by
  simp only [validate_ibus_message] at h ⊢
  split at h
  · rename_i hc
    rw [if_pos hc]
    exact h
  · rename_i hc
    rw [if_neg hc]
    cases hcalc : calc_ibus_checksum fuel s.ibus_data
        (checksum_index_of (get_message_length s.ibus_data)) with
    | error e =>
      have he := calc_ibus_checksum_loop_fault _ _ _ _ _ e hcalc
      subst he
      rw [hcalc] at h
      exact absurd h.symm hr
    | ok c =>
      have h2 := calc_ibus_checksum_loop_stable s.ibus_data
        (checksum_index_of (get_message_length s.ibus_data)) n fuel 0 0 (.ok c) hcalc
        (by simp)
      have h3 : calc_ibus_checksum (fuel + n) s.ibus_data
          (checksum_index_of (get_message_length s.ibus_data)) = .ok c := h2
      rw [hcalc] at h
      rw [h3]
      exact h

theorem validate_fault (fuel : Nat) (s : Engine) (e : Fault)
    (h : validate_ibus_message fuel s = .error e) : e = Fault.out_of_fuel := by
  simp only [validate_ibus_message] at h
  split at h
  · cases h
  · cases hcalc : calc_ibus_checksum fuel s.ibus_data
        (checksum_index_of (get_message_length s.ibus_data)) with
    | error e2 =>
      have he := calc_ibus_checksum_loop_fault _ _ _ _ _ e2 hcalc
      rw [hcalc] at h
      cases h
      exact he
    | ok c =>
      rw [hcalc] at h
      simp only at h
      by_cases hc : c ≠ s.ibus_data.getD (checksum_index_of (get_message_length s.ibus_data)) 0
      · rw [if_pos hc] at h
        cases h
      · rw [if_neg hc] at h
        cases h

theorem accept_message_stable (s : Engine) (f g : Engine → Except Fault Engine)
    (r : Except Fault Engine)
    (hfg : ∀ t, f t = r → g t = r) (h : accept_message s f = r) :
    accept_message s g = r := by
  simp only [accept_message] at h ⊢
  split
  · rename_i e he
    rw [he] at h
    exact h
  · rename_i s1 hs1
    rw [hs1] at h
    simp only at h ⊢
    split
    · rename_i e he
      rw [he] at h
      exact h
    · rename_i s2 hs2
      rw [hs2] at h
      simp only at h ⊢
      split
      · rename_i hidx
        rw [if_pos hidx] at h
        exact hfg _ h
      · rename_i hidx
        rw [if_neg hidx] at h
        exact h

/-- A run that returned, or that ended in a fault of the code, is the same with more fuel. -/
theorem process_stable (n : Nat) :
    ∀ (fuel : Nat) (s : Engine) (r : Except Fault Engine),
      process_ibus_message fuel s = r → r ≠ .error Fault.out_of_fuel →
      process_ibus_message (fuel + n) s = r := by
  intro fuel
  induction fuel with
  | zero =>
    intro s r h hr
    simp only [process_ibus_message] at h
    exact absurd h.symm hr
  | succ f ih =>
    intro s r h hr
    have hfn : f + 1 + n = (f + n) + 1 := by omega
    rw [hfn]
    cases hv : validate_ibus_message f s with
    | error e =>
      have he := validate_fault f s e hv
      subst he
      rw [process_of_fault f s _ hv] at h
      exact absurd h.symm hr
    | ok v =>
      have hv2 := validate_stable f n s (.ok v) hv (by simp)
      cases v with
      | invalid_length =>
        rw [process_of_invalid_length f s hv] at h
        rw [process_of_invalid_length (f + n) s hv2]
        exact h
      | invalid_checksum =>
        rw [process_of_invalid_checksum f s hv] at h
        rw [process_of_invalid_checksum (f + n) s hv2]
        exact h
      | valid =>
        rw [process_of_valid f s hv] at h
        rw [process_of_valid (f + n) s hv2]
        exact accept_message_stable s _ _ r (fun t ht => ih t r ht hr) h

theorem process_stable_le (fuel fuel2 : Nat) (s : Engine) (r : Except Fault Engine)
    (h : process_ibus_message fuel s = r) (hr : r ≠ .error Fault.out_of_fuel)
    (hle : fuel ≤ fuel2) : process_ibus_message fuel2 s = r := by
  have h2 := process_stable (fuel2 - fuel) fuel s r h hr
  have h3 : fuel + (fuel2 - fuel) = fuel2 := by omega
  rw [h3] at h2
  exact h2

/-! ## What the handlers can do to the engine -/

theorem handle_ibus_button_preserves (P : Engine → Prop)
    (hk : ∀ s k v, P s → P (send_key_event s k v))
    (s t : Engine) (button released longPress : Nat) (hs : P s)
    (h : handle_ibus_button s button released longPress = .ok t) : P t := by
  unfold handle_ibus_button at h
  split at h
  · split at h
    · cases h
    · split at h
      · cases h
        exact hk _ _ _ hs
      · cases h
        exact hs
  · cases h
    exact hs

theorem knob_loop_preserves (P : Engine → Prop)
    (hk : ∀ s k v, P s → P (send_key_event s k v)) (key : Nat) :
    ∀ (count : Nat) (s : Engine), P s → P (knob_loop s key count) := by
  intro count
  induction count with
  | zero => intro s hs; exact hs
  | succ c ih =>
    intro s hs
    simp only [knob_loop]
    exact ih _ (hk _ _ _ (hk _ _ _ hs))

theorem handle_buttons_preserves (P : Engine → Prop)
    (hk : ∀ s k v, P s → P (send_key_event s k v))
    (hc : ∀ s st, P s → P (ibus_change_state s st))
    (s t : Engine) (hs : P s) (h : handle_buttons s = .ok t) : P t := by
  simp only [handle_buttons] at h
  split_ifs at h
  all_goals first
    | (cases h; exact hs)
    | exact handle_ibus_button_preserves P hk _ _ _ _ _ (hc _ _ hs) h
    | exact handle_ibus_button_preserves P hk _ _ _ _ _ hs h
    | (cases h; exact knob_loop_preserves P hk _ _ _ hs)

theorem handle_headunit_state_preserves (P : Engine → Prop)
    (hc : ∀ s st, P s → P (ibus_change_state s st))
    (s t : Engine) (hs : P s) (h : handle_headunit_state s = .ok t) : P t := by
  simp only [handle_headunit_state, data_contains] at h
  cases hcs : c_string (List.drop EPosDataStart s.ibus_data) with
  | none =>
    simp only [hcs, bind, Except.bind, pure, Except.pure] at h
    split_ifs at h
    all_goals first
      | (cases h; exact hs)
      | (cases h; exact hc _ _ hs)
  | some hay =>
    simp only [hcs, bind, Except.bind, pure, Except.pure] at h
    split_ifs at h
    all_goals first
      | (cases h; exact hs)
      | (cases h; exact hc _ _ hs)

theorem handle_state_preserves (P : Engine → Prop)
    (hc : ∀ s st, P s → P (ibus_change_state s st))
    (s t : Engine) (hs : P s) (h : handle_state s = .ok t) : P t := by
  unfold handle_state at h
  split at h
  · exact handle_headunit_state_preserves P hc s t hs h
  · cases h
    exact hs

theorem accept_message_preserves (P : Engine → Prop)
    (hk : ∀ s k v, P s → P (send_key_event s k v))
    (hc : ∀ s st, P s → P (ibus_change_state s st))
    (hm : ∀ s n, P s → P (mark_valid s n))
    (hd : ∀ s n, P s → P (discard_message s n))
    (hcl : ∀ s, P s → P (clear_buffer s))
    (again : Engine → Except Fault Engine) (hagain : ∀ s t, P s → again s = .ok t → P t)
    (s t : Engine) (hs : P s) (h : accept_message s again = .ok t) : P t := by
  simp only [accept_message] at h
  cases h1 : handle_buttons (mark_valid s (get_message_length s.ibus_data)) with
  | error e =>
    rw [h1] at h
    cases h
  | ok s1 =>
    rw [h1] at h
    simp only at h
    have hs1 : P s1 := handle_buttons_preserves P hk hc _ _ (hm _ _ hs) h1
    cases h2 : handle_state s1 with
    | error e =>
      rw [h2] at h
      cases h
    | ok s2 =>
      rw [h2] at h
      simp only at h
      have hs2 : P s2 := handle_state_preserves P hc _ _ hs1 h2
      split at h
      · exact hagain _ _ (hd _ _ hs2) h
      · cases h
        exact hcl _ (hd _ _ hs2)

/-- A property of the engine that every primitive step keeps is kept by a whole call. -/
theorem process_preserves (P : Engine → Prop)
    (hk : ∀ s k v, P s → P (send_key_event s k v))
    (hc : ∀ s st, P s → P (ibus_change_state s st))
    (hm : ∀ s n, P s → P (mark_valid s n))
    (hd : ∀ s n, P s → P (discard_message s n))
    (hcl : ∀ s, P s → P (clear_buffer s)) :
    ∀ (fuel : Nat) (s t : Engine), P s → process_ibus_message fuel s = .ok t → P t := by
  intro fuel
  induction fuel with
  | zero =>
    intro s t _ h
    simp only [process_ibus_message] at h
    cases h
  | succ f ih =>
    intro s t hs h
    cases hv : validate_ibus_message f s with
    | error e =>
      rw [process_of_fault f s e hv] at h
      cases h
    | ok v =>
      cases v with
      | invalid_length =>
        rw [process_of_invalid_length f s hv] at h
        cases h
        exact hcl _ hs
      | invalid_checksum =>
        rw [process_of_invalid_checksum f s hv] at h
        cases h
        exact hcl _ hs
      | valid =>
        rw [process_of_valid f s hv] at h
        exact accept_message_preserves P hk hc hm hd hcl _ ih s t hs h

theorem ibus_change_state_same_buffer (s : Engine) (st : EIbusState) :
    same_buffer s (ibus_change_state s st) := by
  unfold ibus_change_state same_buffer
  by_cases h1 : s.ibus_state = st
  · rw [if_pos h1]
    exact ⟨rfl, rfl, rfl⟩
  · rw [if_neg h1]
    simp only
    split <;> exact ⟨rfl, rfl, rfl⟩

theorem same_buffer_trans {s t u : Engine} (h1 : same_buffer s t) (h2 : same_buffer t u) :
    same_buffer s u :=
  ⟨h2.1.trans h1.1, h2.2.1.trans h1.2.1, h2.2.2.trans h1.2.2⟩

theorem handle_buttons_same_buffer (s t : Engine) (h : handle_buttons s = .ok t) :
    same_buffer s t :=
  handle_buttons_preserves (same_buffer s) (fun _ _ _ hs => hs)
    (fun u st hs => same_buffer_trans hs (ibus_change_state_same_buffer u st))
    s t ⟨rfl, rfl, rfl⟩ h

theorem handle_state_same_buffer (s t : Engine) (h : handle_state s = .ok t) :
    same_buffer s t :=
  handle_state_preserves (same_buffer s)
    (fun u st hs => same_buffer_trans hs (ibus_change_state_same_buffer u st))
    s t ⟨rfl, rfl, rfl⟩ h

theorem clear_buffer_discard_message (s : Engine) (n : Nat) :
    clear_buffer (discard_message s n) = clear_buffer s := by
  unfold discard_message clear_buffer
  split <;> rfl

/-- The loop body on a validated candidate that is the whole buffer: the handlers run and
the call returns with the buffer cleared. -/
theorem accept_message_last (s s1 s2 : Engine) (again : Engine → Except Fault Engine)
    (h1 : handle_buttons (mark_valid s (get_message_length s.ibus_data)) = .ok s1)
    (h2 : handle_state s1 = .ok s2)
    (hidx : s.ibus_data_index = get_message_length s.ibus_data) :
    accept_message s again = .ok (clear_buffer s2) := by
  have hb1 := handle_buttons_same_buffer _ _ h1
  have hb2 := handle_state_same_buffer _ _ h2
  have hi : s2.ibus_data_index = get_message_length s.ibus_data := by
    rw [hb2.2.1, hb1.2.1]
    exact hidx
  have hz : (discard_message s2 (get_message_length s.ibus_data)).ibus_data_index = 0 := by
    unfold discard_message
    rw [if_pos (by omega)]
    simp [hi]
  simp only [accept_message, h1, h2, hz, ne_eq, not_true_eq_false, if_false,
    clear_buffer_discard_message]

/-- The loop body on a validated candidate that is followed by more bytes: the handlers
run, the candidate is removed and the loop goes on. -/
theorem accept_message_more (s s1 s2 : Engine) (again : Engine → Except Fault Engine)
    (h1 : handle_buttons (mark_valid s (get_message_length s.ibus_data)) = .ok s1)
    (h2 : handle_state s1 = .ok s2)
    (hidx : get_message_length s.ibus_data < s.ibus_data_index) :
    accept_message s again = again (discard_message s2 (get_message_length s.ibus_data)) := by
  have hb1 := handle_buttons_same_buffer _ _ h1
  have hb2 := handle_state_same_buffer _ _ h2
  have hi : s2.ibus_data_index = s.ibus_data_index := by
    rw [hb2.2.1, hb1.2.1]
    rfl
  have hz : (discard_message s2 (get_message_length s.ibus_data)).ibus_data_index ≠ 0 := by
    unfold discard_message
    rw [if_pos (by omega)]
    simp only [hi]
    omega
  simp only [accept_message, h1, h2, hz, ne_eq, not_false_eq_true, if_true]

/-! ## Buffers set up from a list of bytes -/

theorem getD_replicate_zero (k i : Nat) : (List.replicate k 0).getD i 0 = 0 := by
  induction k generalizing i with
  | zero => rfl
  | succ k ih =>
    cases i with
    | zero => rfl
    | succ i =>
      rw [List.replicate_succ, List.getD_cons_succ]
      exact ih i

theorem getD_append_zeros (b : List Nat) (k i : Nat) :
    (b ++ List.replicate k 0).getD i 0 = b.getD i 0 := by
  induction b generalizing i with
  | nil =>
    rw [List.nil_append, List.getD_nil]
    exact getD_replicate_zero k i
  | cons a b ih =>
    cases i with
    | zero => rfl
    | succ i =>
      rw [List.cons_append, List.getD_cons_succ, List.getD_cons_succ]
      exact ih i

theorem getD_load_buffer (e : Engine) (b : List Nat) (i : Nat) :
    (load_buffer e b).ibus_data.getD i 0 = b.getD i 0 :=
  getD_append_zeros b _ i

theorem getD_append_left (b c : List Nat) (i : Nat) (h : i < b.length) :
    (b ++ c).getD i 0 = b.getD i 0 := by
  simp [List.getD_eq_getElem?_getD, List.getElem?_append_left h]

theorem xor_first_congr (d1 d2 : List Nat) :
    ∀ k, (∀ i, i < k → d1.getD i 0 = d2.getD i 0) → xor_first d1 k = xor_first d2 k := by
  intro k
  induction k with
  | zero => intro _; rfl
  | succ k ih =>
    intro h
    simp only [xor_first]
    rw [ih (fun i hi => h i (Nat.lt_succ_of_lt hi)), h k (Nat.lt_succ_self k)]

theorem validate_congr (fuel : Nat) (s t : Engine) (hd : s.ibus_data = t.ibus_data)
    (hi : s.ibus_data_index = t.ibus_data_index) :
    validate_ibus_message fuel s = validate_ibus_message fuel t := by
  simp only [validate_ibus_message, hd, hi]

theorem get_message_length_load_buffer (e : Engine) (b : List Nat) :
    get_message_length (load_buffer e b).ibus_data = (b.getD EPosLength 0 + 2) % 256 := by
  simp only [get_message_length, getD_load_buffer, ESenderAndLengthLength]

theorem xor_first_load_buffer (e : Engine) (b : List Nat) (k : Nat) :
    xor_first (load_buffer e b).ibus_data k = xor_first b k :=
  xor_first_congr _ _ k (fun i _ => getD_load_buffer e b i)

/-! ## One changed byte -/

theorem getD_set_self (l : List Nat) (i a : Nat) (h : i < l.length) :
    (l.set i a).getD i 0 = a := by
  induction l generalizing i with
  | nil => simp at h
  | cons x l ih =>
    cases i with
    | zero => rfl
    | succ i =>
      rw [List.set_cons_succ, List.getD_cons_succ]
      exact ih i (by simpa using h)

theorem getD_set_other (l : List Nat) (i k a : Nat) (h : k ≠ i) :
    (l.set i a).getD k 0 = l.getD k 0 := by
  induction l generalizing i k with
  | nil => rfl
  | cons x l ih =>
    cases i with
    | zero =>
      cases k with
      | zero => exact absurd rfl h
      | succ k => rfl
    | succ i =>
      cases k with
      | zero => rfl
      | succ k =>
        rw [List.set_cons_succ, List.getD_cons_succ, List.getD_cons_succ]
        exact ih i k (fun hk => h (by rw [hk]))

/-- Changing byte `i` by the mask `m` changes the XOR of a range that holds `i` by `m`. -/
theorem xor_first_set (l : List Nat) (i m : Nat) (hi : i < l.length) :
    ∀ k, i < k → xor_first (l.set i (l.getD i 0 ^^^ m)) k = xor_first l k ^^^ m := by
  intro k
  induction k with
  | zero => intro h; omega
  | succ k ih =>
    intro h
    simp only [xor_first]
    by_cases hik : i = k
    · subst hik
      rw [getD_set_self l i _ hi,
        xor_first_congr _ l i (fun j hj => getD_set_other l i j _ (by omega)),
        Nat.xor_assoc]
    · rw [ih (by omega), getD_set_other l i k _ (fun hk => hik hk.symm),
        Nat.xor_assoc, Nat.xor_comm m, ← Nat.xor_assoc]

theorem xor_mask_ne (a m : Nat) (hm : m ≠ 0) : a ^^^ m ≠ a := by
  intro h
  have h2 : a ^^^ (a ^^^ m) = a ^^^ a := by rw [h]
  rw [Nat.xor_cancel_left, Nat.xor_self] at h2
  exact hm h2

theorem two_pow_lt_256 (j : Nat) (hj : j < 8) : 2 ^ j < 256 := by
  have h : 2 ^ j < 2 ^ 8 := Nat.pow_lt_pow_right (by decide) hj
  simpa using h

/-! ## The key-forwarding flag -/

theorem video_calls_append (a b : List Event) :
    video_calls (a ++ b) = video_calls a ++ video_calls b := by
  induction a with
  | nil => rfl
  | cons x a ih =>
    cases x with
    | valid_message f => simpa [video_calls] using ih
    | send_key_event k v => simpa [video_calls] using ih
    | enable_video_input en => simp [video_calls, ih]

theorem last_video_call_enable (trace : List Event) (v : Nat) :
    last_video_call (trace ++ [Event.enable_video_input v]) = some v := by
  simp [last_video_call, video_calls_append, video_calls]

theorem gate_consistent_send_key_event (s : Engine) (k v : Nat) (h : gate_consistent s) :
    gate_consistent (send_key_event s k v) := by
  refine ⟨h.1, ?_⟩
  intro w hw
  apply h.2 w
  simpa [last_video_call, send_key_event, video_calls_append, video_calls] using hw

theorem gate_consistent_mark_valid (s : Engine) (n : Nat) (h : gate_consistent s) :
    gate_consistent (mark_valid s n) := by
  refine ⟨h.1, ?_⟩
  intro w hw
  apply h.2 w
  simpa [last_video_call, mark_valid, video_calls_append, video_calls] using hw

theorem gate_consistent_ibus_change_state (s : Engine) (st : EIbusState)
    (h : gate_consistent s) : gate_consistent (ibus_change_state s st) := by
  unfold ibus_change_state
  by_cases h1 : s.ibus_state = st
  · rw [if_pos h1]
    exact h
  · rw [if_neg h1]
    simp only
    by_cases h2 : st = s.IbusHijackState ∧ s.IbusHijackState ≠ EStateUnknown
    · rw [if_pos h2]
      refine ⟨?_, ?_⟩
      · simp only [gate_of, enable_video_input]
        rw [if_pos h2]
      · intro w hw
        have hw2 := (last_video_call_enable s.trace _).symm.trans hw
        cases hw2
        rfl
    · rw [if_neg h2]
      refine ⟨?_, ?_⟩
      · simp only [gate_of, enable_video_input]
        rw [if_neg h2]
      · intro w hw
        have hw2 := (last_video_call_enable s.trace _).symm.trans hw
        cases hw2
        rfl

theorem gate_consistent_discard_message (s : Engine) (n : Nat) (h : gate_consistent s) :
    gate_consistent (discard_message s n) := by
  unfold discard_message
  split
  · exact h
  · exact h

theorem gate_consistent_append_byte (s : Engine) (b : Nat) (h : gate_consistent s) :
    gate_consistent (append_byte s b) := by
  unfold append_byte
  simp only
  split
  · exact h
  · exact h

theorem gate_consistent_process (fuel : Nat) (s t : Engine) (hs : gate_consistent s)
    (h : process_ibus_message fuel s = .ok t) : gate_consistent t :=
  process_preserves gate_consistent gate_consistent_send_key_event
    gate_consistent_ibus_change_state gate_consistent_mark_valid
    gate_consistent_discard_message (fun _ hu => hu) fuel s t hs h

theorem gate_consistent_reachable (s : Engine) (h : Reachable s) : gate_consistent s := by
  induction h with
  | start hijack hh =>
    refine ⟨?_, ?_⟩
    · rcases hh with hh | hh | hh <;> subst hh <;> rfl
    · intro v hv
      cases hv
  | read s b _ _ ih => exact gate_consistent_append_byte s b ih
  | process s t fuel _ hp ih => exact gate_consistent_process fuel s t ih hp

theorem reachable_feed (bytes : List Nat) :
    ∀ (s : Engine), Reachable s → (∀ b, b ∈ bytes → b < 256) → Reachable (feed s bytes) := by
  induction bytes with
  | nil => intro s hs _; exact hs
  | cons b bytes ih =>
    intro s hs hb
    exact ih (append_byte s b) (Reachable.read s b (hb b (List.mem_cons_self b bytes)) hs)
      (fun c hc => hb c (List.mem_cons_of_mem b hc))

/-! ## A buffer that holds one frame -/

theorem take_load_buffer (e : Engine) (f : List Nat) :
    (load_buffer e f).ibus_data.take f.length = f := by
  show (f ++ _).take f.length = f
  rw [List.take_left']
  rfl

theorem validate_well_formed (e : Engine) (f : List Nat) (fuel : Nat)
    (hwf : well_formed_frame f) (h255 : f.length ≤ 255) (hf : 256 ≤ fuel) :
    validate_ibus_message fuel (load_buffer e f) = .ok Verdict.valid := by
  obtain ⟨h5, hlen, hb, hcs⟩ := hwf
  have hl : get_message_length (load_buffer e f).ibus_data = f.length := by
    rw [get_message_length_load_buffer, ← hlen]
    omega
  have hidx : (load_buffer e f).ibus_data_index = f.length := rfl
  have hv := validate_buffered fuel (load_buffer e f) (by omega) (by omega) (by omega)
    (by rw [hl]; exact fun i hi => by rw [getD_load_buffer]; exact hb i (by omega)) hf
  rw [hv, hl, getD_load_buffer, xor_first_load_buffer, if_neg (fun h => h hcs.symm)]

/-- Processing a buffer that holds exactly one well-formed frame of at most 255 bytes:
the frame is marked valid, the button handler and the state handler run on it, and the
call returns with the buffer cleared. -/
theorem process_single_frame (e : Engine) (f : List Nat) (fuel : Nat)
    (hwf : well_formed_frame f) (h255 : f.length ≤ 255) (hf : 257 ≤ fuel)
    (s1 s2 : Engine)
    (h1 : handle_buttons (mark_valid (load_buffer e f) f.length) = .ok s1)
    (h2 : handle_state s1 = .ok s2) :
    process_ibus_message fuel (load_buffer e f) = .ok (clear_buffer s2) := by
  obtain ⟨g, rfl⟩ : ∃ g, fuel = g + 1 := ⟨fuel - 1, by omega⟩
  have hl : get_message_length (load_buffer e f).ibus_data = f.length := by
    rw [get_message_length_load_buffer, ← hwf.2.1]
    omega
  rw [process_of_valid g _ (validate_well_formed e f g hwf h255 (by omega))]
  exact accept_message_last _ s1 s2 _ (by rw [hl]; exact h1) h2 hl.symm

theorem mark_valid_load_buffer (e : Engine) (f : List Nat) :
    mark_valid (load_buffer e f) f.length =
      { load_buffer e f with trace := e.trace ++ [Event.valid_message f] } := by
  unfold mark_valid
  rw [take_load_buffer]
  rfl

theorem knob_loop_eq (key : Nat) :
    ∀ (k : Nat) (s : Engine),
      knob_loop s key k = { s with trace := s.trace ++ knob_pairs key k } := by
  intro k
  induction k with
  | zero => intro s; simp [knob_loop, knob_pairs]
  | succ k ih =>
    intro s
    rw [knob_loop, ih]
    simp [send_key_event, knob_pairs, List.append_assoc]

theorem handle_state_not_radio (s : Engine) (h : get_sender s.ibus_data ≠ RAD) :
    handle_state s = .ok s := by
  have hn : ¬ (get_sender s.ibus_data = RAD ∧ get_receiver s.ibus_data = GT) := fun hc => h hc.1
  unfold handle_state handle_headunit_state
  simp only [hn, if_false]
  split <;> rfl

theorem handle_buttons_radio (s : Engine) (h : get_sender s.ibus_data = RAD) :
    handle_buttons s = .ok s := by
  have h1 : ¬ (get_sender s.ibus_data = BMBT) := by rw [h]; decide
  have h2 : ¬ (get_sender s.ibus_data = MFL ∧ get_receiver s.ibus_data = RAD) := by
    rw [h]
    exact fun hc => absurd hc.1 (by decide)
  simp only [handle_buttons, h1, h2, if_false]

theorem ibus_change_state_state (s : Engine) (st : EIbusState) :
    (ibus_change_state s st).ibus_state = st := by
  unfold ibus_change_state
  by_cases h1 : s.ibus_state = st
  · rw [if_pos h1]
    exact h1
  · rw [if_neg h1]
    simp only
    split <;> rfl

theorem handle_ibus_button_state (s t : Engine) (button released longPress : Nat)
    (h : handle_ibus_button s button released longPress = .ok t) :
    t.ibus_state = s.ibus_state ∧ t.send_key_events = s.send_key_events ∧
      video_calls t.trace = video_calls s.trace :=
  handle_ibus_button_preserves
    (fun u => u.ibus_state = s.ibus_state ∧ u.send_key_events = s.send_key_events ∧
      video_calls u.trace = video_calls s.trace)
    (fun u k v hu => ⟨hu.1, hu.2.1, by
      rw [← hu.2.2]
      simp [send_key_event, video_calls_append, video_calls]⟩)
    s t button released longPress ⟨rfl, rfl, rfl⟩ h

/-- A button inside the table is handled without a fault. -/
theorem handle_ibus_button_in_table (s : Engine) (button released longPress : Nat)
    (h : button < 58) : ∃ t, handle_ibus_button s button released longPress = .ok t := by
  have hlen : button < headunit_buttons.length := h
  unfold handle_ibus_button
  split
  · rw [List.getElem?_eq_getElem hlen]
    simp only
    split
    · exact ⟨_, rfl⟩
    · exact ⟨_, rfl⟩
  · exact ⟨_, rfl⟩

set_option maxRecDepth 8000 in
theorem low_seven_bits : ∀ b, b < 256 → b &&& 0x80 = 0 → b = b &&& 0x7F := by
  decide

/-! ## The same message again -/

theorem ibus_change_state_same (s : Engine) (st : EIbusState) (h : s.ibus_state = st) :
    ibus_change_state s st = s := by
  unfold ibus_change_state
  rw [if_pos h]

theorem ibus_change_state_other (s : Engine) (st : EIbusState) (h : s.ibus_state ≠ st) :
    ibus_change_state s st =
      { s with
        ibus_state := st,
        send_key_events :=
          if st = s.IbusHijackState ∧ s.IbusHijackState ≠ EStateUnknown then 1 else 0,
        trace := s.trace ++ [Event.enable_video_input
          (if st = s.IbusHijackState ∧ s.IbusHijackState ≠ EStateUnknown then 1 else 0)] } := by
  unfold ibus_change_state
  rw [if_neg h]
  simp only
  by_cases h2 : st = s.IbusHijackState ∧ s.IbusHijackState ≠ EStateUnknown
  · rw [if_pos h2, if_pos h2]
    rfl
  · rw [if_neg h2, if_neg h2]
    rfl

theorem video_calls_knob_pairs (key k : Nat) : video_calls (knob_pairs key k) = [] := by
  induction k with
  | zero => rfl
  | succ k ih => simpa [knob_pairs, video_calls] using ih

/-- The key handler gives the same verdict on two engines with the same flag. -/
theorem handle_ibus_button_flag_congr (s u t : Engine) (button released longPress : Nat)
    (h : handle_ibus_button s button released longPress = .ok t)
    (hflag : u.send_key_events = s.send_key_events) :
    ∃ t2, handle_ibus_button u button released longPress = .ok t2 := by
  unfold handle_ibus_button at h ⊢
  rw [hflag]
  by_cases hf : s.send_key_events ≠ 0
  · rw [if_pos hf] at h ⊢
    cases hl : headunit_buttons[button]? with
    | none =>
      rw [hl] at h
      cases h
    | some b =>
      simp only
      split
      · exact ⟨_, rfl⟩
      · exact ⟨_, rfl⟩
  · rw [if_neg hf]
    exact ⟨_, rfl⟩

/-- The state handler decides from the buffer and the hijack state alone: on another
engine with the same buffer and hijack state it asks for the same state, or for none. -/
theorem handle_state_uniform (s t u : Engine) (h : handle_state s = .ok t)
    (hd : u.ibus_data = s.ibus_data) (hh : u.IbusHijackState = s.IbusHijackState) :
    (t = s ∧ handle_state u = .ok u) ∨
    (∃ st, t = ibus_change_state s st ∧ handle_state u = .ok (ibus_change_state u st)) := by
  unfold handle_state at h ⊢
  rw [hh]
  by_cases hj : s.IbusHijackState ≠ EStateUnknown
  · rw [if_pos hj] at h ⊢
    simp only [handle_headunit_state, data_contains] at h ⊢
    rw [hd]
    cases hcs : c_string (List.drop EPosDataStart s.ibus_data) with
    | none =>
      simp only [hcs, bind, Except.bind, pure, Except.pure] at h ⊢
      split_ifs at h ⊢
      all_goals first
        | (cases h; exact Or.inl ⟨rfl, rfl⟩)
        | (cases h; exact Or.inr ⟨_, rfl, rfl⟩)
    | some hay =>
      simp only [hcs, bind, Except.bind, pure, Except.pure] at h ⊢
      split_ifs at h ⊢
      all_goals first
        | (cases h; exact Or.inl ⟨rfl, rfl⟩)
        | (cases h; exact Or.inr ⟨_, rfl, rfl⟩)
  · rw [if_neg hj] at h ⊢
    cases h
    exact Or.inl ⟨rfl, rfl⟩

theorem knob_loop_state (s : Engine) (key k : Nat) :
    (knob_loop s key k).ibus_state = s.ibus_state ∧
    (knob_loop s key k).send_key_events = s.send_key_events ∧
    video_calls (knob_loop s key k).trace = video_calls s.trace := by
  rw [knob_loop_eq]
  refine ⟨rfl, rfl, ?_⟩
  simp [video_calls_append, video_calls_knob_pairs]

theorem handle_ibus_button_calm (u : Engine) (button released longPress : Nat)
    (h : button < 58) :
    ∃ u1, handle_ibus_button u button released longPress = .ok u1 ∧
      u1.ibus_state = u.ibus_state ∧ u1.send_key_events = u.send_key_events ∧
      video_calls u1.trace = video_calls u.trace := by
  obtain ⟨u1, hu1⟩ := handle_ibus_button_in_table u button released longPress h
  exact ⟨u1, hu1, handle_ibus_button_state _ _ _ _ _ hu1⟩

/-- The button handler run again, on an engine that has the buffer of the first run and
the state and flag the first run ended with: it returns, and it leaves the state, the flag
and the video line alone. -/
theorem handle_buttons_again (s s1 u : Engine) (h : handle_buttons s = .ok s1)
    (hd : u.ibus_data = s.ibus_data)
    (hst : u.ibus_state = s1.ibus_state) (hfl : u.send_key_events = s1.send_key_events) :
    ∃ u1, handle_buttons u = .ok u1 ∧ u1.ibus_state = u.ibus_state ∧
      u1.send_key_events = u.send_key_events ∧ video_calls u1.trace = video_calls u.trace := by
  simp only [handle_buttons] at h ⊢
  rw [hd]
  by_cases hb : get_sender s.ibus_data = BMBT
  · rw [if_pos hb] at h ⊢
    by_cases hm1 : get_message s.ibus_data = BMBTB1
    · rw [if_pos hm1] at h ⊢
      by_cases hp : (clear_phase_bits (get_data_byte s.ibus_data 0)).1 = ButtonRadioPower
      · rw [if_pos hp] at h ⊢
        have hs1 := handle_ibus_button_state _ _ _ _ _ h
        have hu : u.ibus_state = EStatePowerOff := by
          rw [hst, hs1.1]
          exact ibus_change_state_state _ _
        rw [ibus_change_state_same u _ hu, hp]
        obtain ⟨u1, hu1⟩ := handle_ibus_button_in_table u ButtonRadioPower
          (clear_phase_bits (get_data_byte s.ibus_data 0)).2.1
          (clear_phase_bits (get_data_byte s.ibus_data 0)).2.2 (by decide)
        exact ⟨u1, hu1, handle_ibus_button_state _ _ _ _ _ hu1⟩
      · rw [if_neg hp] at h ⊢
        have hs1 := handle_ibus_button_state _ _ _ _ _ h
        obtain ⟨u1, hu1⟩ := handle_ibus_button_flag_congr s u s1 _ _ _ h
          (by rw [hfl, hs1.2.1])
        exact ⟨u1, hu1, handle_ibus_button_state _ _ _ _ _ hu1⟩
    · rw [if_neg hm1] at h ⊢
      by_cases hm0 : get_message s.ibus_data = BMBTB0
      · rw [if_pos hm0] at h ⊢
        by_cases hsel : (clear_phase_bits (get_data_byte s.ibus_data 1)).1
            = ButtonSelectInTapeMode
        · rw [if_pos hsel]
          obtain ⟨u1, hu1⟩ := handle_ibus_button_in_table u SelectInTapeMode
            (clear_phase_bits (get_data_byte s.ibus_data 1)).2.1
            (clear_phase_bits (get_data_byte s.ibus_data 1)).2.2 (by decide)
          exact ⟨u1, hu1, handle_ibus_button_state _ _ _ _ _ hu1⟩
        · rw [if_neg hsel]
          exact ⟨u, rfl, rfl, rfl, rfl⟩
      · rw [if_neg hm0] at h ⊢
        by_cases hk : get_message s.ibus_data = KNOB
        · rw [if_pos hk]
          split
          · exact ⟨_, rfl, knob_loop_state _ _ _⟩
          · exact ⟨_, rfl, knob_loop_state _ _ _⟩
        · rw [if_neg hk]
          exact ⟨u, rfl, rfl, rfl, rfl⟩
  · rw [if_neg hb] at h ⊢
    by_cases hmfl : get_sender s.ibus_data = MFL ∧ get_receiver s.ibus_data = RAD
    · rw [if_pos hmfl]
      by_cases hv : get_message s.ibus_data = MFLB
      · rw [if_pos hv]
        exact ⟨u, rfl, rfl, rfl, rfl⟩
      · rw [if_neg hv]
        by_cases h2 : get_message s.ibus_data = MFLB2
        · rw [if_pos h2]
          split_ifs
          all_goals first
            | exact ⟨u, rfl, rfl, rfl, rfl⟩
            | exact handle_ibus_button_calm u _ _ _ (by decide)
        · rw [if_neg h2]
          exact ⟨u, rfl, rfl, rfl, rfl⟩
    · rw [if_neg hmfl]
      exact ⟨u, rfl, rfl, rfl, rfl⟩

/-- Both handlers run again on an engine that has the buffer and hijack state of the first
run and the state and flag the first run ended with: they return and change neither the
state nor the flag nor the video line. -/
theorem dispatch_again (s s1 s2 u : Engine) (h1 : handle_buttons s = .ok s1)
    (h2 : handle_state s1 = .ok s2)
    (hd : u.ibus_data = s.ibus_data) (hh : u.IbusHijackState = s.IbusHijackState)
    (hst : u.ibus_state = s2.ibus_state) (hfl : u.send_key_events = s2.send_key_events) :
    ∃ u1 u2, handle_buttons u = .ok u1 ∧ handle_state u1 = .ok u2 ∧
      u2.ibus_state = u.ibus_state ∧ u2.send_key_events = u.send_key_events ∧
      video_calls u2.trace = video_calls u.trace := by
  by_cases hrad : get_sender s.ibus_data = RAD
  · rw [handle_buttons_radio s hrad] at h1
    cases h1
    have hu : handle_buttons u = .ok u := handle_buttons_radio u (by rw [hd]; exact hrad)
    rcases handle_state_uniform s s2 u h2 hd hh with ⟨_, hsu⟩ | ⟨st, ht, hsu⟩
    · exact ⟨u, u, hu, hsu, rfl, rfl, rfl⟩
    · have hmode : u.ibus_state = st := by
        rw [hst, ht]
        exact ibus_change_state_state _ _
      rw [ibus_change_state_same u st hmode] at hsu
      exact ⟨u, u, hu, hsu, rfl, rfl, rfl⟩
  · have hb1 := handle_buttons_same_buffer _ _ h1
    have hs1 : handle_state s1 = .ok s1 :=
      handle_state_not_radio s1 (by rw [hb1.1]; exact hrad)
    rw [hs1] at h2
    cases h2
    obtain ⟨u1, hu1, hv⟩ := handle_buttons_again s s1 u h1 hd hst hfl
    have hbu := handle_buttons_same_buffer _ _ hu1
    have hsu : handle_state u1 = .ok u1 :=
      handle_state_not_radio u1 (by rw [hbu.1, hd]; exact hrad)
    exact ⟨u1, u1, hu1, hsu, hv⟩

/-! ## The text scan -/

theorem c_string_of_zero (l : List Nat) (h : 0 ∈ l) : c_string l = some (text_of l) := by
  induction l with
  | nil => cases h
  | cons b t ih =>
    by_cases hb : b = 0
    · simp [c_string, text_of, hb]
    · have ht : 0 ∈ t := by
        rcases List.mem_cons.mp h with h0 | h0
        · exact absurd h0.symm hb
        · exact h0
      simp [c_string, text_of, hb, ih ht]

theorem text_of_replicate_zero (k : Nat) : text_of (List.replicate k 0) = [] := by
  cases k with
  | zero => rfl
  | succ k => simp [List.replicate_succ, text_of]

theorem text_of_append_zeros (l : List Nat) (k : Nat) :
    text_of (l ++ List.replicate k 0) = text_of l := by
  induction l with
  | nil => simpa [text_of] using text_of_replicate_zero k
  | cons b t ih =>
    by_cases hb : b = 0
    · simp [text_of, hb]
    · simp [text_of, hb, ih]

/-- On a buffer that holds the bytes `f` and then zeros, `data_contains` searches the
text of the bytes of `f` from the first data position on. -/
theorem data_contains_load_buffer (e : Engine) (f tag : List Nat)
    (hlen : f.length < ibus_data_max_length) :
    data_contains (load_buffer e f).ibus_data tag = .ok (strstr (scanned_text f) tag) := by
  have hdrop : (load_buffer e f).ibus_data.drop EPosDataStart
      = f.drop EPosDataStart
        ++ (List.replicate (ibus_data_max_length - f.length) 0).drop (EPosDataStart - f.length) :=
    List.drop_append_eq_append_drop
  have hrep : (List.replicate (ibus_data_max_length - f.length) 0).drop
      (EPosDataStart - f.length)
      = List.replicate (ibus_data_max_length - f.length - (EPosDataStart - f.length)) 0 :=
    List.drop_replicate _ _ _
  have hpos : 0 < ibus_data_max_length - f.length - (EPosDataStart - f.length) := by
    simp only [ibus_data_max_length, EPosDataStart] at hlen ⊢
    omega
  have hzero : 0 ∈ (load_buffer e f).ibus_data.drop EPosDataStart := by
    rw [hdrop, hrep]
    apply List.mem_append_right
    obtain ⟨m, hm⟩ : ∃ m, ibus_data_max_length - f.length - (EPosDataStart - f.length) = m + 1 :=
      ⟨_, (Nat.succ_pred_eq_of_pos hpos).symm⟩
    rw [hm, List.replicate_succ]
    exact List.mem_cons_self 0 _
  unfold data_contains
  rw [c_string_of_zero _ hzero, hdrop, hrep, text_of_append_zeros]
  rfl

theorem starts_with_iff (hay tag : List Nat) :
    starts_with hay tag = true ↔ ∃ post, hay = tag ++ post := by
  induction hay generalizing tag with
  | nil =>
    cases tag with
    | nil => simp [starts_with]
    | cons b tag => simp [starts_with]
  | cons a hay ih =>
    cases tag with
    | nil => simp [starts_with]
    | cons b tag =>
      simp only [starts_with, Bool.and_eq_true, beq_iff_eq, ih, List.cons_append,
        List.cons.injEq]
      constructor
      · rintro ⟨hab, post, hp⟩
        exact ⟨post, hab, hp⟩
      · rintro ⟨post, hab, hp⟩
        exact ⟨hab, post, hp⟩

/-- The search of `strstr` finds `tag` exactly when `tag` occurs in the text. -/
theorem strstr_iff (hay tag : List Nat) :
    strstr hay tag = true ↔ contains_bytes hay tag := by
  induction hay with
  | nil =>
    simp only [strstr, starts_with_iff, contains_bytes]
    constructor
    · rintro ⟨post, hp⟩
      exact ⟨[], post, by simpa using hp⟩
    · rintro ⟨pre, post, hp⟩
      have h1 : pre = [] := by
        cases pre with
        | nil => rfl
        | cons a pre => simp at hp
      subst h1
      exact ⟨post, by simpa using hp⟩
  | cons a hay ih =>
    simp only [strstr, Bool.or_eq_true, starts_with_iff, ih, contains_bytes]
    constructor
    · rintro (⟨post, hp⟩ | ⟨pre, post, hp⟩)
      · exact ⟨[], post, by simpa using hp⟩
      · exact ⟨a :: pre, post, by simp [hp]⟩
    · rintro ⟨pre, post, hp⟩
      cases pre with
      | nil => exact Or.inl ⟨post, by simpa using hp⟩
      | cons b pre =>
        simp only [List.cons_append, List.cons.injEq] at hp
        exact Or.inr ⟨pre, post, by simpa using hp.2⟩

theorem contains_bytes_append (text ext tag : List Nat) (h : contains_bytes text tag) :
    contains_bytes (text ++ ext) tag := by
  obtain ⟨pre, post, hp⟩ := h
  exact ⟨pre, post ++ ext, by simp [hp]⟩

theorem text_of_append (p q : List Nat) : ∃ ext, text_of (p ++ q) = text_of p ++ ext := by
  induction p with
  | nil => exact ⟨text_of q, rfl⟩
  | cons b t ih =>
    by_cases hb : b = 0
    · exact ⟨[], by simp [text_of, hb]⟩
    · obtain ⟨ext, he⟩ := ih
      exact ⟨ext, by simp [text_of, hb, he]⟩

theorem drop_eq_payload_append (f : List Nat) (h5 : 5 ≤ f.length) :
    f.drop EPosDataStart = payload f ++ [f.getD (f.length - 1) 0] := by
  have hne : f.drop EPosDataStart ≠ [] := by
    intro h
    have := congrArg List.length h
    simp [EPosDataStart] at this
    omega
  have hlast : (f.drop EPosDataStart).getLast hne = f.getD (f.length - 1) 0 := by
    rw [List.getLast_drop, List.getD_eq_getElem?_getD, List.getLast_eq_getElem,
      List.getElem?_eq_getElem (by omega)]
    rfl
  rw [payload, ← hlast]
  exact (List.dropLast_append_getLast hne).symm

/-- What the data bytes hold, the scan finds. -/
theorem scanned_of_payload (f tag : List Nat) (h5 : 5 ≤ f.length)
    (h : contains_bytes (text_of (payload f)) tag) : contains_bytes (scanned_text f) tag := by
  obtain ⟨ext, he⟩ := text_of_append (payload f) [f.getD (f.length - 1) 0]
  rw [scanned_text, drop_eq_payload_append f h5, he]
  exact contains_bytes_append _ _ _ h

/-! ## The state messages -/

theorem handle_state_hijack (s : Engine) (h : s.IbusHijackState ≠ EStateUnknown) :
    handle_state s = handle_headunit_state s := by
  unfold handle_state
  rw [if_pos h]

/-- The state handler on a display-text message with the radio-display layout. -/
theorem handle_headunit_state_display (s : Engine) (txt : List Nat)
    (hs : get_sender s.ibus_data = RAD) (hr : get_receiver s.ibus_data = GT)
    (hm : get_message s.ibus_data = UMID) (hl : get_data_byte s.ibus_data 0 = 0x62)
    (hscan : ∀ tag, data_contains s.ibus_data tag = .ok (strstr txt tag)) :
    handle_headunit_state s =
      .ok (if strstr txt tag_AUX = true then ibus_change_state s EStateAUX
           else if strstr txt tag_TAPE = true then ibus_change_state s EStateTAPE else s) := by
  simp only [handle_headunit_state, hs, hr, hm, hl, hscan, and_self, if_true, bind,
    Except.bind, pure, Except.pure]
  split_ifs <;> rfl

/-- The state handler on a screen-text message with the radio-display layout. -/
theorem handle_headunit_state_screen (s : Engine) (txt : List Nat)
    (hs : get_sender s.ibus_data = RAD) (hr : get_receiver s.ibus_data = GT)
    (hm : get_message s.ibus_data = ST) (hl : get_data_byte s.ibus_data 0 = 0x62)
    (hscan : ∀ tag, data_contains s.ibus_data tag = .ok (strstr txt tag)) :
    handle_headunit_state s =
      .ok (if (strstr txt tag_RDS || strstr txt tag_FM || strstr txt tag_REG
                || strstr txt tag_MWA) = true
           then ibus_change_state s EStateFM else s) := by
  have hne : ¬ (ST = UMID) := by decide
  simp only [handle_headunit_state, hs, hr, hm, hl, hscan, hne, and_self, if_true, if_false,
    bind, Except.bind, pure, Except.pure]
  split_ifs <;> rfl

/-- The state handler on an LCD-clear message. -/
theorem handle_headunit_state_lcd (s : Engine)
    (hs : get_sender s.ibus_data = RAD) (hr : get_receiver s.ibus_data = GT)
    (hm : get_message s.ibus_data = LCDC) :
    handle_headunit_state s =
      .ok (if get_data_length s.ibus_data = 1 ∧
              (get_data_byte s.ibus_data 0 = 0x01 ∨ get_data_byte s.ibus_data 0 = 0x02)
           then ibus_change_state s EStateMenu else s) := by
  have hne1 : ¬ (LCDC = UMID) := by decide
  have hne2 : ¬ (LCDC = ST) := by decide
  simp only [handle_headunit_state, hs, hr, hm, hne1, hne2, and_self, if_true, if_false,
    pure, Except.pure]
  by_cases h1 : get_data_length s.ibus_data = 1
  · by_cases h2 : get_data_byte s.ibus_data 0 = 0x01 ∨ get_data_byte s.ibus_data 0 = 0x02
    · rw [if_pos h1, if_pos h2, if_pos ⟨h1, h2⟩]
    · rw [if_pos h1, if_neg h2, if_neg (fun h => h2 h.2)]
  · rw [if_neg h1, if_neg (fun h => h1 h.1)]

/-- The accessors on the marked buffer of one frame read the bytes of the frame. -/
theorem accessors_mark_valid (e : Engine) (f : List Nat) :
    get_sender (mark_valid (load_buffer e f) f.length).ibus_data = get_sender f ∧
    get_receiver (mark_valid (load_buffer e f) f.length).ibus_data = get_receiver f ∧
    get_message (mark_valid (load_buffer e f) f.length).ibus_data = get_message f ∧
    get_data_byte (mark_valid (load_buffer e f) f.length).ibus_data 0 = get_data_byte f 0 :=
  ⟨getD_load_buffer e f _, getD_load_buffer e f _, getD_load_buffer e f _,
    getD_load_buffer e f _⟩

/-- Processing one well-formed frame from the radio to the graphics unit with a hijack
state given: only the state handler acts. -/
theorem process_state_frame (e : Engine) (f : List Nat) (fuel : Nat) (t : Engine)
    (hwf : well_formed_frame f) (h255 : f.length ≤ 255) (hs : get_sender f = RAD)
    (hh : e.IbusHijackState ≠ EStateUnknown) (hf : 257 ≤ fuel)
    (ht : handle_headunit_state (mark_valid (load_buffer e f) f.length) = .ok t) :
    process_ibus_message fuel (load_buffer e f) = .ok (clear_buffer t) := by
  have hacc := accessors_mark_valid e f
  have h1 := handle_buttons_radio (mark_valid (load_buffer e f) f.length)
    (by rw [hacc.1]; exact hs)
  have h2 : handle_state (mark_valid (load_buffer e f) f.length) = .ok t := by
    rw [handle_state_hijack (mark_valid (load_buffer e f) f.length) hh]
    exact ht
  exact process_single_frame e f fuel hwf h255 hf _ _ h1 h2

/-- When the checksum byte completes no occurrence of `tag`, the scan finds `tag` exactly
when the text of the data bytes holds it. -/
theorem strstr_scanned_iff (f tag : List Nat) (h5 : 5 ≤ f.length)
    (hc : ¬ checksum_completes f tag) :
    strstr (scanned_text f) tag = true ↔ contains_bytes (text_of (payload f)) tag := by
  constructor
  · intro h
    by_contra hn
    exact hc ⟨(strstr_iff _ _).mp h, hn⟩
  · intro h
    exact (strstr_iff _ _).mpr (scanned_of_payload f tag h5 h)

theorem not_checksum_completes_of_payload (f tag : List Nat)
    (h : contains_bytes (text_of (payload f)) tag) : ¬ checksum_completes f tag :=
  fun hc => hc.2 h

theorem not_checksum_completes_of_scan (f tag : List Nat)
    (h : strstr (scanned_text f) tag = false) : ¬ checksum_completes f tag := by
  intro hc
  have h2 := (strstr_iff _ _).mpr hc.1
  rw [h] at h2
  cases h2

theorem payload_length (f : List Nat) : (payload f).length = f.length - 5 := by
  simp [payload, EPosDataStart]
  omega

theorem payload_six (f : List Nat) (h : f.length = 6) : payload f = [get_data_byte f 0] := by
  rcases f with _ | ⟨a, _ | ⟨b, _ | ⟨c, _ | ⟨d, _ | ⟨x, _ | ⟨y, _ | ⟨z, r⟩⟩⟩⟩⟩⟩⟩
  all_goals first
    | rfl
    | simp at h

theorem frame_length_le (f : List Nat) (hwf : well_formed_frame f) : f.length ≤ 257 := by
  obtain ⟨h5, hlen, hb, _⟩ := hwf
  have h1 := hb EPosLength (by simp only [EPosLength]; omega)
  omega

theorem get_data_length_mark_valid (e : Engine) (f : List Nat) (hwf : well_formed_frame f)
    (h255 : f.length ≤ 255) :
    get_data_length (mark_valid (load_buffer e f) f.length).ibus_data = f.length - 5 := by
  have hl : get_message_length (load_buffer e f).ibus_data = f.length := by
    rw [get_message_length_load_buffer, ← hwf.2.1]
    omega
  show get_data_length (load_buffer e f).ibus_data = f.length - 5
  unfold get_data_length
  simp only [hl, EMinimumMessageLength]
  split
  · omega
  · rfl

/-- The test of the LCD-clear branch, one data byte that is 1 or 2, in terms of the data
bytes of the frame. -/
theorem lcd_condition_iff (e : Engine) (f : List Nat) (hwf : well_formed_frame f)
    (h255 : f.length ≤ 255) :
    (get_data_length (mark_valid (load_buffer e f) f.length).ibus_data = 1 ∧
      (get_data_byte (mark_valid (load_buffer e f) f.length).ibus_data 0 = 0x01 ∨
       get_data_byte (mark_valid (load_buffer e f) f.length).ibus_data 0 = 0x02)) ↔
    (payload f = [0x01] ∨ payload f = [0x02]) := by
  rw [get_data_length_mark_valid e f hwf h255, (accessors_mark_valid e f).2.2.2]
  by_cases h6 : f.length = 6
  · rw [payload_six f h6, h6]
    simp
  · have hp := payload_length f
    constructor
    · intro h
      omega
    · intro h
      rcases h with h | h <;> rw [h] at hp <;> simp at hp <;> omega

/-! ## The button banks -/

/-- The button handler on a bank-1 message of the on-board monitor. -/
theorem handle_buttons_bank1 (s : Engine) (hs : get_sender s.ibus_data = BMBT)
    (hm : get_message s.ibus_data = BMBTB1) :
    handle_buttons s =
      handle_ibus_button
        (if (clear_phase_bits (get_data_byte s.ibus_data 0)).1 = ButtonRadioPower
          then ibus_change_state s EStatePowerOff else s)
        (clear_phase_bits (get_data_byte s.ibus_data 0)).1
        (clear_phase_bits (get_data_byte s.ibus_data 0)).2.1
        (clear_phase_bits (get_data_byte s.ibus_data 0)).2.2 := by
  simp only [handle_buttons, hs, hm, if_true]

/-- The button handler on a bank-0 message of the on-board monitor. -/
theorem handle_buttons_bank0 (s : Engine) (hs : get_sender s.ibus_data = BMBT)
    (hm : get_message s.ibus_data = BMBTB0) :
    handle_buttons s =
      if (clear_phase_bits (get_data_byte s.ibus_data 1)).1 = ButtonSelectInTapeMode
      then handle_ibus_button s SelectInTapeMode
        (clear_phase_bits (get_data_byte s.ibus_data 1)).2.1
        (clear_phase_bits (get_data_byte s.ibus_data 1)).2.2
      else .ok s := by
  have hne : ¬ (BMBTB0 = BMBTB1) := by decide
  simp only [handle_buttons, hs, hm, hne, if_true, if_false]

set_option maxRecDepth 8000 in
theorem clear_phase_bits_long : ∀ b, b < 256 → b &&& 0x40 ≠ 0 →
    clear_phase_bits b = (b - 0x40, 0, 1) := by
  decide

set_option maxRecDepth 8000 in
theorem clear_phase_bits_long_bits : ∀ b, b < 256 → b &&& 0x40 ≠ 0 →
    (b - 0x40) &&& 0x40 = 0 ∧ (b - 0x40) &&& 0x80 = b &&& 0x80 := by
  decide

set_option maxRecDepth 8000 in
theorem clear_phase_bits_release : ∀ b, b < 256 → b &&& 0x40 = 0 → b &&& 0x80 ≠ 0 →
    clear_phase_bits b = (b - 0x80, 1, 0) ∧ (b - 0x80) &&& 0x80 = 0 := by
  decide

set_option maxRecDepth 8000 in
theorem clear_phase_bits_press : ∀ b, b < 256 → b &&& 0x40 = 0 → b &&& 0x80 = 0 →
    clear_phase_bits b = (b, 0, 0) := by
  decide

theorem clear_phase_bits_table (b : Nat) (hb : b < 256) :
    (b &&& 0x40 ≠ 0 →
      clear_phase_bits b = (b - 0x40, 0, 1) ∧ (b - 0x40) &&& 0x40 = 0 ∧
        (b - 0x40) &&& 0x80 = b &&& 0x80) ∧
    (b &&& 0x40 = 0 → b &&& 0x80 ≠ 0 →
      clear_phase_bits b = (b - 0x80, 1, 0) ∧ (b - 0x80) &&& 0x80 = 0) ∧
    (b &&& 0x40 = 0 → b &&& 0x80 = 0 → clear_phase_bits b = (b, 0, 0)) :=
  ⟨fun h => ⟨clear_phase_bits_long b hb h, clear_phase_bits_long_bits b hb h⟩,
   clear_phase_bits_release b hb, clear_phase_bits_press b hb⟩

/-! ## Reading bytes -/

theorem append_byte_below (s : Engine) (b : Nat)
    (hlen : s.ibus_data.length = ibus_data_max_length)
    (hn : s.ibus_data_index + 1 < ibus_data_max_length) :
    append_byte s b =
      { s with
        ibus_data := s.ibus_data.take s.ibus_data_index ++ b ::
          s.ibus_data.drop (s.ibus_data_index + 1),
        ibus_data_index := s.ibus_data_index + 1 } := by
  have hne : ¬ (s.ibus_data_index + 1 = ibus_data_max_length) := by omega
  unfold append_byte
  simp only [hne, if_false]
  rw [List.set_eq_take_cons_drop b (by omega)]

theorem append_byte_full (s : Engine) (b : Nat)
    (hn : s.ibus_data_index + 1 = ibus_data_max_length) :
    append_byte s b =
      { s with ibus_data := List.replicate ibus_data_max_length 0, ibus_data_index := 0 } := by
  unfold append_byte
  simp only [hn, if_true]
  rfl

/-- Bytes read while room is left are stored one after the other behind the bytes that
are there, and nothing else changes. -/
theorem feed_below (bytes : List Nat) :
    ∀ (s : Engine), s.ibus_data.length = ibus_data_max_length →
      s.ibus_data_index + bytes.length < ibus_data_max_length →
      feed s bytes =
        { s with
          ibus_data := s.ibus_data.take s.ibus_data_index ++ bytes ++
            s.ibus_data.drop (s.ibus_data_index + bytes.length),
          ibus_data_index := s.ibus_data_index + bytes.length } := by
  induction bytes with
  | nil =>
    intro s _ _
    simp [feed]
  | cons b rest ih =>
    intro s hlen hn
    simp only [List.length_cons] at hn
    have h1 := append_byte_below s b hlen (by omega)
    have hfeed : feed s (b :: rest) = feed (append_byte s b) rest := rfl
    have htake : (s.ibus_data.take s.ibus_data_index).length = s.ibus_data_index := by
      rw [List.length_take]
      omega
    rw [hfeed, h1, ih _ (by simp; omega) (by simp only; omega)]
    have e1 : (s.ibus_data.take s.ibus_data_index ++ b ::
        s.ibus_data.drop (s.ibus_data_index + 1)).take (s.ibus_data_index + 1)
        = s.ibus_data.take s.ibus_data_index ++ [b] := by
      have : s.ibus_data.take s.ibus_data_index ++ b :: s.ibus_data.drop (s.ibus_data_index + 1)
          = (s.ibus_data.take s.ibus_data_index ++ [b])
            ++ s.ibus_data.drop (s.ibus_data_index + 1) := by simp
      rw [this, List.take_left']
      simp [htake]
    have e2 : (s.ibus_data.take s.ibus_data_index ++ b ::
        s.ibus_data.drop (s.ibus_data_index + 1)).drop (s.ibus_data_index + 1 + rest.length)
        = s.ibus_data.drop (s.ibus_data_index + (rest.length + 1)) := by
      have : s.ibus_data.take s.ibus_data_index ++ b :: s.ibus_data.drop (s.ibus_data_index + 1)
          = (s.ibus_data.take s.ibus_data_index ++ [b])
            ++ s.ibus_data.drop (s.ibus_data_index + 1) := by simp
      rw [this, List.drop_append_eq_append_drop, List.drop_eq_nil_of_le (by simp [htake])]
      simp only [List.length_append, htake, List.length_singleton, List.nil_append,
        List.drop_drop]
      congr 1
      omega
    simp only [e1, e2, List.length_cons, List.append_assoc, List.singleton_append]
    congr 1
    omega

/-- The byte that fills the buffer clears it. -/
theorem feed_full (bytes : List Nat) (s : Engine)
    (hlen : s.ibus_data.length = ibus_data_max_length)
    (hn : s.ibus_data_index < ibus_data_max_length)
    (hk : s.ibus_data_index + bytes.length = ibus_data_max_length) :
    feed s bytes =
      { s with ibus_data := List.replicate ibus_data_max_length 0, ibus_data_index := 0 } := by
  have hne : bytes ≠ [] := by
    intro h
    rw [h] at hk
    simp at hk
    omega
  have hsplit := (List.dropLast_append_getLast hne).symm
  have hlast : bytes.dropLast.length + 1 = bytes.length := by
    rw [List.length_dropLast]
    have : 0 < bytes.length := List.length_pos.mpr hne
    omega
  have hfeed : feed s bytes = append_byte (feed s bytes.dropLast) (bytes.getLast hne) := by
    conv_lhs => rw [hsplit]
    simp [feed, List.foldl_append]
  rw [hfeed, feed_below bytes.dropLast s hlen (by omega)]
  rw [append_byte_full _ _ (by simp only; omega)]

/-! ## The steering-wheel buttons -/

set_option maxRecDepth 8000 in
theorem release_bit_keeps_channel_up : ∀ b, b < 256 →
    (if b &&& MFL2ButtonRelease ≠ 0 then b &&& (0xFF ^^^ MFL2ButtonRelease) else b)
      &&& MFL2ButtonChannelUp = b &&& 0x01 := by
  decide

set_option maxRecDepth 8000 in
theorem release_bit_keeps_channel_down : ∀ b, b < 256 →
    (if b &&& MFL2ButtonRelease ≠ 0 then b &&& (0xFF ^^^ MFL2ButtonRelease) else b)
      &&& MFL2ButtonChannelDown = b &&& 0x08 := by
  decide

theorem handle_ibus_button_channel_up (s : Engine) (released longPress : Nat) :
    handle_ibus_button s MFL2ChannelUp released longPress =
      .ok (if s.send_key_events ≠ 0
        then send_key_event s KEY_UP (if released ≠ 0 then 0 else 1) else s) := by
  unfold handle_ibus_button
  by_cases h : s.send_key_events ≠ 0
  · rw [if_pos h, if_pos h]
    rfl
  · rw [if_neg h, if_neg h]

theorem handle_ibus_button_channel_down (s : Engine) (released longPress : Nat) :
    handle_ibus_button s MFL2ChannelDown released longPress =
      .ok (if s.send_key_events ≠ 0
        then send_key_event s KEY_DOWN (if released ≠ 0 then 0 else 1) else s) := by
  unfold handle_ibus_button
  by_cases h : s.send_key_events ≠ 0
  · rw [if_pos h, if_pos h]
    rfl
  · rw [if_neg h, if_neg h]

/-- The button handler on a secondary-bank message of the steering wheel to the radio. -/
theorem handle_buttons_mfl2 (s : Engine) (hs : get_sender s.ibus_data = MFL)
    (hr : get_receiver s.ibus_data = RAD) (hm : get_message s.ibus_data = MFLB2)
    (hb : get_data_byte s.ibus_data 0 < 256) :
    handle_buttons s =
      .ok (if s.send_key_events ≠ 0 then
          if get_data_byte s.ibus_data 0 &&& 0x01 ≠ 0 then
            send_key_event s KEY_UP (if get_data_byte s.ibus_data 0 &&& 0x20 ≠ 0 then 0 else 1)
          else if get_data_byte s.ibus_data 0 &&& 0x08 ≠ 0 then
            send_key_event s KEY_DOWN (if get_data_byte s.ibus_data 0 &&& 0x20 ≠ 0 then 0 else 1)
          else s
        else s) := by
  have h1 : ¬ (MFL = BMBT) := by decide
  have h2 : ¬ (MFLB2 = MFLB) := by decide
  have hrel : (if (if get_data_byte s.ibus_data 0 &&& MFL2ButtonRelease ≠ 0 then 1 else 0) ≠ 0
      then 0 else 1) = (if get_data_byte s.ibus_data 0 &&& 0x20 ≠ 0 then 0 else 1) := by
    by_cases h : get_data_byte s.ibus_data 0 &&& MFL2ButtonRelease ≠ 0
    · have h20 : get_data_byte s.ibus_data 0 &&& 0x20 ≠ 0 := h
      rw [if_pos h, if_pos h20, if_pos (by decide)]
    · have h20 : ¬ (get_data_byte s.ibus_data 0 &&& 0x20 ≠ 0) := h
      rw [if_neg h, if_neg h20, if_neg (by decide)]
  simp only [handle_buttons, hs, hr, hm, h1, h2, and_self, if_true, if_false]
  rw [release_bit_keeps_channel_up _ hb, release_bit_keeps_channel_down _ hb,
    handle_ibus_button_channel_up, handle_ibus_button_channel_down, hrel]
  split_ifs <;> rfl

/-! ## Frames that are not dispatched -/

theorem key_events_append (a b : List Event) :
    key_events (a ++ b) = key_events a ++ key_events b := by
  induction a with
  | nil => rfl
  | cons x a ih =>
    cases x with
    | valid_message f => simpa [key_events] using ih
    | send_key_event k v => simp [key_events, ih]
    | enable_video_input en => simpa [key_events] using ih

theorem ibus_change_state_key_events (s : Engine) (st : EIbusState) :
    key_events (ibus_change_state s st).trace = key_events s.trace := by
  unfold ibus_change_state
  by_cases h1 : s.ibus_state = st
  · rw [if_pos h1]
  · rw [if_neg h1]
    simp only
    split <;> simp [enable_video_input, key_events_append, key_events]

/-- Processing a buffer that holds exactly one well-formed frame of at most 255 bytes is
one run of the button handler and of the state handler on the marked frame. -/
theorem process_single_frame_eq (e : Engine) (f : List Nat) (fuel : Nat)
    (hwf : well_formed_frame f) (h255 : f.length ≤ 255) (hf : 257 ≤ fuel) :
    process_ibus_message fuel (load_buffer e f) =
      match handle_buttons (mark_valid (load_buffer e f) f.length) with
      | .error x => .error x
      | .ok s1 =>
        match handle_state s1 with
        | .error x => .error x
        | .ok s2 => .ok (clear_buffer s2) := by
  cases h1 : handle_buttons (mark_valid (load_buffer e f) f.length) with
  | error x =>
    obtain ⟨g, rfl⟩ : ∃ g, fuel = g + 1 := ⟨fuel - 1, by omega⟩
    have hl : get_message_length (load_buffer e f).ibus_data = f.length := by
      rw [get_message_length_load_buffer, ← hwf.2.1]
      omega
    rw [process_of_valid g _ (validate_well_formed e f g hwf h255 (by omega))]
    simp only [accept_message, hl, h1]
  | ok s1 =>
    dsimp only
    cases h2 : handle_state s1 with
    | error x =>
      obtain ⟨g, rfl⟩ : ∃ g, fuel = g + 1 := ⟨fuel - 1, by omega⟩
      have hl : get_message_length (load_buffer e f).ibus_data = f.length := by
        rw [get_message_length_load_buffer, ← hwf.2.1]
        omega
      rw [process_of_valid g _ (validate_well_formed e f g hwf h255 (by omega))]
      simp only [accept_message, hl, h1, h2]
    | ok s2 => exact process_single_frame e f fuel hwf h255 hf s1 s2 h1 h2

theorem handle_state_not_radio_gt (s : Engine)
    (h : ¬ (get_sender s.ibus_data = RAD ∧ get_receiver s.ibus_data = GT)) :
    handle_state s = .ok s := by
  unfold handle_state handle_headunit_state
  simp only [h, if_false]
  split <;> rfl

theorem handle_buttons_other (s : Engine) (h1 : get_sender s.ibus_data ≠ BMBT)
    (h2 : ¬ (get_sender s.ibus_data = MFL ∧ get_receiver s.ibus_data = RAD)) :
    handle_buttons s = .ok s := by
  simp only [handle_buttons, h1, h2, if_false]

/-- Only a bank-1 message with the radio-power code makes the button handler change the
state, the flag or the video line. -/
theorem handle_buttons_state_unchanged (s t : Engine) (h : handle_buttons s = .ok t)
    (hnp : ¬ (get_sender s.ibus_data = BMBT ∧ get_message s.ibus_data = BMBTB1 ∧
      (clear_phase_bits (get_data_byte s.ibus_data 0)).1 = ButtonRadioPower)) :
    t.ibus_state = s.ibus_state ∧ t.send_key_events = s.send_key_events ∧
      video_calls t.trace = video_calls s.trace := by
  simp only [handle_buttons] at h
  split_ifs at h
  all_goals first
    | exact absurd ⟨‹_›, ‹_›, ‹_›⟩ hnp
    | exact handle_ibus_button_state _ _ _ _ _ h
    | (cases h; exact knob_loop_state _ _ _)
    | (cases h; exact ⟨rfl, rfl, rfl⟩)

/-- The button handler returns unless it looks up a code beyond the table. -/
theorem handle_buttons_returns (s : Engine)
    (h : s.send_key_events = 0 ∨
      ¬ (get_sender s.ibus_data = BMBT ∧ get_message s.ibus_data = BMBTB1) ∨
      (clear_phase_bits (get_data_byte s.ibus_data 0)).1 < 58) :
    ∃ t, handle_buttons s = .ok t := by
  by_cases hb : get_sender s.ibus_data = BMBT ∧ get_message s.ibus_data = BMBTB1
  · rw [handle_buttons_bank1 s hb.1 hb.2]
    by_cases hc : (clear_phase_bits (get_data_byte s.ibus_data 0)).1 < 58
    · exact handle_ibus_button_in_table _ _ _ _ hc
    · have h0 : s.send_key_events = 0 := by
        rcases h with h | h | h
        · exact h
        · exact absurd hb h
        · exact absurd h hc
      have hne : ¬ ((clear_phase_bits (get_data_byte s.ibus_data 0)).1 = ButtonRadioPower) := by
        intro h6
        rw [h6] at hc
        exact hc (by decide)
      rw [if_neg hne]
      unfold handle_ibus_button
      rw [if_neg (by rw [h0]; decide)]
      exact ⟨_, rfl⟩
  · simp only [handle_buttons]
    split_ifs
    all_goals first
      | exact ⟨_, rfl⟩
      | exact handle_ibus_button_in_table _ _ _ _ (by decide)
      | exact absurd ⟨‹_›, ‹_›⟩ hb

theorem handle_headunit_state_returns (s : Engine) (txt : List Nat)
    (hscan : ∀ tag, data_contains s.ibus_data tag = .ok (strstr txt tag)) :
    ∃ t, handle_headunit_state s = .ok t := by
  simp only [handle_headunit_state, hscan, bind, Except.bind, pure, Except.pure]
  split_ifs <;> exact ⟨_, rfl⟩

/-- The state handler returns on a buffer that holds one frame and zero bytes after it. -/
theorem handle_state_returns (s e : Engine) (f : List Nat)
    (hd : s.ibus_data = (load_buffer e f).ibus_data) (hlen : f.length < ibus_data_max_length) :
    ∃ t, handle_state s = .ok t := by
  unfold handle_state
  split
  · exact handle_headunit_state_returns s (scanned_text f)
      (fun tag => by rw [hd]; exact data_contains_load_buffer e f tag hlen)
  · exact ⟨_, rfl⟩

theorem handle_state_key_events (s t : Engine) (h : handle_state s = .ok t) :
    key_events t.trace = key_events s.trace :=
  handle_state_preserves (fun u => key_events u.trace = key_events s.trace)
    (fun u st hu => (ibus_change_state_key_events u st).trans hu) s t rfl h

/-! ## No hijack state -/

theorem handle_state_no_hijack (s : Engine) (h : s.IbusHijackState = EStateUnknown) :
    handle_state s = .ok s := by
  unfold handle_state
  rw [if_neg (fun hn => hn h)]

theorem handle_buttons_preserves_power (P : Engine → Prop)
    (hk : ∀ s k v, P s → P (send_key_event s k v))
    (hc : ∀ s, P s → P (ibus_change_state s EStatePowerOff))
    (s t : Engine) (hs : P s) (h : handle_buttons s = .ok t) : P t := by
  simp only [handle_buttons] at h
  split_ifs at h
  all_goals first
    | (cases h; exact hs)
    | exact handle_ibus_button_preserves P hk _ _ _ _ _ (hc _ hs) h
    | exact handle_ibus_button_preserves P hk _ _ _ _ _ hs h
    | (cases h; exact knob_loop_preserves P hk _ _ _ hs)

theorem accept_message_preserves_handlers (P : Engine → Prop)
    (hb : ∀ s t, P s → handle_buttons s = .ok t → P t)
    (hst : ∀ s t, P s → handle_state s = .ok t → P t)
    (hm : ∀ s n, P s → P (mark_valid s n))
    (hd : ∀ s n, P s → P (discard_message s n))
    (hcl : ∀ s, P s → P (clear_buffer s))
    (again : Engine → Except Fault Engine) (hagain : ∀ s t, P s → again s = .ok t → P t)
    (s t : Engine) (hs : P s) (h : accept_message s again = .ok t) : P t := by
  simp only [accept_message] at h
  cases h1 : handle_buttons (mark_valid s (get_message_length s.ibus_data)) with
  | error e =>
    rw [h1] at h
    cases h
  | ok s1 =>
    rw [h1] at h
    simp only at h
    have hs1 : P s1 := hb _ _ (hm _ _ hs) h1
    cases h2 : handle_state s1 with
    | error e =>
      rw [h2] at h
      cases h
    | ok s2 =>
      rw [h2] at h
      simp only at h
      have hs2 : P s2 := hst _ _ hs1 h2
      split at h
      · exact hagain _ _ (hd _ _ hs2) h
      · cases h
        exact hcl _ (hd _ _ hs2)

/-- A property of the engine that the two handlers and the buffer steps keep is kept by a
whole call. -/
theorem process_preserves_handlers (P : Engine → Prop)
    (hb : ∀ s t, P s → handle_buttons s = .ok t → P t)
    (hst : ∀ s t, P s → handle_state s = .ok t → P t)
    (hm : ∀ s n, P s → P (mark_valid s n))
    (hd : ∀ s n, P s → P (discard_message s n))
    (hcl : ∀ s, P s → P (clear_buffer s)) :
    ∀ (fuel : Nat) (s t : Engine), P s → process_ibus_message fuel s = .ok t → P t := by
  intro fuel
  induction fuel with
  | zero =>
    intro s t _ h
    simp only [process_ibus_message] at h
    cases h
  | succ f ih =>
    intro s t hs h
    cases hv : validate_ibus_message f s with
    | error e =>
      rw [process_of_fault f s e hv] at h
      cases h
    | ok v =>
      cases v with
      | invalid_length =>
        rw [process_of_invalid_length f s hv] at h
        cases h
        exact hcl _ hs
      | invalid_checksum =>
        rw [process_of_invalid_checksum f s hv] at h
        cases h
        exact hcl _ hs
      | valid =>
        rw [process_of_valid f s hv] at h
        exact accept_message_preserves_handlers P hb hst hm hd hcl _ ih s t hs h

theorem hijack_off_send_key_event (s : Engine) (k v : Nat) (h : hijack_off s) :
    hijack_off (send_key_event s k v) := by
  refine ⟨h.1, h.2.1, h.2.2.1, ?_⟩
  intro w hw
  apply h.2.2.2 w
  simpa [send_key_event, video_calls_append, video_calls] using hw

theorem hijack_off_mark_valid (s : Engine) (n : Nat) (h : hijack_off s) :
    hijack_off (mark_valid s n) := by
  refine ⟨h.1, h.2.1, h.2.2.1, ?_⟩
  intro w hw
  apply h.2.2.2 w
  simpa [mark_valid, video_calls_append, video_calls] using hw

theorem hijack_off_discard_message (s : Engine) (n : Nat) (h : hijack_off s) :
    hijack_off (discard_message s n) := by
  unfold discard_message
  split
  · exact h
  · exact h

theorem hijack_off_append_byte (s : Engine) (b : Nat) (h : hijack_off s) :
    hijack_off (append_byte s b) := by
  unfold append_byte
  simp only
  split
  · exact h
  · exact h

theorem hijack_off_power_off (s : Engine) (h : hijack_off s) :
    hijack_off (ibus_change_state s EStatePowerOff) := by
  unfold ibus_change_state
  by_cases h1 : s.ibus_state = EStatePowerOff
  · rw [if_pos h1]
    exact h
  · rw [if_neg h1]
    have h2 : ¬ (EStatePowerOff = s.IbusHijackState ∧ s.IbusHijackState ≠ EStateUnknown) :=
      fun hc => hc.2 h.1
    simp only
    rw [if_neg h2]
    refine ⟨h.1, Or.inr rfl, rfl, ?_⟩
    intro w hw
    simp only [enable_video_input, video_calls_append, video_calls, List.mem_append,
      List.mem_singleton] at hw
    rcases hw with hw | hw
    · exact h.2.2.2 w hw
    · exact hw

theorem hijack_off_process (fuel : Nat) (s t : Engine) (hs : hijack_off s)
    (h : process_ibus_message fuel s = .ok t) : hijack_off t :=
  process_preserves_handlers hijack_off
    (fun u v hu hv =>
      handle_buttons_preserves_power hijack_off hijack_off_send_key_event hijack_off_power_off
        u v hu hv)
    (fun u v hu hv => by
      rw [handle_state_no_hijack u hu.1] at hv
      cases hv
      exact hu)
    hijack_off_mark_valid hijack_off_discard_message (fun _ hu => hu) fuel s t hs h

theorem process_hijack_state (fuel : Nat) (s t : Engine)
    (h : process_ibus_message fuel s = .ok t) : t.IbusHijackState = s.IbusHijackState :=
  process_preserves (fun u => u.IbusHijackState = s.IbusHijackState)
    (fun _ _ _ hu => hu)
    (fun u st hu => (ibus_change_state_same_buffer u st).2.2.trans hu)
    (fun _ _ hu => hu)
    (fun u n hu => by
      unfold discard_message
      split
      · exact hu
      · exact hu)
    (fun _ hu => hu) fuel s t rfl h

theorem append_byte_hijack_state (s : Engine) (b : Nat) :
    (append_byte s b).IbusHijackState = s.IbusHijackState := by
  unfold append_byte
  simp only
  split <;> rfl

theorem hijack_off_reachable (s : Engine) (h : Reachable s) :
    s.IbusHijackState = EStateUnknown → hijack_off s := by
  induction h with
  | start hijack _ =>
    intro hh
    refine ⟨hh, Or.inl rfl, rfl, ?_⟩
    intro v hv
    cases hv
  | read s b _ _ ih =>
    intro hh
    exact hijack_off_append_byte s b (ih ((append_byte_hijack_state s b).symm.trans hh))
  | process s t fuel _ hp ih =>
    intro hh
    exact hijack_off_process fuel s t (ih ((process_hijack_state fuel s t hp).symm.trans hh)) hp

/-! ## Calls made earlier do not matter -/

theorem prepend_trace_send_key_event (pre : List Event) (s : Engine) (k v : Nat) :
    send_key_event (prepend_trace pre s) k v = prepend_trace pre (send_key_event s k v) := by
  simp [send_key_event, prepend_trace, List.append_assoc]

theorem prepend_trace_handle_ibus_button (pre : List Event) (s : Engine)
    (button released longPress : Nat) :
    handle_ibus_button (prepend_trace pre s) button released longPress =
      (handle_ibus_button s button released longPress).map (prepend_trace pre) := by
  unfold handle_ibus_button
  have hflag : (prepend_trace pre s).send_key_events = s.send_key_events := rfl
  rw [hflag]
  by_cases h : s.send_key_events ≠ 0
  · rw [if_pos h, if_pos h]
    cases headunit_buttons[button]? with
    | none => rfl
    | some b =>
      simp only
      split
      · rw [prepend_trace_send_key_event]
        rfl
      · rfl
  · rw [if_neg h, if_neg h]
    rfl

theorem prepend_trace_ibus_change_state (pre : List Event) (s : Engine) (st : EIbusState) :
    ibus_change_state (prepend_trace pre s) st = prepend_trace pre (ibus_change_state s st) := by
  unfold ibus_change_state
  have hstate : (prepend_trace pre s).ibus_state = s.ibus_state := rfl
  rw [hstate]
  by_cases h1 : s.ibus_state = st
  · rw [if_pos h1, if_pos h1]
  · rw [if_neg h1, if_neg h1]
    simp only [prepend_trace]
    split <;> simp [enable_video_input, List.append_assoc]

theorem prepend_trace_knob_loop (pre : List Event) (s : Engine) (key k : Nat) :
    knob_loop (prepend_trace pre s) key k = prepend_trace pre (knob_loop s key k) := by
  rw [knob_loop_eq, knob_loop_eq]
  simp [prepend_trace, List.append_assoc]

theorem prepend_trace_handle_buttons (pre : List Event) (s : Engine) :
    handle_buttons (prepend_trace pre s) = (handle_buttons s).map (prepend_trace pre) := by
  have hdata : (prepend_trace pre s).ibus_data = s.ibus_data := rfl
  simp only [handle_buttons, hdata]
  split_ifs
  all_goals first
    | rfl
    | exact prepend_trace_handle_ibus_button pre _ _ _ _
    | (rw [prepend_trace_ibus_change_state]; exact prepend_trace_handle_ibus_button pre _ _ _ _)
    | (rw [prepend_trace_knob_loop]; rfl)

theorem prepend_trace_handle_headunit_state (pre : List Event) (s : Engine) :
    handle_headunit_state (prepend_trace pre s)
      = (handle_headunit_state s).map (prepend_trace pre) := by
  have hdata : (prepend_trace pre s).ibus_data = s.ibus_data := rfl
  simp only [handle_headunit_state, data_contains, hdata]
  cases hcs : c_string (List.drop EPosDataStart s.ibus_data) with
  | none =>
    simp only [bind, Except.bind, pure, Except.pure]
    split_ifs
    all_goals first
      | rfl
      | (rw [prepend_trace_ibus_change_state]; rfl)
  | some hay =>
    simp only [bind, Except.bind, pure, Except.pure]
    split_ifs
    all_goals first
      | rfl
      | (rw [prepend_trace_ibus_change_state]; rfl)

theorem prepend_trace_handle_state (pre : List Event) (s : Engine) :
    handle_state (prepend_trace pre s) = (handle_state s).map (prepend_trace pre) := by
  unfold handle_state
  have hh : (prepend_trace pre s).IbusHijackState = s.IbusHijackState := rfl
  rw [hh]
  split
  · exact prepend_trace_handle_headunit_state pre s
  · rfl

theorem prepend_trace_mark_valid (pre : List Event) (s : Engine) (n : Nat) :
    mark_valid (prepend_trace pre s) n = prepend_trace pre (mark_valid s n) := by
  simp [mark_valid, prepend_trace, List.append_assoc]

theorem prepend_trace_discard_message (pre : List Event) (s : Engine) (n : Nat) :
    discard_message (prepend_trace pre s) n = prepend_trace pre (discard_message s n) := by
  unfold discard_message
  have hi : (prepend_trace pre s).ibus_data_index = s.ibus_data_index := rfl
  rw [hi]
  split <;> rfl

theorem prepend_trace_accept_message (pre : List Event) (s : Engine)
    (again : Engine → Except Fault Engine)
    (hagain : ∀ u, again (prepend_trace pre u) = (again u).map (prepend_trace pre)) :
    accept_message (prepend_trace pre s) again
      = (accept_message s again).map (prepend_trace pre) := by
  have hdata : (prepend_trace pre s).ibus_data = s.ibus_data := rfl
  simp only [accept_message, hdata, prepend_trace_mark_valid, prepend_trace_handle_buttons]
  cases handle_buttons (mark_valid s (get_message_length s.ibus_data)) with
  | error x => rfl
  | ok s1 =>
    simp only [Except.map, prepend_trace_handle_state]
    cases handle_state s1 with
    | error x => rfl
    | ok s2 =>
      simp only [prepend_trace_discard_message]
      have hi : (prepend_trace pre (discard_message s2 (get_message_length s.ibus_data))).ibus_data_index
          = (discard_message s2 (get_message_length s.ibus_data)).ibus_data_index := rfl
      rw [hi]
      split
      · rw [hagain]
        rfl
      · rfl

/-- The calls made before a call of `process_ibus_message` have no part in it: they stay
in front of the calls it makes. -/
theorem prepend_trace_process (pre : List Event) :
    ∀ (fuel : Nat) (s : Engine),
      process_ibus_message fuel (prepend_trace pre s)
        = (process_ibus_message fuel s).map (prepend_trace pre) := by
  intro fuel
  induction fuel with
  | zero =>
    intro s
    rfl
  | succ g ih =>
    intro s
    have hv : validate_ibus_message g (prepend_trace pre s) = validate_ibus_message g s :=
      validate_congr g _ _ rfl rfl
    cases hr : validate_ibus_message g s with
    | error x =>
      rw [process_of_fault g _ x (hv.trans hr), process_of_fault g s x hr]
      rfl
    | ok v =>
      cases v with
      | invalid_length =>
        rw [process_of_invalid_length g _ (hv.trans hr), process_of_invalid_length g s hr]
        rfl
      | invalid_checksum =>
        rw [process_of_invalid_checksum g _ (hv.trans hr), process_of_invalid_checksum g s hr]
        rfl
      | valid =>
        rw [process_of_valid g _ (hv.trans hr), process_of_valid g s hr]
        exact prepend_trace_accept_message pre s _ ih

/-- Bytes read into the cleared buffer fill it from the start. -/
theorem feed_cleared (s : Engine) (f : List Nat)
    (hd : s.ibus_data = List.replicate ibus_data_max_length 0) (hi : s.ibus_data_index = 0)
    (hlen : f.length < ibus_data_max_length) :
    feed s f = load_buffer s f := by
  rw [feed_below f s (by rw [hd]; exact List.length_replicate _ _) (by rw [hi]; omega)]
  simp only [hi, hd, load_buffer, List.take_zero, List.nil_append, Nat.zero_add,
    List.drop_replicate]

/-! ## The states that are asked for -/

theorem handle_headunit_state_preserves_requests (P : Engine → Prop)
    (hc : ∀ s st, st ≠ EStateUnknown → st ≠ EStateCDChanger → P s →
      P (ibus_change_state s st))
    (s t : Engine) (hs : P s) (h : handle_headunit_state s = .ok t) : P t := by
  simp only [handle_headunit_state, data_contains] at h
  cases hcs : c_string (List.drop EPosDataStart s.ibus_data) with
  | none =>
    simp only [hcs, bind, Except.bind, pure, Except.pure] at h
    split_ifs at h
    all_goals first
      | (cases h; exact hs)
      | (cases h; exact hc _ _ (by decide) (by decide) hs)
  | some hay =>
    simp only [hcs, bind, Except.bind, pure, Except.pure] at h
    split_ifs at h
    all_goals first
      | (cases h; exact hs)
      | (cases h; exact hc _ _ (by decide) (by decide) hs)

/-- A property of the engine kept by every primitive step, where `ibus_change_state` need
keep it only for the states the handlers ask for, is kept by a whole call. -/
theorem process_preserves_requests (P : Engine → Prop)
    (hk : ∀ s k v, P s → P (send_key_event s k v))
    (hc : ∀ s st, st ≠ EStateUnknown → st ≠ EStateCDChanger → P s →
      P (ibus_change_state s st))
    (hm : ∀ s n, P s → P (mark_valid s n))
    (hd : ∀ s n, P s → P (discard_message s n))
    (hcl : ∀ s, P s → P (clear_buffer s))
    (fuel : Nat) (s t : Engine) (hs : P s) (h : process_ibus_message fuel s = .ok t) : P t :=
  process_preserves_handlers P
    (fun u v hu hv =>
      handle_buttons_preserves_power P hk
        (fun w hw => hc w EStatePowerOff (by decide) (by decide) hw) u v hu hv)
    (fun u v hu hv => by
      unfold handle_state at hv
      split at hv
      · exact handle_headunit_state_preserves_requests P hc u v hu hv
      · cases hv
        exact hu)
    hm hd hcl fuel s t hs h

theorem discard_message_state (s : Engine) (n : Nat) :
    (discard_message s n).ibus_state = s.ibus_state := by
  unfold discard_message
  split <;> rfl

theorem append_byte_state (s : Engine) (b : Nat) :
    (append_byte s b).ibus_state = s.ibus_state := by
  unfold append_byte
  simp only
  split <;> rfl

/-- A call of `process_ibus_message` keeps the state away from any state that the handlers
never ask for, once it is away from it. -/
theorem process_state_ne (avoid : EIbusState)
    (ha : avoid = EStateUnknown ∨ avoid = EStateCDChanger)
    (fuel : Nat) (s t : Engine) (hs : s.ibus_state ≠ avoid)
    (h : process_ibus_message fuel s = .ok t) : t.ibus_state ≠ avoid :=
  process_preserves_requests (fun u => u.ibus_state ≠ avoid)
    (fun _ _ _ hu => hu)
    (fun u st h1 h2 _ => by
      show (ibus_change_state u st).ibus_state ≠ avoid
      rw [ibus_change_state_state]
      rcases ha with ha | ha
      · rw [ha]
        exact h1
      · rw [ha]
        exact h2)
    (fun _ _ hu => hu)
    (fun u n hu => by
      show (discard_message u n).ibus_state ≠ avoid
      rw [discard_message_state]
      exact hu)
    (fun _ hu => hu) fuel s t hs h

theorem reachable_not_cd_changer (s : Engine) (h : Reachable s) :
    s.ibus_state ≠ EStateCDChanger := by
  induction h with
  | start hijack _ =>
    show EStateUnknown ≠ EStateCDChanger
    decide
  | read s b _ _ ih =>
    rw [append_byte_state]
    exact ih
  | process s t fuel _ hp ih => exact process_state_ne _ (Or.inr rfl) fuel s t ih hp

theorem reachable_from_not_unknown (s t : Engine) (h : ReachableFrom s t)
    (hs : s.ibus_state ≠ EStateUnknown) : t.ibus_state ≠ EStateUnknown := by
  induction h with
  | here => exact hs
  | read t b _ _ ih =>
    rw [append_byte_state]
    exact ih
  | process t u fuel _ hp ih => exact process_state_ne _ (Or.inl rfl) fuel t u ih hp

theorem reachable_hijack_state (s : Engine) (h : Reachable s) :
    s.IbusHijackState = EStateUnknown ∨ s.IbusHijackState = EStateTAPE ∨
      s.IbusHijackState = EStateAUX := by
  induction h with
  | start hijack hh => exact hh
  | read s b _ _ ih =>
    rw [append_byte_hijack_state]
    exact ih
  | process s t fuel _ hp ih =>
    rw [process_hijack_state fuel s t hp]
    exact ih

/-! ## Power off and the key events -/

/-- When the flag agrees with the state and the hijack state is not power off, the flag is
0 after the state power off was asked for. -/
theorem ibus_change_state_power_off_flag (s : Engine) (hg : s.send_key_events = gate_of s)
    (hh : s.IbusHijackState ≠ EStatePowerOff) :
    (ibus_change_state s EStatePowerOff).send_key_events = 0 := by
  unfold ibus_change_state
  by_cases h1 : s.ibus_state = EStatePowerOff
  · rw [if_pos h1, hg, gate_of, if_neg]
    intro hc
    exact hh (hc.1.symm.trans h1)
  · rw [if_neg h1]
    have h2 : ¬ (EStatePowerOff = s.IbusHijackState ∧ s.IbusHijackState ≠ EStateUnknown) :=
      fun hc => hh hc.1.symm
    simp only
    rw [if_neg h2]
    rfl

theorem handle_ibus_button_flag_off (s : Engine) (button released longPress : Nat)
    (h : s.send_key_events = 0) :
    handle_ibus_button s button released longPress = .ok s := by
  unfold handle_ibus_button
  rw [if_neg (by rw [h]; decide)]

/-- The test of `handle_ibus_button` on the key code holds for every key code. -/
theorem key_code_test_always (k : Nat) : k ≠ KEY_UNKNOWN ∨ k ≠ RESERVED_BUTTON := by
  by_cases h : k = KEY_UNKNOWN
  · right
    rw [h]
    decide
  · left
    exact h

/-! ## The bytes behind the count -/

theorem getD_append_right_nat (a b : List Nat) (i : Nat) (h : a.length ≤ i) :
    (a ++ b).getD i 0 = b.getD (i - a.length) 0 := by
  simp [List.getD_eq_getElem?_getD, List.getElem?_append_right h]

theorem getD_drop_nat (l : List Nat) (n i : Nat) :
    (l.drop n).getD i 0 = l.getD (n + i) 0 := by
  simp [List.getD_eq_getElem?_getD, List.getElem?_drop]

theorem mem_of_getD_zero (l : List Nat) (i : Nat) (hi : i < l.length)
    (h : l.getD i 0 = 0) : 0 ∈ l := by
  rw [List.getD_eq_getElem?_getD, List.getElem?_eq_getElem hi] at h
  simp only [Option.getD_some] at h
  rw [← h]
  exact List.getElem_mem hi

theorem buffer_invariant_clear_buffer (s : Engine) : buffer_invariant (clear_buffer s) := by
  refine ⟨List.length_replicate _ _, ?_, fun i _ => getD_replicate_zero _ i⟩
  show 0 < ibus_data_max_length
  decide

theorem buffer_invariant_append_byte (s : Engine) (b : Nat) (h : buffer_invariant s) :
    buffer_invariant (append_byte s b) := by
  obtain ⟨hlen, hidx, hz⟩ := h
  by_cases hfull : s.ibus_data_index + 1 = ibus_data_max_length
  · rw [append_byte_full s b hfull]
    exact buffer_invariant_clear_buffer s
  · unfold append_byte
    simp only [hfull, if_false]
    refine ⟨?_, ?_, ?_⟩
    · simp only [List.length_set]
      exact hlen
    · show s.ibus_data_index + 1 < ibus_data_max_length
      omega
    · intro i hi
      show (s.ibus_data.set s.ibus_data_index b).getD i 0 = 0
      have hi2 : s.ibus_data_index + 1 ≤ i := hi
      rw [getD_set_other _ _ _ _ (by omega)]
      exact hz i (by omega)

theorem buffer_invariant_same_buffer (s t : Engine) (hb : same_buffer s t)
    (h : buffer_invariant s) : buffer_invariant t := by
  unfold buffer_invariant
  rw [hb.1, hb.2.1]
  exact h

theorem buffer_invariant_mark_valid (s : Engine) (n : Nat) (h : buffer_invariant s) :
    buffer_invariant (mark_valid s n) := h

/-- Removing the first candidate keeps the bytes behind the count zero. -/
theorem buffer_invariant_discard_message (s : Engine) (n : Nat) (h : buffer_invariant s) :
    buffer_invariant (discard_message s n) := by
  obtain ⟨hlen, hidx, hz⟩ := h
  unfold discard_message
  by_cases hge : s.ibus_data_index ≥ n
  · rw [if_pos hge]
    have hmlen : (memmove s.ibus_data 0 n (s.ibus_data_index - n)).length
        = ibus_data_max_length := by
      simp only [memmove, List.length_append, List.length_take, List.length_drop, hlen,
        List.take_zero, List.length_nil, Nat.zero_add]
      omega
    have htake : ((s.ibus_data.drop n).take (s.ibus_data_index - n)).length
        = s.ibus_data_index - n := by
      simp only [List.length_take, List.length_drop, hlen]
      omega
    have hmget : ∀ i, s.ibus_data_index - n ≤ i →
        (memmove s.ibus_data 0 n (s.ibus_data_index - n)).getD i 0 = s.ibus_data.getD i 0 := by
      intro i hi
      simp only [memmove, List.take_zero, List.nil_append, Nat.zero_add]
      rw [getD_append_right_nat _ _ _ (by rw [htake]; exact hi), htake, getD_drop_nat]
      congr 1
      omega
    have htake2 : ((memmove s.ibus_data 0 n (s.ibus_data_index - n)).take
        (s.ibus_data_index - n)).length = s.ibus_data_index - n := by
      rw [List.length_take, hmlen]
      omega
    refine ⟨?_, ?_, ?_⟩
    · show (memset _ _ _ _).length = ibus_data_max_length
      simp only [memset, List.length_append, List.length_take, List.length_drop,
        List.length_replicate, hmlen]
      omega
    · show s.ibus_data_index - n < ibus_data_max_length
      omega
    · intro i hi
      have hi2 : s.ibus_data_index - n ≤ i := hi
      show (memset _ _ _ _).getD i 0 = 0
      unfold memset
      by_cases hin : i < s.ibus_data_index
      · rw [getD_append_left _ _ _ (by
          rw [List.length_append, htake2, List.length_replicate]
          omega)]
        rw [getD_append_right_nat _ _ _ (by rw [htake2]; exact hi2)]
        exact getD_replicate_zero _ _
      · rw [getD_append_right_nat _ _ _ (by
          rw [List.length_append, htake2, List.length_replicate]
          omega)]
        rw [getD_drop_nat, List.length_append, htake2, List.length_replicate,
          hmget _ (by omega)]
        exact hz _ (by omega)
  · rw [if_neg hge]
    exact ⟨hlen, hidx, hz⟩

/-- Every call that returns leaves the buffer cleared. -/
theorem process_returns_cleared :
    ∀ (fuel : Nat) (s t : Engine), process_ibus_message fuel s = .ok t →
      t.ibus_data = List.replicate ibus_data_max_length 0 ∧ t.ibus_data_index = 0 := by
  intro fuel
  induction fuel with
  | zero =>
    intro s t h
    simp only [process_ibus_message] at h
    cases h
  | succ g ih =>
    intro s t h
    cases hv : validate_ibus_message g s with
    | error e =>
      rw [process_of_fault g s e hv] at h
      cases h
    | ok v =>
      cases v with
      | invalid_length =>
        rw [process_of_invalid_length g s hv] at h
        cases h
        exact ⟨rfl, rfl⟩
      | invalid_checksum =>
        rw [process_of_invalid_checksum g s hv] at h
        cases h
        exact ⟨rfl, rfl⟩
      | valid =>
        rw [process_of_valid g s hv] at h
        simp only [accept_message] at h
        cases h1 : handle_buttons (mark_valid s (get_message_length s.ibus_data)) with
        | error e =>
          rw [h1] at h
          cases h
        | ok s1 =>
          rw [h1] at h
          simp only at h
          cases h2 : handle_state s1 with
          | error e =>
            rw [h2] at h
            cases h
          | ok s2 =>
            rw [h2] at h
            simp only at h
            split at h
            · exact ih _ _ h
            · cases h
              exact ⟨rfl, rfl⟩

theorem buffer_invariant_reachable (s : Engine) (h : Reachable s) : buffer_invariant s := by
  induction h with
  | start hijack _ => exact buffer_invariant_clear_buffer (initial_engine hijack)
  | read s b _ _ ih => exact buffer_invariant_append_byte s b ih
  | process s t fuel _ hp _ =>
    obtain ⟨hd, hi⟩ := process_returns_cleared fuel s t hp
    have hc := buffer_invariant_clear_buffer t
    unfold buffer_invariant at hc ⊢
    rw [hd, hi]
    exact hc

theorem buffer_invariant_handlers (s s1 s2 : Engine) (h : buffer_invariant s)
    (h1 : handle_buttons (mark_valid s (get_message_length s.ibus_data)) = .ok s1)
    (h2 : handle_state s1 = .ok s2) : buffer_invariant s2 :=
  buffer_invariant_same_buffer _ _ (handle_state_same_buffer _ _ h2)
    (buffer_invariant_same_buffer _ _ (handle_buttons_same_buffer _ _ h1)
      (buffer_invariant_mark_valid s _ h))

theorem buffer_invariant_loop_state (s u : Engine) (hl : LoopState s u)
    (h : buffer_invariant s) : buffer_invariant u := by
  induction hl with
  | first s => exact h
  | next s s1 s2 u fuel _ h1 h2 _ _ ih =>
    exact ih (buffer_invariant_discard_message s2 _ (buffer_invariant_handlers s s1 s2 h h1 h2))

/-- The scan for the first zero byte from the data start on ends inside the buffer. -/
theorem scan_stops (s : Engine) (h : buffer_invariant s) :
    ∃ hay, c_string (s.ibus_data.drop EPosDataStart) = some hay ∧
      ∀ tag, data_contains s.ibus_data tag = .ok (strstr hay tag) := by
  obtain ⟨hlen, hidx, hz⟩ := h
  have hmem : 0 ∈ s.ibus_data.drop EPosDataStart := by
    apply mem_of_getD_zero _ 2051
    · rw [List.length_drop, hlen]
      decide
    · rw [getD_drop_nat]
      apply hz
      simp only [ibus_data_max_length, EPosDataStart] at hidx ⊢
      omega
  refine ⟨_, c_string_of_zero _ hmem, fun tag => ?_⟩
  unfold data_contains
  rw [c_string_of_zero _ hmem]

theorem handle_state_returns_of_invariant (s : Engine) (h : buffer_invariant s) :
    ∃ t, handle_state s = .ok t := by
  obtain ⟨hay, _, hscan⟩ := scan_stops s h
  unfold handle_state
  split
  · exact handle_headunit_state_returns s hay hscan
  · exact ⟨_, rfl⟩

theorem handle_ibus_button_fault (s : Engine) (button released longPress : Nat) (x : Fault)
    (h : handle_ibus_button s button released longPress = .error x) :
    x = Fault.table_out_of_bounds button := by
  unfold handle_ibus_button at h
  split at h
  · split at h
    · cases h
      rfl
    · split at h <;> cases h
  · cases h

theorem handle_buttons_fault (s : Engine) (x : Fault) (h : handle_buttons s = .error x) :
    x ≠ Fault.scan_out_of_bounds := by
  simp only [handle_buttons] at h
  split_ifs at h
  all_goals first
    | cases h
    | (rw [handle_ibus_button_fault _ _ _ _ _ h]
       intro hc
       cases hc)

/-- A call made with a well-kept buffer never scans beyond the buffer. -/
theorem process_no_scan_fault :
    ∀ (fuel : Nat) (s : Engine), buffer_invariant s →
      process_ibus_message fuel s ≠ .error Fault.scan_out_of_bounds := by
  intro fuel
  induction fuel with
  | zero =>
    intro s _ h
    simp only [process_ibus_message] at h
    cases h
  | succ g ih =>
    intro s hs h
    cases hv : validate_ibus_message g s with
    | error e =>
      rw [process_of_fault g s e hv, validate_fault g s e hv] at h
      cases h
    | ok v =>
      cases v with
      | invalid_length =>
        rw [process_of_invalid_length g s hv] at h
        cases h
      | invalid_checksum =>
        rw [process_of_invalid_checksum g s hv] at h
        cases h
      | valid =>
        rw [process_of_valid g s hv] at h
        simp only [accept_message] at h
        cases h1 : handle_buttons (mark_valid s (get_message_length s.ibus_data)) with
        | error e =>
          rw [h1] at h
          simp only at h
          cases h
          exact handle_buttons_fault _ _ h1 rfl
        | ok s1 =>
          rw [h1] at h
          simp only at h
          have hs1 : buffer_invariant s1 :=
            buffer_invariant_same_buffer _ _ (handle_buttons_same_buffer _ _ h1)
              (buffer_invariant_mark_valid s _ hs)
          obtain ⟨s2, h2⟩ := handle_state_returns_of_invariant s1 hs1
          rw [h2] at h
          simp only at h
          split at h
          · exact ih _ (buffer_invariant_discard_message s2 _
              (buffer_invariant_handlers s s1 s2 hs h1 h2)) h
          · cases h

/-- A loop state of a call is a state from which the call goes on as a call of its own. -/
theorem loop_state_process (s u : Engine) (hl : LoopState s u) :
    ∃ k m, ∀ n, process_ibus_message (k + m + n) s = process_ibus_message (k + n) u := by
  induction hl with
  | first s =>
    refine ⟨0, 0, fun n => ?_⟩
    simp
  | next s s1 s2 u fuel hv h1 h2 hi _ ih =>
    obtain ⟨k, m, ih⟩ := ih
    refine ⟨k + fuel, m + 1, fun n => ?_⟩
    have hvF : validate_ibus_message (k + fuel + m + n) s = .ok Verdict.valid := by
      have := validate_stable fuel (k + m + n) s _ hv (by simp)
      have e : k + fuel + m + n = fuel + (k + m + n) := by omega
      rw [e]
      exact this
    have e1 : k + fuel + (m + 1) + n = (k + fuel + m + n) + 1 := by omega
    rw [e1, process_of_valid _ _ hvF]
    have hacc : accept_message s (process_ibus_message (k + fuel + m + n))
        = process_ibus_message (k + fuel + m + n)
            (discard_message s2 (get_message_length s.ibus_data)) := by
      simp only [accept_message, h1, h2, hi, ne_eq, not_false_eq_true, if_true]
    have e2 : k + fuel + m + n = k + m + (fuel + n) := by omega
    have e3 : k + fuel + n = k + (fuel + n) := by omega
    rw [hacc, e2, ih, e3]

/-! ## Claims -/

set_option maxRecDepth 8000

/-- C1: when the first candidate is wholly buffered (declared total length `m` equal to the
length byte plus two, `5 ≤ m ≤ 255`, at least `m` bytes buffered), steps 1 and 2 accept it
exactly when byte `m-1` equals the XOR of the bytes `0 .. m-2`, and `process_ibus_message`
then hands it to steps 3 to 5 and otherwise leaves through `err`; `calc_ibus_checksum(k)`
returns the XOR of the first `k` bytes of the buffer (for every bound `k` an eight-bit
counter can reach). -/
theorem checksum_decides_acceptance (s : Engine) (fuel m : Nat)
    (hm : m = s.ibus_data.getD EPosLength 0 + 2) (h5 : 5 ≤ m) (h255 : m ≤ 255)
    (hidx : m ≤ s.ibus_data_index) (hb : bytes_below s.ibus_data m) (hf : 256 ≤ fuel) :
    (validate_ibus_message fuel s = .ok Verdict.valid ↔
        s.ibus_data.getD (m - 1) 0 = xor_first s.ibus_data (m - 1)) ∧
    process_ibus_message (fuel + 1) s =
      (if s.ibus_data.getD (m - 1) 0 = xor_first s.ibus_data (m - 1)
        then accept_message s (process_ibus_message fuel) else .ok (clear_buffer s)) ∧
    (∀ k, k ≤ 255 → bytes_below s.ibus_data k →
        calc_ibus_checksum fuel s.ibus_data k = .ok (xor_first s.ibus_data k)) := by
  have hlen : get_message_length s.ibus_data = m := by
    simp only [get_message_length, ESenderAndLengthLength, ← hm]
    omega
  have hv := validate_buffered fuel s (by omega) (by omega) (by omega)
    (by rw [hlen]; exact fun i hi => hb i (by omega)) hf
  rw [hlen] at hv
  refine ⟨?_, ?_, ?_⟩
  · rw [hv]
    by_cases hc : xor_first s.ibus_data (m - 1) = s.ibus_data.getD (m - 1) 0
    · simp [hc]
    · simp only [ne_eq, hc, not_false_eq_true, if_true]
      constructor
      · intro h
        cases h
      · intro h
        exact absurd h.symm hc
  · by_cases hc : s.ibus_data.getD (m - 1) 0 = xor_first s.ibus_data (m - 1)
    · rw [if_pos hc]
      apply process_of_valid
      rw [hv, if_neg (fun h => h hc.symm)]
    · rw [if_neg hc]
      apply process_of_invalid_checksum
      rw [hv, if_pos (fun h => hc h.symm)]
  · intro k hk hbk
    exact calc_ibus_checksum_eq fuel s.ibus_data k hk hbk (by omega)

/-- The frame `F0 04 68 48 00 D4` is accepted. -/
theorem checksum_decides_acceptance_witness :
    validate_ibus_message 256
      (load_buffer (initial_engine EStateUnknown) [0xF0, 0x04, 0x68, 0x48, 0x00, 0xD4])
      = .ok Verdict.valid :=
  (checksum_decides_acceptance
    (load_buffer (initial_engine EStateUnknown) [0xF0, 0x04, 0x68, 0x48, 0x00, 0xD4]) 256 6
    (by decide) (by decide) (by decide) (by decide) (by decide) (by decide)).1.mpr (by decide)

/-- C2: at the frames the claim includes with length bytes `0xFF` and `0xFE` the code does
not accept one candidate: `get_message_length` truncates the total to eight bits, so the
257-byte frame is taken for a one-byte candidate and the whole buffer is dropped with
nothing accepted, and on the 256-byte frame the candidate length is 0 and the checksum
loop never ends. -/
theorem long_frame_not_accepted :
    (well_formed_frame frame_257 ∧ frame_257.length = 0xFF + 2 ∧
      ∀ n, process_ibus_message (257 + n) (load_buffer (initial_engine EStateUnknown) frame_257)
        = .ok (initial_engine EStateUnknown)) ∧
    (well_formed_frame frame_256 ∧ frame_256.length = 0xFE + 2 ∧
      ∀ fuel, process_ibus_message fuel (load_buffer (initial_engine EStateUnknown) frame_256)
        = .error Fault.out_of_fuel) := by
  refine ⟨⟨by decide, by decide, ?_⟩, ⟨by decide, by decide, ?_⟩⟩
  · intro n
    have h := process_checksum_mismatch (257 + n)
      (load_buffer (initial_engine EStateUnknown) frame_257)
      (by decide) (by decide) (by decide) (by decide) (by decide) (by omega)
    rw [h]
    rfl
  · intro fuel
    cases fuel with
    | zero => rfl
    | succ f =>
      exact process_of_fault f _ _ (validate_hangs f _ (by decide) (by decide))

/-- C3: with the 257-byte frame first and the frame "arrow right pressed" second, both
well-formed, the code accepts no candidate at all: the truncated length makes the first
candidate one byte long, its check fails and the whole buffer is dropped. -/
theorem two_frames_long_first_dropped :
    well_formed_frame frame_257 ∧ well_formed_frame frame_arrow_right ∧
    ∀ n, process_ibus_message (257 + n)
        (load_buffer (initial_engine EStateUnknown) (frame_257 ++ frame_arrow_right))
      = .ok (initial_engine EStateUnknown) := by
  refine ⟨by decide, by decide, ?_⟩
  intro n
  have h := process_checksum_mismatch (257 + n)
    (load_buffer (initial_engine EStateUnknown) (frame_257 ++ frame_arrow_right))
    (by decide) (by decide) (by decide) (by decide) (by decide) (by omega)
  rw [h]
  rfl

/-- C9: five buffered bytes `F0 02 BA 48 06` declare a total length of 4, below the
minimum of 5; the code checks the four-byte candidate, whose fourth byte is the XOR of the
first three, forwards it, reads it as the radio-power button and changes the state to
power off, calling the video line. -/
theorem short_length_is_forwarded :
    bytes_short_length.getD EPosLength 0 + 2 < EMinimumMessageLength ∧
    ∀ n, process_ibus_message (257 + n)
        (load_buffer (initial_engine EStateUnknown) bytes_short_length)
      = .ok { initial_engine EStateUnknown with
              ibus_state := EStatePowerOff,
              trace := [Event.valid_message [0xF0, 0x02, 0xBA, 0x48],
                        Event.enable_video_input 0] } := by
  refine ⟨by decide, ?_⟩
  intro n
  exact process_stable n 257 _ _ rfl (by simp)

/-- C5: when the first candidate is wholly buffered and its last byte differs from the XOR
of the bytes before it, `process_ibus_message` returns with the engine as it was (same
trace, so no key event and no video-line call; same state and same key-forwarding flag)
and the buffer empty. -/
theorem checksum_mismatch_clears (s : Engine) (fuel m : Nat)
    (hm : m = s.ibus_data.getD EPosLength 0 + 2) (h5 : 5 ≤ m) (h255 : m ≤ 255)
    (hidx : m ≤ s.ibus_data_index) (hb : bytes_below s.ibus_data m)
    (hne : s.ibus_data.getD (m - 1) 0 ≠ xor_first s.ibus_data (m - 1)) (hf : 257 ≤ fuel) :
    process_ibus_message fuel s =
      .ok { s with ibus_data := List.replicate ibus_data_max_length 0, ibus_data_index := 0 } := by
  have hlen : get_message_length s.ibus_data = m := by
    simp only [get_message_length, ESenderAndLengthLength, ← hm]
    omega
  exact process_checksum_mismatch fuel s (by omega) (by omega) (by omega)
    (by rw [hlen]; exact fun i hi => hb i (by omega)) (by rw [hlen]; exact hne) hf

/-- The buffer `F0 04 68 47 00 DC` is dropped and nothing else changes. -/
theorem checksum_mismatch_clears_witness :
    process_ibus_message 257
        (load_buffer (hijacking_engine EStateTAPE) [0xF0, 0x04, 0x68, 0x47, 0x00, 0xDC])
      = .ok (hijacking_engine EStateTAPE) :=
  checksum_mismatch_clears
    (load_buffer (hijacking_engine EStateTAPE) [0xF0, 0x04, 0x68, 0x47, 0x00, 0xDC]) 257 6
    (by decide) (by decide) (by decide) (by decide) (by decide) (by decide) (by decide)

/-- C8, as stated, fails: with the three bytes `F0 04 68` buffered the call does not keep
them, it returns with the index at 0 and the bytes cleared. -/
theorem incomplete_frame_not_kept :
    process_ibus_message 257 (load_buffer (initial_engine EStateUnknown) [0xF0, 0x04, 0x68])
      = .ok (initial_engine EStateUnknown) ∧
    (load_buffer (initial_engine EStateUnknown) [0xF0, 0x04, 0x68]).ibus_data_index = 3 ∧
    (initial_engine EStateUnknown).ibus_data_index = 0 ∧
    (load_buffer (initial_engine EStateUnknown) [0xF0, 0x04, 0x68]).ibus_data.getD 0 0 = 0xF0 ∧
    (initial_engine EStateUnknown).ibus_data.getD 0 0 = 0 :=
  ⟨rfl, rfl, rfl, rfl, rfl⟩

/-- C8, amended: when fewer than 5 bytes are buffered, or fewer than the candidate length,
`process_ibus_message` dispatches nothing (the trace, the state and the key-forwarding flag
are as before) and clears the buffer. -/
theorem incomplete_frame_clears (s : Engine) (fuel : Nat)
    (h : s.ibus_data_index < 5 ∨ s.ibus_data_index < get_message_length s.ibus_data)
    (hf : 1 ≤ fuel) :
    process_ibus_message fuel s =
      .ok { s with ibus_data := List.replicate ibus_data_max_length 0, ibus_data_index := 0 } := by
  obtain ⟨f, rfl⟩ : ∃ f, fuel = f + 1 := ⟨fuel - 1, by omega⟩
  exact process_of_invalid_length f s (validate_short f s h)

/-- Three buffered bytes are dropped. -/
theorem incomplete_frame_clears_witness :
    process_ibus_message 1 (load_buffer (initial_engine EStateUnknown) [0xF0, 0x04, 0x68])
      = .ok (initial_engine EStateUnknown) :=
  incomplete_frame_clears (load_buffer (initial_engine EStateUnknown) [0xF0, 0x04, 0x68]) 1
    (by decide) (by decide)

/-- C6, as stated, fails: with key forwarding on, the bad candidate `F0 04 68 48 00 DC`
followed by the well-formed frame `F0 04 68 48 00 D4` leaves the trace as it was, although
the second frame alone is accepted and sends a key event. -/
theorem bad_then_good_dropped :
    well_formed_frame frame_arrow_right ∧
    process_ibus_message 257
        (load_buffer (hijacking_engine EStateTAPE) (frame_bad_checksum ++ frame_arrow_right))
      = .ok (hijacking_engine EStateTAPE) ∧
    process_ibus_message 257 (load_buffer (hijacking_engine EStateTAPE) frame_arrow_right)
      = .ok { hijacking_engine EStateTAPE with
              trace := [Event.enable_video_input 1, Event.valid_message frame_arrow_right,
                        Event.send_key_event KEY_UP 1] } :=
  ⟨by decide, rfl, rfl⟩

/-- C6, amended: when a candidate with a wrong checksum is followed in the buffer by more
bytes, whatever they are, `process_ibus_message` drops the whole buffer; nothing is
accepted and nothing is dispatched. -/
theorem bad_candidate_drops_rest (e : Engine) (bad rest : List Nat) (fuel : Nat)
    (hlen : bad.length = bad.getD EPosLength 0 + 2) (h5 : 5 ≤ bad.length)
    (h255 : bad.length ≤ 255) (hb : bytes_below bad bad.length)
    (hne : bad.getD (bad.length - 1) 0 ≠ xor_first bad (bad.length - 1))
    (hf : 257 ≤ fuel) :
    process_ibus_message fuel (load_buffer e (bad ++ rest)) =
      .ok { e with ibus_data := List.replicate ibus_data_max_length 0, ibus_data_index := 0 } := by
  have hget : ∀ i, i < bad.length →
      (load_buffer e (bad ++ rest)).ibus_data.getD i 0 = bad.getD i 0 := by
    intro i hi
    rw [getD_load_buffer, getD_append_left bad rest i hi]
  have h1 : (load_buffer e (bad ++ rest)).ibus_data.getD EPosLength 0 + 2 = bad.length := by
    rw [hget EPosLength (by simp only [EPosLength]; omega), hlen]
  have hidx : (load_buffer e (bad ++ rest)).ibus_data_index = bad.length + rest.length :=
    List.length_append bad rest
  have hx : xor_first (load_buffer e (bad ++ rest)).ibus_data (bad.length - 1)
      = xor_first bad (bad.length - 1) :=
    xor_first_congr _ _ _ (fun i hi => hget i (by omega))
  have hl : get_message_length (load_buffer e (bad ++ rest)).ibus_data = bad.length := by
    simp only [get_message_length, ESenderAndLengthLength, h1]
    omega
  have h := process_checksum_mismatch fuel (load_buffer e (bad ++ rest))
    (by omega) (by omega) (by omega)
    (by rw [hl]; exact fun i hi => by rw [hget i (by omega)]; exact hb i (by omega))
    (by rw [hl, hget _ (by omega), hx]; exact hne) hf
  rw [h]
  rfl

/-- The bad candidate `F0 04 68 48 00 DC` takes the frame behind it along. -/
theorem bad_candidate_drops_rest_witness :
    process_ibus_message 257
        (load_buffer (hijacking_engine EStateAUX) (frame_bad_checksum ++ frame_arrow_right))
      = .ok (hijacking_engine EStateAUX) :=
  bad_candidate_drops_rest (hijacking_engine EStateAUX) frame_bad_checksum frame_arrow_right 257
    (by decide) (by decide) (by decide) (by decide) (by decide) (by decide)

/-- C4, as stated, fails: `F0 04 68 47 00 DB` has message byte `0x47`, button bank 0, whose
code is read from the second data byte; with the state equal to the hijack state and key
forwarding on, the frame is accepted and no key event is sent. -/
theorem bank0_frame_sends_no_key :
    (hijacking_engine EStateTAPE).ibus_state = (hijacking_engine EStateTAPE).IbusHijackState ∧
    (hijacking_engine EStateTAPE).send_key_events = 1 ∧
    process_ibus_message 257 (load_buffer (hijacking_engine EStateTAPE) frame_bank0)
      = .ok { hijacking_engine EStateTAPE with
              trace := [Event.enable_video_input 1, Event.valid_message frame_bank0] } :=
  ⟨rfl, rfl, rfl⟩

/-- C4, amended: the button-bank-1 frame `F0 04 68 48 00 D4` is accepted and decoded as
arrow right, pressed. With the key-forwarding flag in agreement with the state and the
hijack state, it sends exactly one key event `(KEY_UP, 1)` when the state is the
configured hijack state, and nothing otherwise, so nothing when no hijack state is given;
no video-line call is made. -/
theorem arrow_right_frame_decoded (e : Engine) (fuel : Nat)
    (hgate : e.send_key_events = gate_of e) (hf : 257 ≤ fuel) :
    process_ibus_message fuel (load_buffer e frame_arrow_right) =
      .ok { e with
            ibus_data := List.replicate ibus_data_max_length 0, ibus_data_index := 0,
            trace := e.trace ++ Event.valid_message frame_arrow_right ::
              (if e.ibus_state = e.IbusHijackState ∧ e.IbusHijackState ≠ EStateUnknown
                then [Event.send_key_event KEY_UP 1] else []) } := by
  obtain ⟨f, rfl⟩ : ∃ f, fuel = 256 + f + 1 := ⟨fuel - 257, by omega⟩
  have hv : validate_ibus_message (256 + f) (load_buffer e frame_arrow_right)
      = .ok Verdict.valid := by
    rw [validate_congr (256 + f) (load_buffer e frame_arrow_right)
      (load_buffer (initial_engine EStateUnknown) frame_arrow_right) rfl rfl]
    exact validate_stable 256 f _ _ rfl (by simp)
  rw [process_of_valid _ _ hv]
  have hl : get_message_length (load_buffer e frame_arrow_right).ibus_data = 6 := rfl
  have hs : get_sender (mark_valid (load_buffer e frame_arrow_right) 6).ibus_data = BMBT := rfl
  have hm : get_message (mark_valid (load_buffer e frame_arrow_right) 6).ibus_data = BMBTB1 := rfl
  have hd : get_data_byte (mark_valid (load_buffer e frame_arrow_right) 6).ibus_data 0 = 0 := rfl
  have hp : clear_phase_bits 0 = (0, 0, 0) := rfl
  have hnp : ¬ ((0 : Nat) = ButtonRadioPower) := by decide
  have h1 : handle_buttons (mark_valid (load_buffer e frame_arrow_right) 6)
      = handle_ibus_button (mark_valid (load_buffer e frame_arrow_right) 6) 0 0 0 := by
    simp only [handle_buttons, hs, hm, hd, hp, hnp, if_true, if_false, and_self]
  by_cases hg : e.ibus_state = e.IbusHijackState ∧ e.IbusHijackState ≠ EStateUnknown
  · have hflag : (mark_valid (load_buffer e frame_arrow_right) 6).send_key_events ≠ 0 := by
      show e.send_key_events ≠ 0
      rw [hgate, gate_of, if_pos hg]
      decide
    have h2 : handle_ibus_button (mark_valid (load_buffer e frame_arrow_right) 6) 0 0 0
        = .ok (send_key_event (mark_valid (load_buffer e frame_arrow_right) 6) KEY_UP 1) := by
      unfold handle_ibus_button
      rw [if_pos hflag]
      rfl
    have h3 : handle_state (send_key_event (mark_valid (load_buffer e frame_arrow_right) 6)
        KEY_UP 1) = .ok (send_key_event (mark_valid (load_buffer e frame_arrow_right) 6)
        KEY_UP 1) := by
      have hsn : ¬ (get_sender (send_key_event (mark_valid (load_buffer e frame_arrow_right) 6)
          KEY_UP 1).ibus_data = RAD ∧ get_receiver (send_key_event (mark_valid
          (load_buffer e frame_arrow_right) 6) KEY_UP 1).ibus_data = GT) := by
        intro h
        have hs2 : get_sender (send_key_event (mark_valid (load_buffer e frame_arrow_right) 6)
          KEY_UP 1).ibus_data = BMBT := rfl
        exact absurd (hs2.symm.trans h.1) (by decide)
      unfold handle_state handle_headunit_state
      simp only [hsn, if_false]
      split <;> rfl
    rw [accept_message_last _ _ _ _ (by rw [hl, h1, h2]) h3 rfl, if_pos hg]
    simp only [clear_buffer, send_key_event, mark_valid, List.append_assoc]
    rfl
  · have hflag : ¬ (mark_valid (load_buffer e frame_arrow_right) 6).send_key_events ≠ 0 := by
      show ¬ e.send_key_events ≠ 0
      rw [hgate, gate_of, if_neg hg]
      decide
    have h2 : handle_ibus_button (mark_valid (load_buffer e frame_arrow_right) 6) 0 0 0
        = .ok (mark_valid (load_buffer e frame_arrow_right) 6) := by
      unfold handle_ibus_button
      rw [if_neg hflag]
    have h3 : handle_state (mark_valid (load_buffer e frame_arrow_right) 6)
        = .ok (mark_valid (load_buffer e frame_arrow_right) 6) := by
      have hsn : ¬ (get_sender (mark_valid (load_buffer e frame_arrow_right) 6).ibus_data = RAD
          ∧ get_receiver (mark_valid (load_buffer e frame_arrow_right) 6).ibus_data = GT) := by
        intro h
        exact absurd (hs.symm.trans h.1) (by decide)
      unfold handle_state handle_headunit_state
      simp only [hsn, if_false]
      split <;> rfl
    rw [accept_message_last _ _ _ _ (by rw [hl, h1, h2]) h3 rfl, if_neg hg]
    rfl

/-- With the state equal to the hijack state the frame sends one key event. -/
theorem arrow_right_frame_decoded_witness :
    process_ibus_message 257 (load_buffer (hijacking_engine EStateTAPE) frame_arrow_right)
      = .ok { hijacking_engine EStateTAPE with
              trace := [Event.enable_video_input 1, Event.valid_message frame_arrow_right,
                        Event.send_key_event KEY_UP 1] } :=
  arrow_right_frame_decoded (hijacking_engine EStateTAPE) 257 (by decide) (by decide)

/-- C7, as stated, fails for a bit of the length byte: the frame `F0 07 BD 48 06 00 00 00 04`
is well-formed, and with bit 2 of its length byte flipped its first five bytes are accepted
as a frame and dispatched, which changes the state to power off and calls the video line. -/
theorem length_bit_flip_accepted :
    well_formed_frame frame_nine ∧
    flip_bit frame_nine 1 2 = [0xF0, 0x03, 0xBD, 0x48, 0x06, 0x00, 0x00, 0x00, 0x04] ∧
    process_ibus_message 257 (load_buffer (initial_engine EStateUnknown) (flip_bit frame_nine 1 2))
      = .ok { initial_engine EStateUnknown with
              ibus_state := EStatePowerOff,
              trace := [Event.valid_message [0xF0, 0x03, 0xBD, 0x48, 0x06],
                        Event.enable_video_input 0] } :=
  ⟨by decide, rfl, rfl⟩

/-- C7, amended: for every well-formed frame of at most 255 bytes and every bit of every
byte other than the length byte, the frame with that bit flipped is rejected: the call
returns with nothing accepted, nothing dispatched and the buffer cleared. -/
theorem bit_flip_rejected (e : Engine) (f : List Nat) (i j fuel : Nat)
    (hwf : well_formed_frame f) (h255 : f.length ≤ 255) (hi : i < f.length)
    (hi1 : i ≠ EPosLength) (hj : j < 8) (hf : 257 ≤ fuel) :
    process_ibus_message fuel (load_buffer e (flip_bit f i j)) =
      .ok { e with ibus_data := List.replicate ibus_data_max_length 0, ibus_data_index := 0 } := by
  obtain ⟨h5, hlen, hb, hcs⟩ := hwf
  have hglen : (flip_bit f i j).length = f.length := List.length_set _ _ _
  have hpow : (2 : Nat) ^ j ≠ 0 := by positivity
  have hget : ∀ k, (load_buffer e (flip_bit f i j)).ibus_data.getD k 0
      = (flip_bit f i j).getD k 0 := fun k => getD_load_buffer e _ k
  have hg1 : (flip_bit f i j).getD EPosLength 0 = f.getD EPosLength 0 :=
    getD_set_other f i EPosLength _ (fun h => hi1 h.symm)
  have hl : get_message_length (load_buffer e (flip_bit f i j)).ibus_data = f.length := by
    rw [get_message_length_load_buffer, hg1, ← hlen]
    omega
  have hidx : (load_buffer e (flip_bit f i j)).ibus_data_index = f.length := hglen
  have hbytes : bytes_below (load_buffer e (flip_bit f i j)).ibus_data (f.length - 1) := by
    intro k hk
    rw [hget k]
    by_cases hki : k = i
    · subst hki
      rw [flip_bit, getD_set_self f k _ hi]
      exact xor_byte_lt (hb k hi) (two_pow_lt_256 j hj)
    · rw [flip_bit, getD_set_other f i k _ hki]
      exact hb k (by omega)
  have hne : (load_buffer e (flip_bit f i j)).ibus_data.getD (f.length - 1) 0
      ≠ xor_first (load_buffer e (flip_bit f i j)).ibus_data (f.length - 1) := by
    rw [hget, xor_first_load_buffer]
    by_cases hlast : i = f.length - 1
    · rw [flip_bit, hlast, getD_set_self f _ _ (by omega),
        xor_first_congr _ f (f.length - 1) (fun k hk => getD_set_other f _ k _ (by omega)),
        ← hcs]
      exact xor_mask_ne _ _ hpow
    · rw [flip_bit, getD_set_other f i _ _ (fun h => hlast h.symm),
        xor_first_set f i _ hi _ (by omega), ← hcs]
      exact fun h => xor_mask_ne _ _ hpow h.symm
  have h := process_checksum_mismatch fuel (load_buffer e (flip_bit f i j))
    (by omega) (by omega) (by omega) (by rw [hl]; exact hbytes) (by rw [hl]; exact hne) hf
  rw [h]
  rfl

/-- Bit 0 of the data byte of "arrow right pressed" flipped: the frame is dropped. -/
theorem bit_flip_rejected_witness :
    process_ibus_message 257
        (load_buffer (hijacking_engine EStateTAPE) (flip_bit frame_arrow_right 4 0))
      = .ok (hijacking_engine EStateTAPE) :=
  bit_flip_rejected (hijacking_engine EStateTAPE) frame_arrow_right 4 0 257
    (by decide) (by decide) (by decide) (by decide) (by decide) (by decide)

/-- C10: in every state reachable from start-up with hijack state none, tape or aux by
byte reads and returning calls of `process_ibus_message`, the key-forwarding flag is 1
exactly when the state is the hijack state and a hijack state is given, it is 0 otherwise,
and the last video-line call, if there was one, carried the value of the flag. -/
theorem gate_flag_invariant (s : Engine) (h : Reachable s) :
    (s.send_key_events = 1 ↔
      s.ibus_state = s.IbusHijackState ∧ s.IbusHijackState ≠ EStateUnknown) ∧
    (s.send_key_events = 0 ∨ s.send_key_events = 1) ∧
    (∀ v, last_video_call s.trace = some v → v = s.send_key_events) := by
  have hg := gate_consistent_reachable s h
  refine ⟨?_, ?_, hg.2⟩
  · rw [hg.1, gate_of]
    by_cases hc : s.ibus_state = s.IbusHijackState ∧ s.IbusHijackState ≠ EStateUnknown
    · simp [hc]
    · simp [hc]
  · rw [hg.1, gate_of]
    by_cases hc : s.ibus_state = s.IbusHijackState ∧ s.IbusHijackState ≠ EStateUnknown
    · right
      rw [if_pos hc]
    · left
      rw [if_neg hc]

/-- After the display text `0TAPE` was read and processed with hijack state tape, the flag
is 1 and the one video-line call carried 1. -/
theorem gate_flag_invariant_witness :
    process_ibus_message 257 (feed (initial_engine EStateTAPE) frame_text_tape)
      = .ok (engine_after_tape_text) ∧
    (engine_after_tape_text.send_key_events = 1 ↔
      engine_after_tape_text.ibus_state = engine_after_tape_text.IbusHijackState ∧
        engine_after_tape_text.IbusHijackState ≠ EStateUnknown) :=
  ⟨rfl, (gate_flag_invariant engine_after_tape_text
    (Reachable.process _ _ 257
      (reachable_feed frame_text_tape _ (Reachable.start EStateTAPE (by decide)) (by decide))
      rfl)).1⟩

/-- C11: with no hijack state given and the engine at start-up, so key forwarding off, the
knob message `F0 04 3B 49 81 07` sends a press and a release of the right-arrow key: the
knob branch calls `send_key_event` itself and never looks at `send_key_events`. -/
theorem knob_ignores_gate :
    Reachable (initial_engine EStateUnknown) ∧
    (initial_engine EStateUnknown).send_key_events = 0 ∧
    ∀ n, process_ibus_message (257 + n) (load_buffer (initial_engine EStateUnknown) frame_knob_once)
      = .ok { initial_engine EStateUnknown with
              trace := [Event.valid_message frame_knob_once,
                        Event.send_key_event KEY_RIGHT 1, Event.send_key_event KEY_RIGHT 0] } :=
  ⟨Reachable.start EStateUnknown (Or.inl rfl), rfl,
    fun n => process_stable n 257 _ _ rfl (by simp)⟩

/-- C13: with key forwarding on, `handle_ibus_button` sends the reserved sentinel `0xFFFF`
for the tone button (index 4) and the unmapped sentinel `KEY_UNKNOWN` for index 9 as key
codes; the test `key_code != KEY_UNKNOWN || key_code != RESERVED_BUTTON` holds for every
key code. The frame "tone pressed" sends `0xFFFF` through the whole engine. -/
theorem sentinel_buttons_are_sent :
    (headunit_buttons[4]?).map ibus_buttons.key_code = some RESERVED_BUTTON ∧
    handle_ibus_button (hijacking_engine EStateTAPE) 4 0 0
      = .ok (send_key_event (hijacking_engine EStateTAPE) RESERVED_BUTTON 1) ∧
    (headunit_buttons[9]?).map ibus_buttons.key_code = some KEY_UNKNOWN ∧
    handle_ibus_button (hijacking_engine EStateTAPE) 9 0 0
      = .ok (send_key_event (hijacking_engine EStateTAPE) KEY_UNKNOWN 1) ∧
    ∀ n, process_ibus_message (257 + n) (load_buffer (hijacking_engine EStateTAPE) frame_tone)
      = .ok { hijacking_engine EStateTAPE with
              trace := [Event.enable_video_input 1, Event.valid_message frame_tone,
                        Event.send_key_event 0xFFFF 1] } :=
  ⟨rfl, rfl, rfl, rfl, fun n => process_stable n 257 _ _ rfl (by simp)⟩

/-- C12: a well-formed knob message of six bytes from the on-board monitor with data byte
`b` is accepted and sends exactly `b AND 0x7F` press-then-release pairs, of the key of
table entry `0x35` (turned clockwise) when bit `0x80` of `b` is set and of the key of table
entry `0x36` (turned counter-clockwise) otherwise, whatever the state of the engine. -/
theorem knob_frame_decoded (e : Engine) (f : List Nat) (fuel b : Nat)
    (hwf : well_formed_frame f) (hlen : f.length = 6)
    (hs : get_sender f = BMBT) (hm : get_message f = KNOB)
    (hb : b = get_data_byte f 0) (hf : 257 ≤ fuel) :
    process_ibus_message fuel (load_buffer e f) =
      .ok { e with
            ibus_data := List.replicate ibus_data_max_length 0, ibus_data_index := 0,
            trace := e.trace ++ Event.valid_message f ::
              knob_pairs (if b &&& 0x80 ≠ 0 then key_code_at MenuKnobClockwiseMask
                          else key_code_at MenuKnobCounterClockwiseMask) (b &&& 0x7F) } := by
  have hbyte : b < 256 := by
    rw [hb]
    exact hwf.2.2.1 4 (by omega)
  have hs1 : get_sender (mark_valid (load_buffer e f) f.length).ibus_data = BMBT := by
    rw [← hs]
    exact getD_load_buffer e f _
  have hm1 : get_message (mark_valid (load_buffer e f) f.length).ibus_data = KNOB := by
    rw [← hm]
    exact getD_load_buffer e f _
  have hd1 : get_data_byte (mark_valid (load_buffer e f) f.length).ibus_data 0 = b := by
    rw [hb]
    exact getD_load_buffer e f _
  have hk1 : ¬ (KNOB = BMBTB1) := by decide
  have hk0 : ¬ (KNOB = BMBTB0) := by decide
  by_cases hcw : b &&& 0x80 ≠ 0
  · have hcw1 : b &&& ButtonMenuKnobClockwiseMask ≠ 0 := hcw
    have h1 : handle_buttons (mark_valid (load_buffer e f) f.length)
        = .ok (knob_loop (mark_valid (load_buffer e f) f.length)
            (key_code_at MenuKnobClockwiseMask) (b &&& 0x7F)) := by
      simp only [handle_buttons, hs1, hm1, hd1, hk1, hk0, hcw1, if_true, if_false, ne_eq,
        not_false_eq_true]
      rfl
    have h2 := handle_state_not_radio (knob_loop (mark_valid (load_buffer e f) f.length)
        (key_code_at MenuKnobClockwiseMask) (b &&& 0x7F)) (by
      rw [knob_loop_eq]
      show get_sender (mark_valid (load_buffer e f) f.length).ibus_data ≠ RAD
      rw [hs1]
      decide)
    rw [process_single_frame e f fuel hwf (by omega) hf _ _ h1 h2, if_pos hcw, knob_loop_eq,
      mark_valid_load_buffer]
    simp only [clear_buffer, load_buffer, List.append_assoc, List.singleton_append]
  · have hcw1 : ¬ (b &&& ButtonMenuKnobClockwiseMask ≠ 0) := hcw
    have hlow : b = b &&& 0x7F := low_seven_bits b hbyte (by simpa using hcw)
    have h1 : handle_buttons (mark_valid (load_buffer e f) f.length)
        = .ok (knob_loop (mark_valid (load_buffer e f) f.length)
            (key_code_at MenuKnobCounterClockwiseMask) (b &&& 0x7F)) := by
      simp only [handle_buttons, hs1, hm1, hd1, hk1, hk0, hcw1, if_true, if_false]
      rw [← hlow]
    have h2 := handle_state_not_radio (knob_loop (mark_valid (load_buffer e f) f.length)
        (key_code_at MenuKnobCounterClockwiseMask) (b &&& 0x7F)) (by
      rw [knob_loop_eq]
      show get_sender (mark_valid (load_buffer e f) f.length).ibus_data ≠ RAD
      rw [hs1]
      decide)
    rw [process_single_frame e f fuel hwf (by omega) hf _ _ h1 h2, if_neg hcw, knob_loop_eq,
      mark_valid_load_buffer]
    simp only [clear_buffer, load_buffer, List.append_assoc, List.singleton_append]

/-- The data byte `0x82` gives press, release, press, release of the right-arrow key. -/
theorem knob_frame_decoded_witness :
    process_ibus_message 257
        (load_buffer (initial_engine EStateAUX) [0xF0, 0x04, 0x3B, 0x49, 0x82, 0x04])
      = .ok { initial_engine EStateAUX with
              trace := [Event.valid_message [0xF0, 0x04, 0x3B, 0x49, 0x82, 0x04],
                        Event.send_key_event KEY_RIGHT 1, Event.send_key_event KEY_RIGHT 0,
                        Event.send_key_event KEY_RIGHT 1, Event.send_key_event KEY_RIGHT 0] } :=
  knob_frame_decoded (initial_engine EStateAUX) [0xF0, 0x04, 0x3B, 0x49, 0x82, 0x04] 257 0x82
    (by decide) (by decide) (by decide) (by decide) (by decide) (by decide)

/-- C14: a well-formed button-bank-1 frame from the on-board monitor whose data byte (the
byte at the first data position), after the phase bits are cleared, is the radio-power
code `0x06` leaves the state power off, whatever the engine was before; `handle_ibus_button` is called on the engine that
`ibus_change_state` has already switched to power off. -/
theorem power_frame_switches_off (e : Engine) (f : List Nat) (fuel : Nat)
    (hwf : well_formed_frame f) (h255 : f.length ≤ 255)
    (hs : get_sender f = BMBT) (hm : get_message f = BMBTB1)
    (hcode : (clear_phase_bits (get_data_byte f 0)).1 = ButtonRadioPower)
    (hf : 257 ≤ fuel) :
    ∃ t, handle_ibus_button
          (ibus_change_state (mark_valid (load_buffer e f) f.length) EStatePowerOff)
          ButtonRadioPower (clear_phase_bits (get_data_byte f 0)).2.1
          (clear_phase_bits (get_data_byte f 0)).2.2 = .ok t ∧
      (ibus_change_state (mark_valid (load_buffer e f) f.length) EStatePowerOff).ibus_state
        = EStatePowerOff ∧
      process_ibus_message fuel (load_buffer e f) = .ok (clear_buffer t) ∧
      (clear_buffer t).ibus_state = EStatePowerOff := by
  have hs1 : get_sender (mark_valid (load_buffer e f) f.length).ibus_data = BMBT := by
    rw [← hs]
    exact getD_load_buffer e f _
  have hm1 : get_message (mark_valid (load_buffer e f) f.length).ibus_data = BMBTB1 := by
    rw [← hm]
    exact getD_load_buffer e f _
  have hd1 : get_data_byte (mark_valid (load_buffer e f) f.length).ibus_data 0
      = get_data_byte f 0 := getD_load_buffer e f _
  obtain ⟨t, ht⟩ := handle_ibus_button_in_table
    (ibus_change_state (mark_valid (load_buffer e f) f.length) EStatePowerOff)
    ButtonRadioPower (clear_phase_bits (get_data_byte f 0)).2.1
    (clear_phase_bits (get_data_byte f 0)).2.2 (by decide)
  have hst := handle_ibus_button_state _ _ _ _ _ ht
  have hmode : t.ibus_state = EStatePowerOff := by
    rw [hst.1]
    exact ibus_change_state_state _ _
  have h1 : handle_buttons (mark_valid (load_buffer e f) f.length) = .ok t := by
    simp only [handle_buttons, hs1, hm1, hd1, hcode, if_true]
    exact ht
  have hb := handle_buttons_same_buffer _ _ h1
  have h2 := handle_state_not_radio t (by
    rw [hb.1, hs1]
    decide)
  exact ⟨t, ht, ibus_change_state_state _ _,
    process_single_frame e f fuel hwf h255 hf _ _ h1 h2, hmode⟩

/-- The frame "radio power pressed" in the hijack state tape: the state becomes power off,
one video-line call with 0 is made and no key event is sent. -/
theorem power_frame_switches_off_witness :
    process_ibus_message 257
        (load_buffer (hijacking_engine EStateTAPE) [0xF0, 0x04, 0x68, 0x48, 0x06, 0xD2])
      = .ok { hijacking_engine EStateTAPE with
              ibus_state := EStatePowerOff, send_key_events := 0,
              trace := [Event.enable_video_input 1,
                        Event.valid_message [0xF0, 0x04, 0x68, 0x48, 0x06, 0xD2],
                        Event.enable_video_input 0] } := by
  obtain ⟨t, ht, _, hp, _⟩ := power_frame_switches_off (hijacking_engine EStateTAPE)
    [0xF0, 0x04, 0x68, 0x48, 0x06, 0xD2] 257
    (by decide) (by decide) (by decide) (by decide) (by decide) (by decide)
  rw [hp]
  have ht2 : t = { hijacking_engine EStateTAPE with
      ibus_data := (load_buffer (hijacking_engine EStateTAPE)
        [0xF0, 0x04, 0x68, 0x48, 0x06, 0xD2]).ibus_data,
      ibus_data_index := 6,
      ibus_state := EStatePowerOff, send_key_events := 0,
      trace := [Event.enable_video_input 1,
                Event.valid_message [0xF0, 0x04, 0x68, 0x48, 0x06, 0xD2],
                Event.enable_video_input 0] } := by
    have h := ht.symm.trans (show handle_ibus_button _ _ _ _ = .ok _ from rfl)
    exact (Except.ok.inj h)
  rw [ht2]
  rfl

/-- C20, as stated, fails: with hijack state tape, the change from unknown to FM, two states
that both differ from the hijack state, calls the video line with 0 although key
forwarding was 0 before and is 0 after. -/
theorem transition_away_calls_video :
    (initial_engine EStateTAPE).send_key_events = 0 ∧
    (initial_engine EStateTAPE).ibus_state ≠ (initial_engine EStateTAPE).IbusHijackState ∧
    EStateFM ≠ (initial_engine EStateTAPE).IbusHijackState ∧
    ibus_change_state (initial_engine EStateTAPE) EStateFM
      = { initial_engine EStateTAPE with
          ibus_state := EStateFM, send_key_events := 0,
          trace := [Event.enable_video_input 0] } :=
  ⟨rfl, by decide, by decide, rfl⟩

/-- C20, amended: on every change to a state different from the current one,
`ibus_change_state` sets the key-forwarding flag to the newly derived value (1 when the new
state is the hijack state and a hijack state is given, else 0) and calls the video line
exactly once with that value, whether or not it is the value from before. -/
theorem transition_calls_video_once (s : Engine) (st : EIbusState)
    (h : s.ibus_state ≠ st) :
    ibus_change_state s st =
      { s with
        ibus_state := st,
        send_key_events :=
          if st = s.IbusHijackState ∧ s.IbusHijackState ≠ EStateUnknown then 1 else 0,
        trace := s.trace ++ [Event.enable_video_input
          (if st = s.IbusHijackState ∧ s.IbusHijackState ≠ EStateUnknown then 1 else 0)] } :=
  ibus_change_state_other s st h

/-- From menu to FM with hijack state aux: one video-line call with 0. -/
theorem transition_calls_video_once_witness :
    ibus_change_state { initial_engine EStateAUX with ibus_state := EStateMenu } EStateFM
      = { initial_engine EStateAUX with
          ibus_state := EStateFM, send_key_events := 0,
          trace := [Event.enable_video_input 0] } :=
  transition_calls_video_once { initial_engine EStateAUX with ibus_state := EStateMenu }
    EStateFM (by decide)

/-- C19: `ibus_change_state` called with the state the engine is in returns the engine as it
is: state, flag and trace unchanged, no video-line call. Consequently, when a buffer that
holds one message has been processed, processing the same message again returns with the
same state, the same flag and the same video-line calls as after the first time. -/
theorem same_message_twice (e e1 : Engine) (f : List Nat) (fuel : Nat)
    (hone : (f.getD EPosLength 0 + 2) % 256 = f.length)
    (h1 : process_ibus_message fuel (load_buffer e f) = .ok e1) :
    (∀ s, ibus_change_state s s.ibus_state = s) ∧
    ∃ e2, process_ibus_message fuel (load_buffer e1 f) = .ok e2 ∧
      e2.ibus_state = e1.ibus_state ∧ e2.send_key_events = e1.send_key_events ∧
      video_calls e2.trace = video_calls e1.trace := by
  refine ⟨fun s => ibus_change_state_same s _ rfl, ?_⟩
  cases fuel with
  | zero =>
    simp only [process_ibus_message] at h1
    cases h1
  | succ g =>
    have hv : validate_ibus_message g (load_buffer e1 f)
        = validate_ibus_message g (load_buffer e f) := validate_congr g _ _ rfl rfl
    have hl : get_message_length (load_buffer e f).ibus_data = f.length := by
      rw [get_message_length_load_buffer]
      exact hone
    have hl1 : get_message_length (load_buffer e1 f).ibus_data = f.length := by
      rw [get_message_length_load_buffer]
      exact hone
    cases hval : validate_ibus_message g (load_buffer e f) with
    | error x =>
      rw [process_of_fault g _ x hval] at h1
      cases h1
    | ok v =>
      rw [hval] at hv
      cases v with
      | invalid_length =>
        rw [process_of_invalid_length g _ hval] at h1
        cases h1
        exact ⟨_, process_of_invalid_length g _ hv, rfl, rfl, rfl⟩
      | invalid_checksum =>
        rw [process_of_invalid_checksum g _ hval] at h1
        cases h1
        exact ⟨_, process_of_invalid_checksum g _ hv, rfl, rfl, rfl⟩
      | valid =>
        rw [process_of_valid g _ hval] at h1
        cases hb : handle_buttons (mark_valid (load_buffer e f) f.length) with
        | error x =>
          simp only [accept_message, hl, hb] at h1
          cases h1
        | ok s1 =>
          cases hs : handle_state s1 with
          | error x =>
            simp only [accept_message, hl, hb, hs] at h1
            cases h1
          | ok s2 =>
            rw [accept_message_last _ s1 s2 _ (by rw [hl]; exact hb) hs hl.symm] at h1
            cases h1
            have hb1 := handle_buttons_same_buffer _ _ hb
            have hb2 := handle_state_same_buffer _ _ hs
            obtain ⟨u1, u2, hu1, hu2, hm, hfl, hvid⟩ := dispatch_again
              (mark_valid (load_buffer e f) f.length) s1 s2
              (mark_valid (load_buffer (clear_buffer s2) f) f.length) hb hs rfl
              (by
                show s2.IbusHijackState = e.IbusHijackState
                rw [hb2.2.2, hb1.2.2]
                rfl) rfl rfl
            refine ⟨clear_buffer u2, ?_, hm, hfl, ?_⟩
            · rw [process_of_valid g _ hv]
              exact accept_message_last _ u1 u2 _ (by rw [hl1]; exact hu1) hu2 hl1.symm
            · show video_calls u2.trace = video_calls s2.trace
              rw [hvid]
              simp [mark_valid, load_buffer, clear_buffer, video_calls_append, video_calls]

/-- The display text `0TAPE` processed a second time with hijack state tape: the state
stays tape, the flag stays 1 and no second video-line call is made. -/
theorem same_message_twice_witness :
    ∃ e2, process_ibus_message 257 (load_buffer engine_after_tape_text frame_text_tape)
        = .ok e2 ∧
      e2.ibus_state = EStateTAPE ∧ e2.send_key_events = 1 ∧
      video_calls e2.trace = [1] :=
  (same_message_twice (initial_engine EStateTAPE) engine_after_tape_text frame_text_tape 257
    (by decide) rfl).2

/-- C15, as stated, fails when no hijack state is given: the display text `0AUX` is
accepted and the state stays unknown, because the state handler is not called. -/
theorem aux_text_without_hijack :
    well_formed_frame frame_text_aux ∧
    contains_bytes (payload frame_text_aux) tag_AUX ∧
    process_ibus_message 257 (load_buffer (initial_engine EStateUnknown) frame_text_aux)
      = .ok { initial_engine EStateUnknown with
              trace := [Event.valid_message frame_text_aux] } :=
  ⟨by decide, (strstr_iff _ _).mp rfl, rfl⟩

/-- C15, amended: with a hijack state given, a well-formed display-text frame of at most
255 bytes from the radio to the graphics unit, alone in the buffer, with first data byte
`0x62` and whose text, the data bytes before the first zero byte, contains `AUX`, takes
the engine from state unknown to state aux and makes exactly one video-line call, with 1
when the hijack state is aux (and with 0 when it is not). -/
theorem aux_text_sets_aux (e : Engine) (f : List Nat) (fuel : Nat)
    (hwf : well_formed_frame f) (h255 : f.length ≤ 255)
    (hs : get_sender f = RAD) (hr : get_receiver f = GT) (hm : get_message f = UMID)
    (hl : get_data_byte f 0 = 0x62)
    (haux : contains_bytes (text_of (payload f)) tag_AUX)
    (hh : e.IbusHijackState ≠ EStateUnknown) (hmode : e.ibus_state = EStateUnknown)
    (hf : 257 ≤ fuel) :
    process_ibus_message fuel (load_buffer e f) =
      .ok { e with
            ibus_data := List.replicate ibus_data_max_length 0, ibus_data_index := 0,
            ibus_state := EStateAUX,
            send_key_events := if e.IbusHijackState = EStateAUX then 1 else 0,
            trace := e.trace ++ [Event.valid_message f, Event.enable_video_input
              (if e.IbusHijackState = EStateAUX then 1 else 0)] } := by
  have hacc := accessors_mark_valid e f
  have hscan : ∀ tag, data_contains (mark_valid (load_buffer e f) f.length).ibus_data tag
      = .ok (strstr (scanned_text f) tag) := fun tag =>
    data_contains_load_buffer e f tag (by simp only [ibus_data_max_length]; omega)
  have hfound : strstr (scanned_text f) tag_AUX = true :=
    (strstr_iff _ _).mpr (scanned_of_payload f tag_AUX hwf.1 haux)
  have ht := handle_headunit_state_display (mark_valid (load_buffer e f) f.length)
    (scanned_text f) (by rw [hacc.1]; exact hs) (by rw [hacc.2.1]; exact hr)
    (by rw [hacc.2.2.1]; exact hm) (by rw [hacc.2.2.2]; exact hl) hscan
  rw [if_pos hfound] at ht
  rw [process_state_frame e f fuel _ hwf h255 hs hh hf ht,
    ibus_change_state_other _ _ (by
      show e.ibus_state ≠ EStateAUX
      rw [hmode]
      decide),
    mark_valid_load_buffer]
  by_cases ha : e.IbusHijackState = EStateAUX
  · have hc : EStateAUX = e.IbusHijackState ∧ e.IbusHijackState ≠ EStateUnknown :=
      ⟨ha.symm, hh⟩
    simp only [clear_buffer, load_buffer, if_pos ha, if_pos hc, List.append_assoc,
      List.singleton_append]
  · have hc : ¬ (EStateAUX = e.IbusHijackState ∧ e.IbusHijackState ≠ EStateUnknown) :=
      fun h => ha h.1.symm
    simp only [clear_buffer, load_buffer, if_neg ha, if_neg hc, List.append_assoc,
      List.singleton_append]

/-- The display text `0AUX` with hijack state aux: the state becomes aux and the video
line is enabled once. -/
theorem aux_text_sets_aux_witness :
    process_ibus_message 257 (load_buffer (initial_engine EStateAUX) frame_text_aux)
      = .ok { initial_engine EStateAUX with
              ibus_state := EStateAUX, send_key_events := 1,
              trace := [Event.valid_message frame_text_aux, Event.enable_video_input 1] } :=
  aux_text_sets_aux (initial_engine EStateAUX) frame_text_aux 257
    (by decide) (by decide) (by decide) (by decide) (by decide) (by decide)
    ((strstr_iff _ _).mp rfl) (by decide) (by decide) (by decide)

/-- C16, as stated, fails: with hijack state tape, a display-text frame whose data bytes
are `62 00 41 55 58` contains `AUX`, but the scan stops at the zero byte and the state
stays unknown. -/
theorem aux_after_zero_byte_not_seen :
    well_formed_frame frame_text_nul_aux ∧
    get_data_byte frame_text_nul_aux 0 = 0x62 ∧
    contains_bytes (payload frame_text_nul_aux) tag_AUX ∧
    process_ibus_message 257 (load_buffer (initial_engine EStateTAPE) frame_text_nul_aux)
      = .ok { initial_engine EStateTAPE with
              trace := [Event.valid_message frame_text_nul_aux] } :=
  ⟨by decide, rfl, (strstr_iff _ _).mp rfl, rfl⟩

/-- C16, amended: with a hijack state given, for a well-formed display-text frame of at most
255 bytes from the radio to the graphics unit, alone in the buffer, with first data byte
`0x62`, and whose checksum byte completes no occurrence of `AUX` or `TAPE`: the text is the
data bytes before the first zero byte; if the text contains `AUX` the state becomes aux,
otherwise if it contains `TAPE` the state becomes tape, otherwise the state is unchanged. -/
theorem display_text_decides (e : Engine) (f : List Nat) (fuel : Nat)
    (hwf : well_formed_frame f) (h255 : f.length ≤ 255)
    (hs : get_sender f = RAD) (hr : get_receiver f = GT) (hm : get_message f = UMID)
    (hl : get_data_byte f 0 = 0x62)
    (hca : ¬ checksum_completes f tag_AUX) (hct : ¬ checksum_completes f tag_TAPE)
    (hh : e.IbusHijackState ≠ EStateUnknown) (hf : 257 ≤ fuel) :
    ∃ t, process_ibus_message fuel (load_buffer e f) = .ok t ∧
      (contains_bytes (text_of (payload f)) tag_AUX → t.ibus_state = EStateAUX) ∧
      (¬ contains_bytes (text_of (payload f)) tag_AUX →
        contains_bytes (text_of (payload f)) tag_TAPE → t.ibus_state = EStateTAPE) ∧
      (¬ contains_bytes (text_of (payload f)) tag_AUX →
        ¬ contains_bytes (text_of (payload f)) tag_TAPE → t.ibus_state = e.ibus_state) := by
  have hacc := accessors_mark_valid e f
  have hscan : ∀ tag, data_contains (mark_valid (load_buffer e f) f.length).ibus_data tag
      = .ok (strstr (scanned_text f) tag) := fun tag =>
    data_contains_load_buffer e f tag (by simp only [ibus_data_max_length]; omega)
  have ht := handle_headunit_state_display (mark_valid (load_buffer e f) f.length)
    (scanned_text f) (by rw [hacc.1]; exact hs) (by rw [hacc.2.1]; exact hr)
    (by rw [hacc.2.2.1]; exact hm) (by rw [hacc.2.2.2]; exact hl) hscan
  have hia := strstr_scanned_iff f tag_AUX hwf.1 hca
  have hit := strstr_scanned_iff f tag_TAPE hwf.1 hct
  refine ⟨_, process_state_frame e f fuel _ hwf h255 hs hh hf ht, ?_, ?_, ?_⟩
  · intro ha
    rw [if_pos (hia.mpr ha)]
    exact ibus_change_state_state _ _
  · intro hna hta
    rw [if_neg (fun h => hna (hia.mp h)), if_pos (hit.mpr hta)]
    exact ibus_change_state_state _ _
  · intro hna hnt
    rw [if_neg (fun h => hna (hia.mp h)), if_neg (fun h => hnt (hit.mp h))]
    rfl

/-- The display text `TAPE AUX` with hijack state tape: the state becomes aux. -/
theorem display_text_decides_witness :
    ∃ t, process_ibus_message 257 (load_buffer (initial_engine EStateTAPE) frame_text_tape_aux)
        = .ok t ∧ t.ibus_state = EStateAUX := by
  obtain ⟨t, ht, ha, _, _⟩ := display_text_decides (initial_engine EStateTAPE)
    frame_text_tape_aux 257 (by decide) (by decide) (by decide) (by decide) (by decide)
    (by decide)
    (not_checksum_completes_of_payload _ _ ((strstr_iff _ _).mp rfl))
    (not_checksum_completes_of_payload _ _ ((strstr_iff _ _).mp rfl))
    (by decide) (by decide)
  exact ⟨t, ht, ha ((strstr_iff _ _).mp rfl)⟩

/-- C17, as stated, fails: with hijack state tape, a screen-text frame whose data bytes are
`62 00 46 4D` contains `FM`, but the scan stops at the zero byte and the state stays
unknown. -/
theorem fm_after_zero_byte_not_seen :
    well_formed_frame frame_screen_nul_fm ∧
    get_data_byte frame_screen_nul_fm 0 = 0x62 ∧
    contains_bytes (payload frame_screen_nul_fm) tag_FM ∧
    process_ibus_message 257 (load_buffer (initial_engine EStateTAPE) frame_screen_nul_fm)
      = .ok { initial_engine EStateTAPE with
              trace := [Event.valid_message frame_screen_nul_fm] } :=
  ⟨by decide, rfl, (strstr_iff _ _).mp rfl, rfl⟩

/-- C17, amended: with a hijack state given, for a well-formed screen-text frame of at most
255 bytes from the radio to the graphics unit, alone in the buffer, with first data byte
`0x62`, and whose checksum byte completes no occurrence of `RDS`, `FM`, `REG` or `MWA`: the
text is the data bytes before the first zero byte; the state becomes FM if the text
contains one of the four, and is unchanged otherwise. -/
theorem screen_text_decides (e : Engine) (f : List Nat) (fuel : Nat)
    (hwf : well_formed_frame f) (h255 : f.length ≤ 255)
    (hs : get_sender f = RAD) (hr : get_receiver f = GT) (hm : get_message f = ST)
    (hl : get_data_byte f 0 = 0x62)
    (hc1 : ¬ checksum_completes f tag_RDS) (hc2 : ¬ checksum_completes f tag_FM)
    (hc3 : ¬ checksum_completes f tag_REG) (hc4 : ¬ checksum_completes f tag_MWA)
    (hh : e.IbusHijackState ≠ EStateUnknown) (hf : 257 ≤ fuel) :
    ∃ t, process_ibus_message fuel (load_buffer e f) = .ok t ∧
      (contains_bytes (text_of (payload f)) tag_RDS ∨
        contains_bytes (text_of (payload f)) tag_FM ∨
        contains_bytes (text_of (payload f)) tag_REG ∨
        contains_bytes (text_of (payload f)) tag_MWA → t.ibus_state = EStateFM) ∧
      (¬ contains_bytes (text_of (payload f)) tag_RDS →
        ¬ contains_bytes (text_of (payload f)) tag_FM →
        ¬ contains_bytes (text_of (payload f)) tag_REG →
        ¬ contains_bytes (text_of (payload f)) tag_MWA → t.ibus_state = e.ibus_state) := by
  have hacc := accessors_mark_valid e f
  have hscan : ∀ tag, data_contains (mark_valid (load_buffer e f) f.length).ibus_data tag
      = .ok (strstr (scanned_text f) tag) := fun tag =>
    data_contains_load_buffer e f tag (by simp only [ibus_data_max_length]; omega)
  have ht := handle_headunit_state_screen (mark_valid (load_buffer e f) f.length)
    (scanned_text f) (by rw [hacc.1]; exact hs) (by rw [hacc.2.1]; exact hr)
    (by rw [hacc.2.2.1]; exact hm) (by rw [hacc.2.2.2]; exact hl) hscan
  have hi1 := strstr_scanned_iff f tag_RDS hwf.1 hc1
  have hi2 := strstr_scanned_iff f tag_FM hwf.1 hc2
  have hi3 := strstr_scanned_iff f tag_REG hwf.1 hc3
  have hi4 := strstr_scanned_iff f tag_MWA hwf.1 hc4
  have hor : (strstr (scanned_text f) tag_RDS || strstr (scanned_text f) tag_FM
      || strstr (scanned_text f) tag_REG || strstr (scanned_text f) tag_MWA) = true ↔
      (contains_bytes (text_of (payload f)) tag_RDS ∨
        contains_bytes (text_of (payload f)) tag_FM ∨
        contains_bytes (text_of (payload f)) tag_REG ∨
        contains_bytes (text_of (payload f)) tag_MWA) := by
    simp only [Bool.or_eq_true, hi1, hi2, hi3, hi4, or_assoc]
  refine ⟨_, process_state_frame e f fuel _ hwf h255 hs hh hf ht, ?_, ?_⟩
  · intro hany
    rw [if_pos (hor.mpr hany)]
    exact ibus_change_state_state _ _
  · intro h1 h2 h3 h4
    rw [if_neg (fun h => by
      rcases hor.mp h with h | h | h | h
      · exact h1 h
      · exact h2 h
      · exact h3 h
      · exact h4 h)]
    rfl

/-- The screen text with `FM` and hijack state aux: the state becomes FM. -/
theorem screen_text_decides_witness :
    ∃ t, process_ibus_message 257 (load_buffer (initial_engine EStateAUX) frame_screen_fm)
        = .ok t ∧ t.ibus_state = EStateFM := by
  obtain ⟨t, ht, ha, _⟩ := screen_text_decides (initial_engine EStateAUX)
    frame_screen_fm 257 (by decide) (by decide) (by decide) (by decide) (by decide)
    (by decide)
    (not_checksum_completes_of_scan _ _ rfl)
    (not_checksum_completes_of_payload _ _ ((strstr_iff _ _).mp rfl))
    (not_checksum_completes_of_scan _ _ rfl)
    (not_checksum_completes_of_scan _ _ rfl)
    (by decide) (by decide)
  exact ⟨t, ht, ha (Or.inr (Or.inl ((strstr_iff _ _).mp rfl)))⟩

/-- C18: with a hijack state given, a well-formed LCD-clear frame from the radio to the
graphics unit, alone in the buffer, leaves the state menu when its data bytes are the one
byte `0x01` or the one byte `0x02`, and leaves the state as it was for every other frame:
for a frame of at most 255 bytes the call returns with that state, and for a frame of any
length no call returns with another state. -/
theorem lcd_clear_decides (e : Engine) (f : List Nat) (fuel : Nat)
    (hwf : well_formed_frame f)
    (hs : get_sender f = RAD) (hr : get_receiver f = GT) (hm : get_message f = LCDC)
    (hh : e.IbusHijackState ≠ EStateUnknown) (hf : 257 ≤ fuel) :
    (f.length ≤ 255 → ∃ t, process_ibus_message fuel (load_buffer e f) = .ok t ∧
      t.ibus_state = if payload f = [0x01] ∨ payload f = [0x02]
        then EStateMenu else e.ibus_state) ∧
    (∀ t, process_ibus_message fuel (load_buffer e f) = .ok t →
      t.ibus_state = if payload f = [0x01] ∨ payload f = [0x02]
        then EStateMenu else e.ibus_state) := by
  have hacc := accessors_mark_valid e f
  have hshort : f.length ≤ 255 → ∃ t, process_ibus_message fuel (load_buffer e f) = .ok t ∧
      t.ibus_state = if payload f = [0x01] ∨ payload f = [0x02]
        then EStateMenu else e.ibus_state := by
    intro h255
    have ht := handle_headunit_state_lcd (mark_valid (load_buffer e f) f.length)
      (by rw [hacc.1]; exact hs) (by rw [hacc.2.1]; exact hr) (by rw [hacc.2.2.1]; exact hm)
    refine ⟨_, process_state_frame e f fuel _ hwf h255 hs hh hf ht, ?_⟩
    have hiff := lcd_condition_iff e f hwf h255
    by_cases hc : payload f = [0x01] ∨ payload f = [0x02]
    · rw [if_pos (hiff.mpr hc), if_pos hc]
      exact ibus_change_state_state _ _
    · rw [if_neg (fun h => hc (hiff.mp h)), if_neg hc]
      rfl
  refine ⟨hshort, ?_⟩
  intro t ht
  by_cases h255 : f.length ≤ 255
  · obtain ⟨t2, ht2, hmode⟩ := hshort h255
    rw [ht2] at ht
    cases ht
    exact hmode
  · have h257 := frame_length_le f hwf
    have hlen := hwf.2.1
    have hp := payload_length f
    have hnot : ¬ (payload f = [0x01] ∨ payload f = [0x02]) := by
      intro h
      rcases h with h | h <;> rw [h] at hp <;> simp at hp <;> omega
    rw [if_neg hnot]
    have hidx : (load_buffer e f).ibus_data_index = f.length := rfl
    by_cases h256 : f.length = 256
    · have h0 : get_message_length (load_buffer e f).ibus_data = 0 := by
        rw [get_message_length_load_buffer]
        omega
      obtain ⟨g, rfl⟩ : ∃ g, fuel = g + 1 := ⟨fuel - 1, by omega⟩
      rw [process_of_fault g _ _ (validate_hangs g _ (by omega) h0)] at ht
      cases ht
    · have h1 : get_message_length (load_buffer e f).ibus_data = 1 := by
        rw [get_message_length_load_buffer]
        omega
      have hbad := process_checksum_mismatch fuel (load_buffer e f) (by omega) (by omega)
        (by omega) (by rw [h1]; exact fun i hi => absurd hi (by omega))
        (by
          rw [h1, getD_load_buffer]
          show get_sender f ≠ 0
          rw [hs]
          decide) hf
      rw [hbad] at ht
      cases ht
      rfl

/-- The frame "no display required" with hijack state tape: the state becomes menu. -/
theorem lcd_clear_decides_witness :
    ∃ t, process_ibus_message 257 (load_buffer (initial_engine EStateTAPE) frame_lcd_clear)
        = .ok t ∧ t.ibus_state = EStateMenu :=
  (lcd_clear_decides (initial_engine EStateTAPE) frame_lcd_clear 257
    (by decide) (by decide) (by decide) (by decide) (by decide) (by decide)).1 (by decide)

/-- C22: with the five bytes `00 FE 00 00 00` buffered, `process_ibus_message` does not
return, whatever the engine state and however long it runs: the candidate length is
`0xFE + 2` truncated to eight bits, 0, so `checksum_index` is `UINT_MAX` and the eight-bit
counter of `calc_ibus_checksum` never reaches it. -/
theorem length_fe_never_returns :
    bytes_length_fe.length = 5 ∧
    ∀ (e : Engine) (fuel : Nat),
      process_ibus_message fuel (load_buffer e bytes_length_fe) = .error Fault.out_of_fuel := by
  refine ⟨rfl, ?_⟩
  intro e fuel
  cases fuel with
  | zero => rfl
  | succ g =>
    have h5 : 5 ≤ (load_buffer e bytes_length_fe).ibus_data_index := by
      show 5 ≤ bytes_length_fe.length
      decide
    have h0 : get_message_length (load_buffer e bytes_length_fe).ibus_data = 0 := by
      rw [get_message_length_load_buffer]
      decide
    exact process_of_fault g _ _ (validate_hangs g _ h5 h0)

/-- C27: bank-1 frames with two data bytes and with no data byte are decoded as buttons.
`F0 05 68 48 06 00 D3` switches the state to power off; `F0 05 68 48 00 00 D5` sends the
arrow-right key when key forwarding is on; `F0 03 BD 48 06`, which has no data byte, has its
checksum byte read as the radio-power code and switches the state to power off. -/
theorem bank1_length_not_checked :
    (well_formed_frame frame_bank1_two_bytes ∧ payload frame_bank1_two_bytes = [0x06, 0x00] ∧
      ∀ n, process_ibus_message (257 + n)
          (load_buffer (initial_engine EStateUnknown) frame_bank1_two_bytes)
        = .ok { initial_engine EStateUnknown with
                ibus_state := EStatePowerOff,
                trace := [Event.valid_message frame_bank1_two_bytes,
                          Event.enable_video_input 0] }) ∧
    (well_formed_frame frame_bank1_two_zero ∧ payload frame_bank1_two_zero = [0x00, 0x00] ∧
      ∀ n, process_ibus_message (257 + n)
          (load_buffer (hijacking_engine EStateTAPE) frame_bank1_two_zero)
        = .ok { hijacking_engine EStateTAPE with
                trace := [Event.enable_video_input 1, Event.valid_message frame_bank1_two_zero,
                          Event.send_key_event KEY_UP 1] }) ∧
    (well_formed_frame frame_bank1_no_data ∧ payload frame_bank1_no_data = [] ∧
      ∀ n, process_ibus_message (257 + n)
          (load_buffer (initial_engine EStateUnknown) frame_bank1_no_data)
        = .ok { initial_engine EStateUnknown with
                ibus_state := EStatePowerOff,
                trace := [Event.valid_message frame_bank1_no_data,
                          Event.enable_video_input 0] }) :=
  ⟨⟨by decide, rfl, fun n => process_stable n 257 _ _ rfl (by simp)⟩,
   ⟨by decide, rfl, fun n => process_stable n 257 _ _ rfl (by simp)⟩,
   ⟨by decide, rfl, fun n => process_stable n 257 _ _ rfl (by simp)⟩⟩

/-- C28: the bank-0 frame `F0 04 68 47 D4 0F` has one data byte; the code is read from the
position of the second data byte, where this frame has its checksum byte `0F`, and with key
forwarding on the select-in-tape key is sent. -/
theorem bank0_reads_checksum :
    well_formed_frame frame_bank0_one_byte ∧ payload frame_bank0_one_byte = [0xD4] ∧
    ∀ n, process_ibus_message (257 + n)
        (load_buffer (hijacking_engine EStateTAPE) frame_bank0_one_byte)
      = .ok { hijacking_engine EStateTAPE with
              trace := [Event.enable_video_input 1, Event.valid_message frame_bank0_one_byte,
                        Event.send_key_event KEY_ESC 1] } :=
  ⟨by decide, rfl, fun n => process_stable n 257 _ _ rfl (by simp)⟩

/-- C29: the phase extraction of the two button banks on a byte `b`. If bit `0x40` is set:
long press, and the code is `b` without bit `0x40`, bit `0x80` as in `b`. Otherwise, if bit
`0x80` is set: release, and the code is `b` without bit `0x80`. Otherwise: press, and the
code is `b`. Bank 1 applies it to the first data byte, bank 0 to the second. -/
theorem phase_extraction (b : Nat) (hb : b < 256) :
    (b &&& 0x40 ≠ 0 →
      clear_phase_bits b = (b - 0x40, 0, 1) ∧ (b - 0x40) &&& 0x40 = 0 ∧
        (b - 0x40) &&& 0x80 = b &&& 0x80) ∧
    (b &&& 0x40 = 0 → b &&& 0x80 ≠ 0 →
      clear_phase_bits b = (b - 0x80, 1, 0) ∧ (b - 0x80) &&& 0x80 = 0) ∧
    (b &&& 0x40 = 0 → b &&& 0x80 = 0 → clear_phase_bits b = (b, 0, 0)) ∧
    (∀ s : Engine, get_sender s.ibus_data = BMBT → get_message s.ibus_data = BMBTB1 →
      get_data_byte s.ibus_data 0 = b →
      handle_buttons s =
        handle_ibus_button
          (if (clear_phase_bits b).1 = ButtonRadioPower
            then ibus_change_state s EStatePowerOff else s)
          (clear_phase_bits b).1 (clear_phase_bits b).2.1 (clear_phase_bits b).2.2) ∧
    (∀ s : Engine, get_sender s.ibus_data = BMBT → get_message s.ibus_data = BMBTB0 →
      get_data_byte s.ibus_data 1 = b →
      handle_buttons s =
        if (clear_phase_bits b).1 = ButtonSelectInTapeMode
        then handle_ibus_button s SelectInTapeMode (clear_phase_bits b).2.1
          (clear_phase_bits b).2.2
        else .ok s) := by
  obtain ⟨h1, h2, h3⟩ := clear_phase_bits_table b hb
  refine ⟨h1, h2, h3, ?_, ?_⟩
  · intro s hs hm hd
    rw [handle_buttons_bank1 s hs hm, hd]
  · intro s hs hm hd
    rw [handle_buttons_bank0 s hs hm, hd]

/-- The byte `0xC1`, long press of button 2 with the release bit set as well: long press,
code `0x81`. -/
theorem phase_extraction_witness : clear_phase_bits 0xC1 = (0x81, 0, 1) :=
  ((phase_extraction 0xC1 (by decide)).1 (by decide)).1

/-- C30: the data byte `0x3A` has no phase bit and stays `0x3A`, which is 58, the number of
entries of `headunit_buttons`; the data byte `0xC0` becomes `0x80`. With key forwarding on,
the frame `F0 04 68 48 3A EE` makes `handle_ibus_button` read the table beyond its end. -/
theorem button_code_beyond_table :
    headunit_buttons.length = 58 ∧
    (clear_phase_bits 0x3A).1 = 0x3A ∧ (clear_phase_bits 0xC0).1 = 0x80 ∧
    well_formed_frame frame_code_3a ∧
    ∀ n, process_ibus_message (257 + n)
        (load_buffer (hijacking_engine EStateTAPE) frame_code_3a)
      = .error (Fault.table_out_of_bounds 0x3A) :=
  ⟨rfl, rfl, rfl, by decide, fun n => process_stable n 257 _ _ rfl (by simp)⟩

/-- C21: a byte read into a buffer of `n` bytes is stored at position `n`, the bytes before
and after it stay, and the count becomes `n + 1`, as long as `n + 1` is below the size of
2056; the byte that makes the count 2056 clears the whole buffer and makes the count 0. So
bytes read one after the other, with no call of `process_ibus_message` between them, stay
in the buffer in their order until the 2056th clears it. -/
theorem append_contract (s : Engine) (b : Nat) (bytes : List Nat)
    (hlen : s.ibus_data.length = ibus_data_max_length)
    (hn : s.ibus_data_index < ibus_data_max_length)
    (hk : s.ibus_data_index + bytes.length ≤ ibus_data_max_length) :
    append_byte s b =
      (if s.ibus_data_index + 1 < ibus_data_max_length then
        { s with
          ibus_data := s.ibus_data.take s.ibus_data_index ++ b ::
            s.ibus_data.drop (s.ibus_data_index + 1),
          ibus_data_index := s.ibus_data_index + 1 }
      else
        { s with ibus_data := List.replicate ibus_data_max_length 0, ibus_data_index := 0 }) ∧
    feed s bytes =
      (if s.ibus_data_index + bytes.length < ibus_data_max_length then
        { s with
          ibus_data := s.ibus_data.take s.ibus_data_index ++ bytes ++
            s.ibus_data.drop (s.ibus_data_index + bytes.length),
          ibus_data_index := s.ibus_data_index + bytes.length }
      else
        { s with ibus_data := List.replicate ibus_data_max_length 0, ibus_data_index := 0 }) := by
  constructor
  · by_cases h1 : s.ibus_data_index + 1 < ibus_data_max_length
    · rw [if_pos h1]
      exact append_byte_below s b hlen h1
    · rw [if_neg h1]
      exact append_byte_full s b (by omega)
  · by_cases h1 : s.ibus_data_index + bytes.length < ibus_data_max_length
    · rw [if_pos h1]
      exact feed_below bytes s hlen h1
    · rw [if_neg h1]
      exact feed_full bytes s hlen hn (by omega)

/-- 2056 bytes read into the empty buffer leave the buffer empty. -/
theorem append_contract_witness :
    feed (initial_engine EStateUnknown) (List.replicate ibus_data_max_length 0x55)
      = initial_engine EStateUnknown := by
  have h := (append_contract (initial_engine EStateUnknown) 0x55
    (List.replicate ibus_data_max_length 0x55) (List.length_replicate _ _) (by decide)
    (by rw [List.length_replicate]; exact Nat.le_of_eq (Nat.zero_add _))).2
  rw [if_neg (by rw [List.length_replicate]; decide)] at h
  exact h

/-- C26: a well-formed secondary-bank frame (type `0x3B`) of at most 255 bytes from the
steering wheel to the radio, with `b` the byte at the first data position, is accepted; the
value sent is 0 (release) if bit `0x20` of `b` is set and 1 (press) otherwise; the key is the
one of table entry `0x38` (channel up) if bit `0x01` of `b` is set, the one of table entry
`0x39` (channel down) if bit `0x08` is set and bit `0x01` is not, and no key event is made
if neither bit is set; the key event is sent only while `send_key_events` is not 0. -/
theorem steering_wheel_frame_decoded (e : Engine) (f : List Nat) (fuel b : Nat)
    (hwf : well_formed_frame f) (h255 : f.length ≤ 255)
    (hs : get_sender f = MFL) (hr : get_receiver f = RAD) (hm : get_message f = MFLB2)
    (hb : b = get_data_byte f 0) (hf : 257 ≤ fuel) :
    key_code_at MFL2ChannelUp = KEY_UP ∧ key_code_at MFL2ChannelDown = KEY_DOWN ∧
    process_ibus_message fuel (load_buffer e f) =
      .ok { e with
            ibus_data := List.replicate ibus_data_max_length 0, ibus_data_index := 0,
            trace := e.trace ++ Event.valid_message f ::
              (if e.send_key_events ≠ 0 then
                if b &&& 0x01 ≠ 0 then
                  [Event.send_key_event KEY_UP (if b &&& 0x20 ≠ 0 then 0 else 1)]
                else if b &&& 0x08 ≠ 0 then
                  [Event.send_key_event KEY_DOWN (if b &&& 0x20 ≠ 0 then 0 else 1)]
                else []
              else []) } := by
  refine ⟨rfl, rfl, ?_⟩
  have hbyte : b < 256 := by
    rw [hb]
    exact hwf.2.2.1 4 (by have := hwf.1; omega)
  have hs1 : get_sender (mark_valid (load_buffer e f) f.length).ibus_data = MFL := by
    rw [← hs]
    exact getD_load_buffer e f _
  have hr1 : get_receiver (mark_valid (load_buffer e f) f.length).ibus_data = RAD := by
    rw [← hr]
    exact getD_load_buffer e f _
  have hm1 : get_message (mark_valid (load_buffer e f) f.length).ibus_data = MFLB2 := by
    rw [← hm]
    exact getD_load_buffer e f _
  have hd1 : get_data_byte (mark_valid (load_buffer e f) f.length).ibus_data 0 = b := by
    rw [hb]
    exact getD_load_buffer e f _
  have h1 := handle_buttons_mfl2 (mark_valid (load_buffer e f) f.length) hs1 hr1 hm1
    (by rw [hd1]; exact hbyte)
  rw [hd1] at h1
  have hb1 := handle_buttons_same_buffer _ _ h1
  have h2 := handle_state_not_radio _ (by
    rw [hb1.1, hs1]
    decide : get_sender (if (mark_valid (load_buffer e f) f.length).send_key_events ≠ 0 then
          if b &&& 0x01 ≠ 0 then
            send_key_event (mark_valid (load_buffer e f) f.length) KEY_UP
              (if b &&& 0x20 ≠ 0 then 0 else 1)
          else if b &&& 0x08 ≠ 0 then
            send_key_event (mark_valid (load_buffer e f) f.length) KEY_DOWN
              (if b &&& 0x20 ≠ 0 then 0 else 1)
          else mark_valid (load_buffer e f) f.length
        else mark_valid (load_buffer e f) f.length).ibus_data ≠ RAD)
  rw [process_single_frame e f fuel hwf h255 hf _ _ h1 h2, mark_valid_load_buffer]
  have hflag : ({ load_buffer e f with trace := e.trace ++ [Event.valid_message f] }
      : Engine).send_key_events = e.send_key_events := rfl
  rw [hflag]
  split_ifs <;>
    simp only [clear_buffer, load_buffer, send_key_event, List.append_assoc,
      List.singleton_append, List.append_nil]

/-- Channel up pressed (`0x01`) while key events are on sends the up key with value 1. -/
theorem steering_wheel_frame_decoded_witness :
    process_ibus_message 257
        (load_buffer (hijacking_engine EStateTAPE) [0x50, 0x04, 0x68, 0x3B, 0x01, 0x06])
      = .ok { hijacking_engine EStateTAPE with
              trace := [Event.enable_video_input 1,
                        Event.valid_message [0x50, 0x04, 0x68, 0x3B, 0x01, 0x06],
                        Event.send_key_event KEY_UP 1] } :=
  (steering_wheel_frame_decoded (hijacking_engine EStateTAPE)
    [0x50, 0x04, 0x68, 0x3B, 0x01, 0x06] 257 0x01
    (by decide) (by decide) (by decide) (by decide) (by decide) (by decide) (by decide)).2.2

/-- Frames of at most 255 bytes that ask for no state. For a well-formed frame of at most
255 bytes, alone in the buffer. First part: if
the frame is not one from the radio to the graphics unit and not a bank-1 frame of the
on-board monitor whose data byte clears to the radio-power code, every call that returns
leaves the state, `send_key_events` and the video-line calls as they were, and the call
does return unless the frame is a bank-1 frame whose code lies beyond the button table
while key events are on. Second part: if the sender is not the on-board monitor and the
frame is not one from the steering wheel to the radio, the call returns and has sent no
key event. -/
theorem other_frames_keep_mode (e : Engine) (f : List Nat) (fuel : Nat)
    (hwf : well_formed_frame f) (h255 : f.length ≤ 255) (hf : 257 ≤ fuel) :
    (¬ (get_sender f = RAD ∧ get_receiver f = GT) →
     ¬ (get_sender f = BMBT ∧ get_message f = BMBTB1 ∧
        (clear_phase_bits (get_data_byte f 0)).1 = ButtonRadioPower) →
      (∀ t, process_ibus_message fuel (load_buffer e f) = .ok t →
        t.ibus_state = e.ibus_state ∧ t.send_key_events = e.send_key_events ∧
        video_calls t.trace = video_calls e.trace) ∧
      ((e.send_key_events = 0 ∨ ¬ (get_sender f = BMBT ∧ get_message f = BMBTB1) ∨
          (clear_phase_bits (get_data_byte f 0)).1 < 58) →
        ∃ t, process_ibus_message fuel (load_buffer e f) = .ok t)) ∧
    (get_sender f ≠ BMBT → ¬ (get_sender f = MFL ∧ get_receiver f = RAD) →
      ∃ t, process_ibus_message fuel (load_buffer e f) = .ok t ∧
        key_events t.trace = key_events e.trace) := by
  have hacc := accessors_mark_valid e f
  have hmv := mark_valid_load_buffer e f
  have hvid : video_calls (mark_valid (load_buffer e f) f.length).trace
      = video_calls e.trace := by
    rw [hmv]
    simp [video_calls_append, video_calls]
  have hkey : key_events (mark_valid (load_buffer e f) f.length).trace
      = key_events e.trace := by
    rw [hmv]
    simp [key_events_append, key_events]
  constructor
  · intro hnr hnp
    have hnp1 : ¬ (get_sender (mark_valid (load_buffer e f) f.length).ibus_data = BMBT ∧
        get_message (mark_valid (load_buffer e f) f.length).ibus_data = BMBTB1 ∧
        (clear_phase_bits (get_data_byte (mark_valid (load_buffer e f) f.length).ibus_data 0)).1
          = ButtonRadioPower) := by
      rw [hacc.1, hacc.2.2.1, hacc.2.2.2]
      exact hnp
    have hstate : ∀ s1, handle_buttons (mark_valid (load_buffer e f) f.length) = .ok s1 →
        handle_state s1 = .ok s1 := by
      intro s1 h1
      have hb := handle_buttons_same_buffer _ _ h1
      apply handle_state_not_radio_gt
      rw [hb.1, hacc.1, hacc.2.1]
      exact hnr
    constructor
    · intro t ht
      rw [process_single_frame_eq e f fuel hwf h255 hf] at ht
      cases h1 : handle_buttons (mark_valid (load_buffer e f) f.length) with
      | error x =>
        rw [h1] at ht
        cases ht
      | ok s1 =>
        rw [h1] at ht
        dsimp only at ht
        rw [hstate s1 h1] at ht
        cases ht
        have hu := handle_buttons_state_unchanged _ _ h1 hnp1
        exact ⟨hu.1, hu.2.1, hu.2.2.trans hvid⟩
    · intro hret
      obtain ⟨s1, h1⟩ := handle_buttons_returns (mark_valid (load_buffer e f) f.length) (by
        rw [hacc.1, hacc.2.2.1, hacc.2.2.2]
        exact hret)
      exact ⟨_, process_single_frame e f fuel hwf h255 hf s1 s1 h1 (hstate s1 h1)⟩
  · intro hnb hnm
    have h1 := handle_buttons_other (mark_valid (load_buffer e f) f.length)
      (by rw [hacc.1]; exact hnb) (by rw [hacc.1, hacc.2.1]; exact hnm)
    obtain ⟨s2, h2⟩ := handle_state_returns (mark_valid (load_buffer e f) f.length) e f rfl
      (by simp only [ibus_data_max_length]; omega)
    refine ⟨_, process_single_frame e f fuel hwf h255 hf _ s2 h1 h2, ?_⟩
    exact (handle_state_key_events _ _ h2).trans hkey

/-- The frame "tone pressed" in the hijack state tape returns with the state, the flag and
the video-line calls it found; the frame `80 04 BF 11 01 2B` of the instrument cluster
returns with no key event sent. -/
theorem other_frames_keep_mode_witness :
    (∀ t, process_ibus_message 257 (load_buffer (hijacking_engine EStateTAPE) frame_tone) = .ok t →
      t.ibus_state = EStateTAPE ∧ t.send_key_events = 1 ∧ video_calls t.trace = [1]) ∧
    (∃ t, process_ibus_message 257 (load_buffer (hijacking_engine EStateTAPE) frame_tone)
      = .ok t) ∧
    (∃ t, process_ibus_message 257 (load_buffer (hijacking_engine EStateTAPE) frame_cluster)
      = .ok t ∧ key_events t.trace = []) :=
  ⟨((other_frames_keep_mode (hijacking_engine EStateTAPE) frame_tone 257
      (by decide) (by decide) (by decide)).1 (by decide) (by decide)).1,
   ((other_frames_keep_mode (hijacking_engine EStateTAPE) frame_tone 257
      (by decide) (by decide) (by decide)).1 (by decide) (by decide)).2 (by decide),
   (other_frames_keep_mode (hijacking_engine EStateTAPE) frame_cluster 257
      (by decide) (by decide) (by decide)).2 (by decide) (by decide)⟩

/-- C25: in every state the daemon can reach with no hijack state given, the state handler
`handle_state` does nothing, the state is unknown or power off, `send_key_events` is 0 and
every video-line call made so far carried 0; a well-formed frame of at most 255 bytes from
the radio (display text, screen text, LCD clear or any other) is accepted and changes
nothing but the trace, which gains the mark of the frame. -/
theorem no_hijack_no_state_machine (s : Engine) (h : Reachable s)
    (hh : s.IbusHijackState = EStateUnknown) :
    handle_state s = .ok s ∧
    (s.ibus_state = EStateUnknown ∨ s.ibus_state = EStatePowerOff) ∧
    s.send_key_events = 0 ∧
    (∀ v, v ∈ video_calls s.trace → v = 0) ∧
    (∀ f fuel, well_formed_frame f → f.length ≤ 255 → 257 ≤ fuel → get_sender f = RAD →
      process_ibus_message fuel (load_buffer s f) =
        .ok { s with
              ibus_data := List.replicate ibus_data_max_length 0, ibus_data_index := 0,
              trace := s.trace ++ [Event.valid_message f] }) := by
  have hoff := hijack_off_reachable s h hh
  refine ⟨handle_state_no_hijack s hh, hoff.2.1, hoff.2.2.1, hoff.2.2.2, ?_⟩
  intro f fuel hwf h255 hf hs
  have h1 := handle_buttons_radio (mark_valid (load_buffer s f) f.length)
    (by rw [(accessors_mark_valid s f).1]; exact hs)
  have h2 := handle_state_no_hijack (mark_valid (load_buffer s f) f.length) hh
  rw [process_single_frame s f fuel hwf h255 hf _ _ h1 h2, mark_valid_load_buffer]
  rfl

/-- With no hijack state and the radio switched off by `frame_power`, the display text
`0TAPE` is accepted and changes nothing but the trace. -/
theorem no_hijack_no_state_machine_witness :
    process_ibus_message 257 (load_buffer engine_powered_off frame_text_tape) =
      .ok { engine_powered_off with
            trace := [Event.valid_message frame_power, Event.enable_video_input 0,
                      Event.valid_message frame_text_tape] } :=
  (no_hijack_no_state_machine engine_powered_off
    (Reachable.process (feed (initial_engine EStateUnknown) frame_power) _ 257
      (reachable_feed frame_power _ (Reachable.start EStateUnknown (by decide)) (by decide))
      rfl) rfl).2.2.2.2 frame_text_tape 257 (by decide) (by decide) (by decide) (by decide)

/-- C23: when `process_ibus_message` finds a wrong checksum or a wrong length in the buffer
it returns, and the bytes read after that (fewer than the buffer holds) are processed as
they are from the start-up engine with an empty buffer put in the same state, hijack state
and key-forwarding flag: the next call has the same outcome, and if it returns it leaves
the same state and flag and has made the same calls (key events, video-line calls, marks
of valid frames), in the same order, after the calls made before. -/
theorem resync_after_error (s : Engine) (f : List Nat) (fuel fuel2 : Nat)
    (herr : validate_ibus_message fuel s = .ok Verdict.invalid_checksum ∨
      validate_ibus_message fuel s = .ok Verdict.invalid_length)
    (hlen : f.length < ibus_data_max_length) :
    ∃ t, process_ibus_message (fuel + 1) s = .ok t ∧
      process_ibus_message fuel2 (feed t f) =
        (process_ibus_message fuel2 (feed (fresh_engine s) f)).map (prepend_trace s.trace) ∧
      ∀ r0, process_ibus_message fuel2 (feed (fresh_engine s) f) = .ok r0 →
        ∃ r, process_ibus_message fuel2 (feed t f) = .ok r ∧
          r.ibus_state = r0.ibus_state ∧ r.send_key_events = r0.send_key_events ∧
          r.trace = s.trace ++ r0.trace ∧
          key_events r.trace = key_events s.trace ++ key_events r0.trace ∧
          video_calls r.trace = video_calls s.trace ++ video_calls r0.trace := by
  have ht : process_ibus_message (fuel + 1) s = .ok (clear_buffer s) := by
    rcases herr with h | h
    · exact process_of_invalid_checksum fuel s h
    · exact process_of_invalid_length fuel s h
  have h1 : feed (clear_buffer s) f = load_buffer s f :=
    feed_cleared (clear_buffer s) f rfl rfl hlen
  have h2 : feed (fresh_engine s) f = load_buffer (fresh_engine s) f :=
    feed_cleared (fresh_engine s) f rfl rfl hlen
  have h3 : load_buffer s f = prepend_trace s.trace (load_buffer (fresh_engine s) f) := by
    simp [prepend_trace, load_buffer, fresh_engine, initial_engine]
  have hmap : process_ibus_message fuel2 (feed (clear_buffer s) f) =
      (process_ibus_message fuel2 (feed (fresh_engine s) f)).map (prepend_trace s.trace) := by
    rw [h1, h2, h3]
    exact prepend_trace_process s.trace fuel2 _
  refine ⟨clear_buffer s, ht, hmap, ?_⟩
  intro r0 hr0
  rw [hr0] at hmap
  exact ⟨prepend_trace s.trace r0, hmap, rfl, rfl, rfl, key_events_append _ _,
    video_calls_append _ _⟩

/-- After the frame with the wrong checksum `F0 04 68 48 00 DC` was dropped in the hijack
state tape, the frame "arrow right pressed" sends the up key as it does from a fresh
engine in that state. -/
theorem resync_after_error_witness :
    process_ibus_message 257 (feed (fresh_engine (load_buffer (hijacking_engine EStateTAPE)
        frame_bad_checksum)) frame_arrow_right)
      = .ok { fresh_engine (hijacking_engine EStateTAPE) with
              trace := [Event.valid_message frame_arrow_right,
                        Event.send_key_event KEY_UP 1] } ∧
    ∃ t, process_ibus_message 257 (load_buffer (hijacking_engine EStateTAPE) frame_bad_checksum)
        = .ok t ∧
      process_ibus_message 257 (feed t frame_arrow_right) =
        (process_ibus_message 257 (feed (fresh_engine (load_buffer (hijacking_engine EStateTAPE)
          frame_bad_checksum)) frame_arrow_right)).map
          (prepend_trace (load_buffer (hijacking_engine EStateTAPE) frame_bad_checksum).trace) := by
  refine ⟨rfl, ?_⟩
  obtain ⟨t, h1, h2, _⟩ := resync_after_error
    (load_buffer (hijacking_engine EStateTAPE) frame_bad_checksum) frame_arrow_right 256 257
    (Or.inl rfl) (by decide)
  exact ⟨t, h1, h2⟩

/-- C33: in every state the daemon can reach from start-up (state unknown) the state is
not the CD-changer state; and from a reachable state that is not the unknown state, no
sequence of byte reads and of returning calls of `process_ibus_message` leads to the
unknown state again. -/
theorem mode_leaves_unknown_for_good (s : Engine) (h : Reachable s) :
    s.ibus_state ≠ EStateCDChanger ∧
    ∀ t, ReachableFrom s t → s.ibus_state ≠ EStateUnknown → t.ibus_state ≠ EStateUnknown :=
  ⟨reachable_not_cd_changer s h, fun t ht hs => reachable_from_not_unknown s t ht hs⟩

/-- After the display text `0TAPE` put the engine in the tape state, the frame "radio
power pressed" leads to a state that is not the unknown state. -/
theorem mode_leaves_unknown_for_good_witness :
    engine_after_tape_text.ibus_state ≠ EStateCDChanger ∧
    ∀ t, process_ibus_message 257 (feed engine_after_tape_text frame_power) = .ok t →
      t.ibus_state ≠ EStateUnknown := by
  have h := mode_leaves_unknown_for_good engine_after_tape_text
    (Reachable.process _ _ 257
      (reachable_feed frame_text_tape _ (Reachable.start EStateTAPE (by decide)) (by decide))
      rfl)
  refine ⟨h.1, fun t ht => h.2 t ?_ (by decide)⟩
  exact ReachableFrom.process (feed engine_after_tape_text frame_power) t 257
    (ReachableFrom.read _ _ (by decide) (ReachableFrom.read _ _ (by decide)
      (ReachableFrom.read _ _ (by decide) (ReachableFrom.read _ _ (by decide)
        (ReachableFrom.read _ _ (by decide) (ReachableFrom.read _ _ (by decide)
          ReachableFrom.here)))))) ht

/-- C34: in every state the daemon can reach (the hijack state is then none, tape or aux),
a well-formed bank-1 frame of at most 255 bytes from the on-board monitor whose data byte
clears to the radio-power code is accepted and sends no key event: `send_key_events` is 0
once `ibus_change_state(EStatePowerOff)` has run, before `handle_ibus_button` is called,
and the call returns in the state power off with the key events it found. -/
theorem power_frame_sends_no_key (s : Engine) (f : List Nat) (fuel : Nat)
    (hr : Reachable s) (hwf : well_formed_frame f) (h255 : f.length ≤ 255)
    (hs : get_sender f = BMBT) (hm : get_message f = BMBTB1)
    (hcode : (clear_phase_bits (get_data_byte f 0)).1 = ButtonRadioPower)
    (hf : 257 ≤ fuel) :
    (s.IbusHijackState = EStateUnknown ∨ s.IbusHijackState = EStateTAPE ∨
      s.IbusHijackState = EStateAUX) ∧
    (ibus_change_state (mark_valid (load_buffer s f) f.length) EStatePowerOff).send_key_events
      = 0 ∧
    ∃ t, process_ibus_message fuel (load_buffer s f) = .ok t ∧
      key_events t.trace = key_events s.trace ∧
      t.ibus_state = EStatePowerOff ∧ t.send_key_events = 0 := by
  have hh := reachable_hijack_state s hr
  have hg := (gate_consistent_reachable s hr).1
  have hacc := accessors_mark_valid s f
  have hnp : (mark_valid (load_buffer s f) f.length).IbusHijackState ≠ EStatePowerOff := by
    show s.IbusHijackState ≠ EStatePowerOff
    rcases hh with h | h | h <;> rw [h] <;> decide
  have hflag := ibus_change_state_power_off_flag (mark_valid (load_buffer s f) f.length)
    hg hnp
  have h1 : handle_buttons (mark_valid (load_buffer s f) f.length)
      = .ok (ibus_change_state (mark_valid (load_buffer s f) f.length) EStatePowerOff) := by
    rw [handle_buttons_bank1 _ (hacc.1.trans hs) (hacc.2.2.1.trans hm), hacc.2.2.2,
      if_pos hcode]
    exact handle_ibus_button_flag_off _ _ _ _ hflag
  have hb := handle_buttons_same_buffer _ _ h1
  have h2 := handle_state_not_radio
    (ibus_change_state (mark_valid (load_buffer s f) f.length) EStatePowerOff) (by
      rw [hb.1, hacc.1, hs]
      decide)
  refine ⟨hh, hflag, _, process_single_frame s f fuel hwf h255 hf _ _ h1 h2, ?_,
    ibus_change_state_state _ _, hflag⟩
  show key_events
    (ibus_change_state (mark_valid (load_buffer s f) f.length) EStatePowerOff).trace = _
  rw [ibus_change_state_key_events, mark_valid_load_buffer]
  simp [key_events_append, key_events]

/-- With key forwarding on in the tape state, the frame "radio power pressed" sends no
key event. -/
theorem power_frame_sends_no_key_witness :
    engine_after_tape_text.send_key_events = 1 ∧
    ∃ t, process_ibus_message 257 (load_buffer engine_after_tape_text frame_power) = .ok t ∧
      key_events t.trace = [] ∧ t.ibus_state = EStatePowerOff ∧ t.send_key_events = 0 :=
  ⟨rfl, (power_frame_sends_no_key engine_after_tape_text frame_power 257
    (Reachable.process _ _ 257
      (reachable_feed frame_text_tape _ (Reachable.start EStateTAPE (by decide)) (by decide))
      rfl)
    (by decide) (by decide) (by decide) (by decide) (by decide) (by decide)).2.2⟩

/-- C35: with `send_key_events` not 0 and `button` an index of the table,
`handle_ibus_button(button, released, longPress)` makes exactly one call of
`send_key_event`, with the key code of table entry `button` and with value 0 if `released`
is not 0 and value 1 otherwise; the outcome is the same for every value of `longPress`. -/
theorem button_event_value (s : Engine) (button released longPress : Nat)
    (hflag : s.send_key_events ≠ 0) (hb : button < headunit_buttons.length) :
    (headunit_buttons[button]?).map ibus_buttons.key_code = some (key_code_at button) ∧
    handle_ibus_button s button released longPress =
      .ok (send_key_event s (key_code_at button) (if released ≠ 0 then 0 else 1)) ∧
    ∀ other, handle_ibus_button s button released other
      = handle_ibus_button s button released longPress := by
  refine ⟨?_, ?_, fun _ => rfl⟩
  · unfold key_code_at
    rw [List.getElem?_eq_getElem hb]
    rfl
  · unfold handle_ibus_button key_code_at
    rw [if_pos hflag, List.getElem?_eq_getElem hb]
    simp only
    rw [if_pos (key_code_test_always _)]

/-- With key forwarding on, button 1 (index `0x11`) released sends the menu key with
value 0, also when the long-press argument is 1. -/
theorem button_event_value_witness :
    handle_ibus_button (hijacking_engine EStateTAPE) 0x11 1 1
      = .ok (send_key_event (hijacking_engine EStateTAPE) KEY_MENU 0) :=
  (button_event_value (hijacking_engine EStateTAPE) 0x11 1 1 (by decide) (by decide)).2.1

/-- C32: in every state the daemon can reach, and at the start of every iteration of the
loop of a call of `process_ibus_message` made in such a state, the buffer has its 2056
bytes, the count is below 2056 and every byte from the count on is zero. So the scan of
`data_contains` from the data start on finds a zero byte inside the buffer, and no call
reads beyond the buffer in a scan. -/
theorem buffer_tail_stays_zero (s : Engine) (h : Reachable s) :
    buffer_invariant s ∧
    (∀ u, LoopState s u →
      buffer_invariant u ∧
      (∃ k m, ∀ n, process_ibus_message (k + m + n) s = process_ibus_message (k + n) u) ∧
      ∃ hay, c_string (u.ibus_data.drop EPosDataStart) = some hay ∧
        ∀ tag, data_contains u.ibus_data tag = .ok (strstr hay tag)) ∧
    ∀ fuel, process_ibus_message fuel s ≠ .error Fault.scan_out_of_bounds := by
  have hs := buffer_invariant_reachable s h
  refine ⟨hs, fun u hu => ?_, fun fuel => process_no_scan_fault fuel s hs⟩
  have hu2 := buffer_invariant_loop_state s u hu hs
  exact ⟨hu2, loop_state_process s u hu, scan_stops u hu2⟩

/-- After the bytes of the display text `0TAPE` and of "radio power pressed" were read
into the empty buffer, the second iteration of the loop starts with the six bytes of the
second frame; there and before the call the bytes from the count on are zero. -/
theorem buffer_tail_stays_zero_witness :
    buffer_invariant (feed (initial_engine EStateTAPE) bytes_tape_then_power) ∧
    ∃ u, LoopState (feed (initial_engine EStateTAPE) bytes_tape_then_power) u ∧
      u.ibus_data_index = 6 ∧ buffer_invariant u := by
  have h := buffer_tail_stays_zero (feed (initial_engine EStateTAPE) bytes_tape_then_power)
    (reachable_feed bytes_tape_then_power _ (Reachable.start EStateTAPE (by decide))
      (by decide))
  have hl : LoopState (feed (initial_engine EStateTAPE) bytes_tape_then_power)
      (discard_message
        (ibus_change_state
          (mark_valid (feed (initial_engine EStateTAPE) bytes_tape_then_power) 11)
          EStateTAPE) 11) :=
    LoopState.next _
      (mark_valid (feed (initial_engine EStateTAPE) bytes_tape_then_power) 11)
      (ibus_change_state
        (mark_valid (feed (initial_engine EStateTAPE) bytes_tape_then_power) 11) EStateTAPE)
      _ 256 rfl rfl rfl (by decide) (LoopState.first _)
  exact ⟨h.1, _, hl, rfl, (h.2.1 _ hl).1⟩

/-- C31: the bytes that follow a frame in the buffer change how the frame is decoded.
With hijack state aux, the display text `68 05 3B 23 62 30 27` followed by the cluster
frame `80 06 BF 11 41 55 58 64` puts the engine in the state aux and switches the video
line on, because the text scan of the first frame runs on into the second and finds `AUX`
there; processed one by one the two frames leave the state unknown and make no video-line
call. With key forwarding on in the tape state, the bank-0 frame `F0 03 68 47 DC` followed
by `0F 03 68 01 65` sends the select-in-tape key, because the button code is read from the
first byte of the second frame; processed one by one the two frames send no key. -/
theorem following_bytes_change_decoding :
    (well_formed_frame frame_text_plain ∧ well_formed_frame frame_cluster_aux ∧
      (∀ n, process_ibus_message (257 + n)
          (load_buffer (initial_engine EStateAUX) (frame_text_plain ++ frame_cluster_aux))
        = .ok { initial_engine EStateAUX with
                ibus_state := EStateAUX, send_key_events := 1,
                trace := [Event.valid_message frame_text_plain, Event.enable_video_input 1,
                          Event.valid_message frame_cluster_aux] }) ∧
      (∀ n, process_one_by_one (257 + n) (initial_engine EStateAUX)
          [frame_text_plain, frame_cluster_aux]
        = .ok { initial_engine EStateAUX with
                trace := [Event.valid_message frame_text_plain,
                          Event.valid_message frame_cluster_aux] })) ∧
    (well_formed_frame frame_bank0_no_data ∧ well_formed_frame frame_sender_0f ∧
      (∀ n, process_ibus_message (257 + n)
          (load_buffer (hijacking_engine EStateTAPE) (frame_bank0_no_data ++ frame_sender_0f))
        = .ok { hijacking_engine EStateTAPE with
                trace := [Event.enable_video_input 1, Event.valid_message frame_bank0_no_data,
                          Event.send_key_event KEY_ESC 1,
                          Event.valid_message frame_sender_0f] }) ∧
      (∀ n, process_one_by_one (257 + n) (hijacking_engine EStateTAPE)
          [frame_bank0_no_data, frame_sender_0f]
        = .ok { hijacking_engine EStateTAPE with
                trace := [Event.enable_video_input 1, Event.valid_message frame_bank0_no_data,
                          Event.valid_message frame_sender_0f] })) := by
  have a1 : ∀ n, process_ibus_message (257 + n)
      (load_buffer (initial_engine EStateAUX) frame_text_plain)
      = .ok { initial_engine EStateAUX with
              trace := [Event.valid_message frame_text_plain] } :=
    fun n => process_stable n 257 _ _ rfl (by simp)
  have a2 : ∀ n, process_ibus_message (257 + n)
      (load_buffer { initial_engine EStateAUX with
                     trace := [Event.valid_message frame_text_plain] } frame_cluster_aux)
      = .ok { initial_engine EStateAUX with
              trace := [Event.valid_message frame_text_plain,
                        Event.valid_message frame_cluster_aux] } :=
    fun n => process_stable n 257 _ _ rfl (by simp)
  have b1 : ∀ n, process_ibus_message (257 + n)
      (load_buffer (hijacking_engine EStateTAPE) frame_bank0_no_data)
      = .ok { hijacking_engine EStateTAPE with
              trace := [Event.enable_video_input 1,
                        Event.valid_message frame_bank0_no_data] } :=
    fun n => process_stable n 257 _ _ rfl (by simp)
  have b2 : ∀ n, process_ibus_message (257 + n)
      (load_buffer { hijacking_engine EStateTAPE with
                     trace := [Event.enable_video_input 1,
                               Event.valid_message frame_bank0_no_data] } frame_sender_0f)
      = .ok { hijacking_engine EStateTAPE with
              trace := [Event.enable_video_input 1, Event.valid_message frame_bank0_no_data,
                        Event.valid_message frame_sender_0f] } :=
    fun n => process_stable n 257 _ _ rfl (by simp)
  refine ⟨⟨by decide, by decide, fun n => process_stable n 257 _ _ rfl (by simp), fun n => ?_⟩,
    ⟨by decide, by decide, fun n => process_stable n 257 _ _ rfl (by simp), fun n => ?_⟩⟩
  · simp only [process_one_by_one, a1 n, a2 n]
  · simp only [process_one_by_one, b1 n, b2 n]

/-- C24: two well-formed frames of 257 bytes from the body module, which are neither from
the radio to the graphics unit nor from the on-board monitor nor from the steering wheel,
change the state and send key events. `get_message_length` truncates the total of
`0xFF + 2` bytes to 1, so the first byte `00` is taken for a valid candidate and the data
bytes of the frame are parsed as candidates of their own: the bytes of "radio power
pressed" inside `frame_long_power` switch the state to power off and make a video-line
call, and the bytes of the knob message inside `frame_long_knob` send a press and a
release of the right-arrow key. -/
theorem long_frame_is_parsed_inside :
    (well_formed_frame frame_long_power ∧ frame_long_power.length = 257 ∧
      get_sender frame_long_power = 0x00 ∧ get_receiver frame_long_power = 0xBF ∧
      ∀ n, process_ibus_message (257 + n)
          (load_buffer (initial_engine EStateUnknown) frame_long_power)
        = .ok { initial_engine EStateUnknown with
                ibus_state := EStatePowerOff,
                trace := [Event.valid_message [0x00],
                          Event.valid_message bytes_inner_candidate,
                          Event.valid_message frame_power,
                          Event.enable_video_input 0] }) ∧
    (well_formed_frame frame_long_knob ∧ frame_long_knob.length = 257 ∧
      get_sender frame_long_knob = 0x00 ∧ get_receiver frame_long_knob = 0xBF ∧
      ∀ n, process_ibus_message (257 + n)
          (load_buffer (initial_engine EStateUnknown) frame_long_knob)
        = .ok { initial_engine EStateUnknown with
                trace := [Event.valid_message [0x00],
                          Event.valid_message bytes_inner_candidate,
                          Event.valid_message frame_knob_once,
                          Event.send_key_event KEY_RIGHT 1,
                          Event.send_key_event KEY_RIGHT 0] }) :=
  ⟨⟨by decide, rfl, rfl, rfl, fun n => process_stable n 257 _ _ rfl (by simp)⟩,
   ⟨by decide, rfl, rfl, rfl, fun n => process_stable n 257 _ _ rfl (by simp)⟩⟩

end BmwIbus
